import Mathlib

/-!
DFU control core for the Pearl Gecko (`dfu_gecko_lib.c`).

A shallow embedding of `src/dfu_gecko/dfu_gecko_lib.c`.

* Bytes, addresses and the C integer variables are natural numbers or
  integers; every place where the C code converts to an unsigned 32-bit or an
  8-bit type carries an explicit `% 2^32` or `% 256`.
* The static variables of the translation unit form one record, `Globals`,
  threaded through every function.
* The flash driver, the SHA-1 primitive and `crc32_ieee_update` are external
  to the file; they are the fields of an environment record `Env`.
* Loops that the C code does not bound (`while (notdone)`, the chunk loop,
  `while (!fw_upgrade_done)`) take a fuel argument; `none` means that the fuel
  ran out before the loop was left.
* A file is its content, a read position, the list of `fs_read` calls that
  fail, and whether its handle is in use; a healthy `fs_read` delivers the next
  `min n remaining` bytes and leaves the rest of the destination buffer as it
  was. `fs_open` on a handle that is in use fails, as the Zephyr file system
  does with `-EBUSY`, and the only `fs_close` of the file is the one before the
  reboot.
* `char` is unsigned, as on the ARM target. `sys_reboot` does not return: a
  call of `dfu_gecko_write_image` ends by returning a value or by rebooting.
* Diagnostic output (`printf`, `printk`, `LOG_DEBUG`) is left out.
-/

namespace DfuGecko

/-! ## Image headers and versions -/

/-- The C `struct image_version`. -/
structure image_version where
  iv_major : Nat
  iv_minor : Nat
  iv_revision : Nat
  iv_build_num : Nat
deriving DecidableEq, Repr

/-- The C `struct image_header`; the trailing `_pad1` word is neither read nor
written by any function of the file and is left out. -/
structure image_header where
  ih_magic : Nat
  ih_load_addr : Nat
  ih_hdr_size : Nat
  ih_protect_tlv_size : Nat
  ih_img_size : Nat
  ih_flags : Nat
  ih_ver : image_version
deriving DecidableEq, Repr

/-- The byte `buf[i]` of a `uint8_t` buffer. -/
def byteAt (buf : List Nat) (i : Nat) : Nat := buf.getD i 0 % 256

/-- The macro `POP(var, 16)`: the little-endian 16-bit value at the cursor, and
the cursor advanced by two bytes. -/
def POP16 (var : List Nat) : Nat × List Nat :=
  (byteAt var 0 + 256 * byteAt var 1, var.drop 2)

/-- The macro `POP(var, 32)`: the little-endian 32-bit value at the cursor, and
the cursor advanced by four bytes. -/
def POP32 (var : List Nat) : Nat × List Nat :=
  (byteAt var 0 + 256 * byteAt var 1 + 65536 * byteAt var 2 + 16777216 * byteAt var 3,
   var.drop 4)

/-- The C `deserialize_magic_hdr`, for non-null `dst` and `read_buf`. -/
def deserialize_magic_hdr (read_buf : List Nat) : image_header :=
  let (ih_magic, read_buf) := POP32 read_buf
  let (ih_load_addr, read_buf) := POP32 read_buf
  let (ih_hdr_size, read_buf) := POP16 read_buf
  let (ih_protect_tlv_size, read_buf) := POP16 read_buf
  let (ih_img_size, read_buf) := POP32 read_buf
  let (ih_flags, read_buf) := POP32 read_buf
  let iv_major := byteAt read_buf 0
  let read_buf := read_buf.drop 1
  let iv_minor := byteAt read_buf 0
  let read_buf := read_buf.drop 1
  let (iv_revision, read_buf) := POP16 read_buf
  let (iv_build_num, _) := POP32 read_buf
  { ih_magic := ih_magic, ih_load_addr := ih_load_addr, ih_hdr_size := ih_hdr_size,
    ih_protect_tlv_size := ih_protect_tlv_size, ih_img_size := ih_img_size,
    ih_flags := ih_flags,
    ih_ver := { iv_major := iv_major, iv_minor := iv_minor, iv_revision := iv_revision,
                iv_build_num := iv_build_num } }

/-- The C `slot_version_cmp`: `0` when `ver1` is newer, `1` when `ver2` is
newer, `-1` when major, minor and revision are all equal. -/
def slot_version_cmp (ver1 ver2 : image_version) : Int :=
  if ver1.iv_major > ver2.iv_major then 0
  else if ver1.iv_major < ver2.iv_major then 1
  else if ver1.iv_minor > ver2.iv_minor then 0
  else if ver1.iv_minor < ver2.iv_minor then 1
  else if ver1.iv_revision > ver2.iv_revision then 0
  else if ver1.iv_revision < ver2.iv_revision then 1
  else -1

/-- The C `get_oldest_slot`. `DFU_IMAGE_MAGIC` comes from a header that is not
part of the sources and is a parameter; `slot0_buf` and `slot1_buf` are what the
two `flash_read` calls leave in `read_buf`. -/
def get_oldest_slot (DFU_IMAGE_MAGIC : Nat) (slot0_buf slot1_buf : List Nat) : Int :=
  let slot0_hdr := deserialize_magic_hdr slot0_buf
  let slot1_hdr := deserialize_magic_hdr slot1_buf
  let slot0_has_image : Bool := decide (slot0_hdr.ih_magic = DFU_IMAGE_MAGIC)
  let oldest_slot : Int := if slot0_has_image then 1 else 0
  let slot1_has_image : Bool := decide (slot1_hdr.ih_magic = DFU_IMAGE_MAGIC)
  let oldest_slot : Int := if slot1_has_image then 0 else oldest_slot
  if slot0_has_image && slot1_has_image then
    let oldest_slot := slot_version_cmp slot0_hdr.ih_ver slot1_hdr.ih_ver
    if oldest_slot < 0 then -1
    else if oldest_slot = 1 then 0 else 1
  else if !slot0_has_image && !slot1_has_image then 0
  else oldest_slot

/-- The ordering key of a version: major, then minor, then revision, compared
lexicographically; the build number is not part of it. -/
def ver_key (v : image_version) : Lex (Nat × Lex (Nat × Nat)) :=
  toLex (v.iv_major, toLex (v.iv_minor, v.iv_revision))

/-- A 32-byte header buffer with the given magic and version, all other fields
zero. -/
def mk_hdr_buf (magic major minor revision build : Nat) : List Nat :=
  [magic % 256, magic / 256 % 256, magic / 65536 % 256, magic / 16777216 % 256,
   0, 0, 0, 0, 0, 0, 0, 0, 0, 0, 0, 0, 0, 0, 0, 0,
   major % 256, minor % 256, revision % 256, revision / 256 % 256,
   build % 256, build / 256 % 256, build / 65536 % 256, build / 16777216 % 256,
   0, 0, 0, 0]

/-- The value of `IMAGE_MAGIC` in the source file. -/
def IMAGE_MAGIC : Nat := 0x96f3b83d

/-! ## External collaborators -/

/-- One call issued against the flash driver `gecko_flash_dev`. -/
inductive FlashOp where
  | erase (addr len : Nat)
  | write (addr : Nat) (data : List Nat)
  | read (addr len : Nat)
deriving DecidableEq, Repr

/-- The kind of a flash call. -/
inductive FlashKind where
  | erase | write | read
deriving DecidableEq, Repr

/-- The kind and the address of a flash call. -/
def FlashOp.shape : FlashOp → FlashKind × Nat
  | .erase a _ => (.erase, a)
  | .write a _ => (.write, a)
  | .read a _ => (.read, a)

/-- The functions the file calls but does not define. `σ` is the state of the
flash device and `κ` the type of an `mbedtls_sha1_context`.

* `flash_erase s addr len` and `flash_write s addr data` give the new device
  state and the driver's return value (`0` is success);
* `flash_read s addr len` gives the new device state and the bytes delivered;
* `sha1_starts` is the context after `mbedtls_sha1_init` and
  `mbedtls_sha1_starts`; `sha1_finish` gives the context it leaves and the
  digest it writes. -/
structure Env (σ κ : Type) where
  flash_erase : σ → Nat → Nat → σ × Int
  flash_write : σ → Nat → List Nat → σ × Int
  flash_read : σ → Nat → Nat → σ × List Nat
  sha1_starts : κ
  sha1_update : κ → List Nat → κ
  sha1_finish : κ → κ × List Nat
  crc32_ieee_update : Nat → List Nat → Nat

/-- A file handle (`struct fs_file_t`): the content of the file it was opened
on, the read position, the number of `fs_read` calls made on it so far, the
indices of the `fs_read` calls that fail with `-EIO`, and whether the handle is
in use. A handle is in use from a successful `fs_open` until `fs_close`. -/
structure fs_file_t where
  data : List Nat
  pos : Nat
  calls : Nat
  faults : List Nat
  opened : Bool
deriving DecidableEq, Repr

/-- The call `fs_open(zfp, name, FS_O_READ)` of the Zephyr file system: it
fails with `-EBUSY` when the handle `zfp` is still in use, and it fails when
the named file cannot be opened; `content` is the content of the named file,
`none` when there is no such file. The result is `none` when the call fails. -/
def fs_open (zfp : fs_file_t) (content : Option (List Nat)) (faults : List Nat) :
    Option fs_file_t :=
  if zfp.opened then none
  else
    match content with
    | none => none
    | some d => some { data := d, pos := 0, calls := 0, faults := faults, opened := true }

/-- The call `fs_close(zfp)`: the handle is free again. -/
def fs_close (zfp : fs_file_t) : fs_file_t := { zfp with opened := false }

/-- The call `fs_read(f, buf, n)`: the file afterwards, the return value and
the bytes stored at the start of `buf`. A healthy read delivers the next
`min n remaining` bytes. -/
def fs_read (f : fs_file_t) (n : Nat) : fs_file_t × Int × List Nat :=
  if f.calls ∈ f.faults then
    ({ f with calls := f.calls + 1 }, -5, [])
  else
    let bs := (f.data.drop f.pos).take n
    ({ f with pos := f.pos + bs.length, calls := f.calls + 1 }, (bs.length : Int), bs)

/-- The call `fs_seek(f, off, FS_SEEK_SET)`. -/
def fs_seek (f : fs_file_t) (off : Nat) : fs_file_t := { f with pos := off }

/-! ## Constants and static variables -/

def DFU_XFER_SIZE_2K : Nat := 2048
def DFU_CHUNK_SIZE : Nat := 2048
def GECKO_IMAGE_SLOT_0_SECTOR : Nat := 0x10000
def GECKO_IMAGE_SLOT_1_SECTOR : Nat := 0x80000
def GECKO_INCRE_PAGE : Nat := 0
def GECKO_INIT_PAGE : Nat := 1
def GECKO_FLASH_SECTOR : Nat := 0

/-- Modelled from the spec: `DFU_SHA1_LEN` is defined in `dfu_gecko_lib.h`,
which is not part of the sources; the digest is 20 bytes long. -/
def DFU_SHA1_LEN : Nat := 20

/-- Conversion of a C `int` to `uint32_t`. -/
def to_uint32 (x : Int) : Nat := (x % 4294967296).toNat

/-- The C `enum gecko_app_state_e`. -/
inductive gecko_app_state where
  | GECKO_INITIAL_STATE
  | GECKO_INIT_STATE
  | GECKO_FW_UPGRADE
  | GECKO_FW_UPGRADE_DONE
deriving DecidableEq, Repr

/-- The static variables of `dfu_gecko_lib.c`, the state of the flash device
and the list of calls issued against it. `state` is `gecko_app_cb.state` and
`page` is the static local of `write_image_chunk_to_flash`. -/
structure Globals (σ κ : Type) where
  state : gecko_app_state
  chunk_cnt : Nat
  chunk_check : Nat
  offset : Nat
  fw_image_size : Nat
  status : Int
  image_buffer : List Nat
  check_buf : List Nat
  requested_slot_to_upgrade : Int
  page : Nat
  geckofile : fs_file_t
  readbytes : Int
  totalreadbytes : Int
  totalwritebytes : Int
  gecko_sha1_file : fs_file_t
  gecko_sha1_ctx : κ
  gecko_sha1_output : List Nat
  gecko_expected_sha1 : List Nat
  gecko_expected_sha1_final : List Nat
  crc32 : Nat
  fw_upgrade_done : Nat
  flash : σ
  flash_log : List FlashOp

/-- The values of the static variables after reset: everything zero, the
orchestrator in `GECKO_INITIAL_STATE`, no flash call issued yet. `s0` is the
content of the flash device and `k0` the zeroed SHA-1 context. -/
def Globals.fresh {σ κ : Type} (s0 : σ) (k0 : κ) : Globals σ κ :=
  { state := .GECKO_INITIAL_STATE, chunk_cnt := 0, chunk_check := 0, offset := 0,
    fw_image_size := 0, status := 0,
    image_buffer := List.replicate 2048 0, check_buf := List.replicate 2049 0,
    requested_slot_to_upgrade := -1, page := 0,
    geckofile := { data := [], pos := 0, calls := 0, faults := [], opened := false },
    readbytes := 0, totalreadbytes := 0, totalwritebytes := 0,
    gecko_sha1_file := { data := [], pos := 0, calls := 0, faults := [], opened := false },
    gecko_sha1_ctx := k0,
    gecko_sha1_output := List.replicate 20 0,
    gecko_expected_sha1 := List.replicate 40 0,
    gecko_expected_sha1_final := List.replicate 20 0,
    crc32 := 0, fw_upgrade_done := 0, flash := s0, flash_log := [] }

/-- Storing the bytes `bs` at the start of the buffer `buf`; the bytes of
`buf` beyond them stay. -/
def store (bs buf : List Nat) : List Nat := bs ++ buf.drop bs.length

/-! ## The integrity verifier -/

/-- The C `compare_sha1`: `-1` as soon as `gecko_sha1_output` and
`gecko_expected_sha1_final` differ at one of the `DFU_SHA1_LEN` positions,
`0` otherwise. -/
def compare_sha1 {σ κ : Type} (g : Globals σ κ) (_slot_to_upgrade : Int) : Int :=
  let sha1_fails : Nat :=
    if (List.range DFU_SHA1_LEN).any
        (fun i => decide (byteAt g.gecko_sha1_output i ≠ byteAt g.gecko_expected_sha1_final i))
    then 1 else 0
  if sha1_fails ≠ 0 then -1 else 0

/-- The value `tempByte` that `sha_hex_to_bin` computes from one character
(`char` is unsigned on the target, `tempByte` is an `unsigned char`). -/
def hex_nibble (sha_ascii : Nat) : Nat :=
  if sha_ascii ≥ 97 then (sha_ascii - 97 + 10) % 256
  else if sha_ascii ≥ 65 then (sha_ascii - 65 + 10) % 256
  else (((sha_ascii : Int) - 48) % 256).toNat

/-- The C `sha_hex_to_bin`: the buffer `sha_bin_out` after the loop over
`i = 0 .. len - 1`. -/
def sha_hex_to_bin (sha_hex_in sha_bin_out : List Nat) (len : Nat) : List Nat :=
  (List.range len).foldl
    (fun out i =>
      let tempByte := hex_nibble (byteAt sha_hex_in i)
      if i % 2 = 0 then out.set (i / 2) ((tempByte * 16) % 256)
      else out.set (i / 2) ((byteAt out (i / 2) ||| tempByte) % 256))
    sha_bin_out

/-- The C `get_gecko_sha1`. -/
def get_gecko_sha1 {σ κ : Type} (g : Globals σ κ) : Globals σ κ × Int :=
  let r := fs_read g.gecko_sha1_file (DFU_SHA1_LEN * 2)
  let g := { g with gecko_sha1_file := r.1, readbytes := r.2.1,
                    gecko_expected_sha1 := store r.2.2 g.gecko_expected_sha1 }
  if g.readbytes < 0 ∨ g.readbytes ≠ ((DFU_SHA1_LEN * 2 : Nat) : Int) then (g, -1)
  else
    ({ g with gecko_expected_sha1_final :=
                sha_hex_to_bin g.gecko_expected_sha1 g.gecko_expected_sha1_final
                  (DFU_SHA1_LEN * 2) }, 0)

/-- The loop `while (notdone)` of the C `get_gecko_fw_size` together with the
code after it. The result is the value returned, as `uint32_t`. -/
def get_gecko_fw_size_loop {σ κ : Type} (E : Env σ κ) :
    Nat → Globals σ κ → Option (Globals σ κ × Nat)
  | 0, _ => none
  | fuel + 1, g =>
    let r := fs_read g.geckofile DFU_XFER_SIZE_2K
    let g := { g with geckofile := r.1, readbytes := r.2.1,
                      image_buffer := store r.2.2 g.image_buffer }
    if g.readbytes < 0 then some (g, to_uint32 (-1))
    else
      let g := { g with totalreadbytes := g.totalreadbytes + g.readbytes }
      let g := { g with gecko_sha1_ctx :=
                          E.sha1_update g.gecko_sha1_ctx (g.image_buffer.take g.readbytes.toNat) }
      if g.readbytes = 0 then
        let fin := E.sha1_finish g.gecko_sha1_ctx
        let g := { g with gecko_sha1_ctx := fin.1, gecko_sha1_output := fin.2 }
        some (g, to_uint32 g.totalreadbytes)
      else get_gecko_fw_size_loop E fuel g

/-- The C `get_gecko_fw_size`. -/
def get_gecko_fw_size {σ κ : Type} (E : Env σ κ) (fuel : Nat) (g : Globals σ κ) :
    Option (Globals σ κ × Nat) :=
  get_gecko_fw_size_loop E fuel { g with totalreadbytes := 0 }

/-! ## The chunked transfer engine -/

/-- The C `write_image_chunk_to_flash`; `-5` is `-EIO`. -/
def write_image_chunk_to_flash {σ κ : Type} (E : Env σ κ) (g : Globals σ κ)
    (imageBytes : Int) (writedata : List Nat) (startSector : Nat) (pageReset : Nat) :
    Globals σ κ × Int :=
  if pageReset ≠ 0 then ({ g with page := 0 }, 0)
  else
    let page_addr := (startSector + g.page * DFU_XFER_SIZE_2K) % 4294967296
    let g := { g with page := (g.page + 1) % 4294967296 }
    -- a failing erase is only reported
    let er := E.flash_erase g.flash page_addr DFU_XFER_SIZE_2K
    let g := { g with flash := er.1,
                      flash_log := g.flash_log ++ [FlashOp.erase page_addr DFU_XFER_SIZE_2K] }
    let wr := E.flash_write g.flash page_addr (writedata.take DFU_XFER_SIZE_2K)
    let g := { g with flash := wr.1,
                      flash_log := g.flash_log ++
                        [FlashOp.write page_addr (writedata.take DFU_XFER_SIZE_2K)] }
    if wr.2 ≠ 0 then (g, -5)
    else
      let rd := E.flash_read g.flash page_addr imageBytes.toNat
      let g := { g with flash := rd.1,
                        flash_log := g.flash_log ++ [FlashOp.read page_addr imageBytes.toNat],
                        check_buf := store (rd.2.take imageBytes.toNat) g.check_buf }
      if writedata.take imageBytes.toNat ≠ g.check_buf.take imageBytes.toNat then (g, -5)
      else ({ g with totalwritebytes := g.totalwritebytes + imageBytes }, 0)

/-- The C `file_read_flash`; its argument `offset` is not used. -/
def file_read_flash {σ κ : Type} (E : Env σ κ) (g : Globals σ κ) : Globals σ κ × Int :=
  let r := fs_read g.geckofile DFU_XFER_SIZE_2K
  let g := { g with geckofile := r.1, readbytes := r.2.1,
                    image_buffer := store r.2.2 g.image_buffer }
  if g.readbytes < 0 then ({ g with status := -1 }, -1)
  else
    let g := { g with totalreadbytes := g.totalreadbytes + g.readbytes }
    let g :=
      if g.readbytes > 0 then
        -- the value returned by `write_image_chunk_to_flash` is dropped
        let g :=
          if g.requested_slot_to_upgrade = 0 then
            (write_image_chunk_to_flash E g g.readbytes g.image_buffer
              GECKO_IMAGE_SLOT_0_SECTOR GECKO_INCRE_PAGE).1
          else
            (write_image_chunk_to_flash E g g.readbytes g.image_buffer
              GECKO_IMAGE_SLOT_1_SECTOR GECKO_INCRE_PAGE).1
        { g with crc32 := E.crc32_ieee_update g.crc32 (g.image_buffer.take g.readbytes.toNat) }
      else g
    ({ g with status := 0 }, 0)

/-! ## The upgrade orchestrator -/

/-- The end of one pass over the chunk loop's body: `offset += readbytes`,
`memset(image_buffer, 0, ...)`, `chunk_cnt++`. -/
def chunk_loop_advance {σ κ : Type} (g : Globals σ κ) : Globals σ κ :=
  { g with offset := to_uint32 ((g.offset : Int) + g.readbytes),
           image_buffer := List.replicate DFU_CHUNK_SIZE 0,
           chunk_cnt := (g.chunk_cnt + 1) % 4294967296 }

/-- The loop `while (offset <= fw_image_size)` of `dfu_gecko_write_image`.
The second component is `some v` when the body executed `return v` and `none`
when the loop was left by `break` or by its condition. -/
def chunk_loop {σ κ : Type} (E : Env σ κ) :
    Nat → Globals σ κ → Option (Globals σ κ × Option Int)
  | 0, _ => none
  | fuel + 1, g =>
    if ¬ (g.offset ≤ g.fw_image_size) then some (g, none)
    else
      let r := if g.chunk_cnt ≠ 0 then file_read_flash E g else (g, 0)
      let g := r.1
      if r.2 ≠ 0 then some (g, some (-1))
      else if g.chunk_cnt = 0 then
        if g.status ≠ 0 then some (g, some (-1))
        else chunk_loop E fuel (chunk_loop_advance g)
      else if g.chunk_cnt = (g.chunk_check + 4294967295) % 4294967296 then
        let r := file_read_flash E g
        let g := r.1
        if r.2 ≠ 0 then some (g, some (-1))
        else if g.status ≠ 0 then some (g, none)
        else some ({ g with state := .GECKO_FW_UPGRADE_DONE }, none)
      else
        if g.status ≠ 0 then some (g, none)
        else chunk_loop E fuel (chunk_loop_advance g)

/-- The body of `case GECKO_FW_UPGRADE:` up to the `break` that leaves the
`switch`. The second component is `some v` for `return v`. -/
def case_GECKO_FW_UPGRADE {σ κ : Type} (E : Env σ κ) (slot_to_upgrade : Int) (fuel : Nat)
    (g : Globals σ κ) : Option (Globals σ κ × Option Int) :=
  match get_gecko_fw_size E fuel g with
  | none => none
  | some (g, size) =>
    let g := { g with fw_image_size := size }
    if g.fw_image_size = 0 ∨ g.fw_image_size < DFU_CHUNK_SIZE then some (g, some (-1))
    else
      let r := get_gecko_sha1 g
      let g := r.1
      if r.2 ≠ 0 then some (g, some (-1))
      else if compare_sha1 g slot_to_upgrade ≠ 0 then some (g, some (-1))
      else
        let g := { g with chunk_check := g.fw_image_size / DFU_CHUNK_SIZE }
        let g :=
          if g.fw_image_size % DFU_CHUNK_SIZE ≠ 0 then
            { g with chunk_check := (g.chunk_check + 1) % 4294967296 }
          else g
        let g := { g with geckofile := fs_seek g.geckofile 0 }
        let g := { g with readbytes := 0, totalreadbytes := 0, totalwritebytes := 0 }
        chunk_loop E fuel g

/-- The code of `case GECKO_INITIAL_STATE:` before it falls through. -/
def case_GECKO_INITIAL_STATE {σ κ : Type} (E : Env σ κ) (g : Globals σ κ) : Globals σ κ :=
  { g with state := .GECKO_FW_UPGRADE,
           gecko_sha1_output := List.replicate DFU_SHA1_LEN 0,
           gecko_sha1_ctx := E.sha1_starts }

/-- How a call of `dfu_gecko_write_image` ends: it returns a value, or it
reaches `sys_reboot`, which does not return. -/
inductive Exit where
  | returned (v : Int)
  | rebooted
deriving DecidableEq, Repr

/-- The loop `while (!fw_upgrade_done)` of `dfu_gecko_write_image` and the
final `return status`. -/
def upgrade_loop {σ κ : Type} (E : Env σ κ) (slot_to_upgrade : Int) :
    Nat → Globals σ κ → Option (Globals σ κ × Exit)
  | 0, _ => none
  | fuel + 1, g =>
    if g.fw_upgrade_done ≠ 0 then some (g, .returned g.status)
    else
      match g.state with
      | .GECKO_INITIAL_STATE =>
        match case_GECKO_FW_UPGRADE E slot_to_upgrade fuel (case_GECKO_INITIAL_STATE E g) with
        | none => none
        | some (g, some v) => some (g, .returned v)
        | some (g, none) => upgrade_loop E slot_to_upgrade fuel g
      | .GECKO_FW_UPGRADE =>
        match case_GECKO_FW_UPGRADE E slot_to_upgrade fuel g with
        | none => none
        | some (g, some v) => some (g, .returned v)
        | some (g, none) => upgrade_loop E slot_to_upgrade fuel g
      | .GECKO_FW_UPGRADE_DONE =>
        -- `fs_close`, the report, `k_sleep` and then `sys_reboot`
        some ({ g with fw_upgrade_done := 1, geckofile := fs_close g.geckofile }, .rebooted)
      | .GECKO_INIT_STATE =>
        -- `default:` only reports
        upgrade_loop E slot_to_upgrade fuel g

/-- What a caller hands to `dfu_gecko_write_image`: the target slot, and for
each of the two file names the content of the file (`none` when `fs_open`
fails) and the `fs_read` calls on it that fail. -/
structure Request where
  slot_to_upgrade : Int
  bin_file : Option (List Nat)
  sha_file : Option (List Nat)
  bin_faults : List Nat
  sha_faults : List Nat

/-- The C `dfu_gecko_write_image`. The two branches of
`if (slot_to_upgrade == 0)` open the same two files and differ in their
messages only. -/
def dfu_gecko_write_image {σ κ : Type} (E : Env σ κ) (fuel : Nat) (g : Globals σ κ)
    (req : Request) : Option (Globals σ κ × Exit) :=
  let g := { g with requested_slot_to_upgrade := req.slot_to_upgrade }
  match fs_open g.geckofile req.bin_file req.bin_faults with
  | none => some (g, .returned 1)
  | some f =>
    let g := { g with geckofile := f }
    match fs_open g.gecko_sha1_file req.sha_file req.sha_faults with
    | none => some (g, .returned 1)
    | some f =>
      let g := { g with gecko_sha1_file := f }
      let g := (write_image_chunk_to_flash E g g.readbytes g.image_buffer
                  GECKO_FLASH_SECTOR GECKO_INIT_PAGE).1
      let g := { g with readbytes := 0, totalreadbytes := 0, totalwritebytes := 0 }
      upgrade_loop E req.slot_to_upgrade fuel g

/-! ## Specification-side vocabulary -/

/-- The flash address of the slot that `file_read_flash` writes to. -/
def slot_base (slot : Int) : Nat :=
  if slot = 0 then GECKO_IMAGE_SLOT_0_SECTOR else GECKO_IMAGE_SLOT_1_SECTOR

/-- The number of chunks of an image of `S` bytes, `ceil (S / 2048)`. -/
def num_chunks (S : Nat) : Nat := (S + 2047) / 2048

/-- The `k`-th chunk of an image: at most 2048 bytes from offset `2048 * k`. -/
def chunk_at (img : List Nat) (k : Nat) : List Nat := (img.drop (k * 2048)).take 2048

/-- The kinds and address of the flash calls of one chunk when `flash_write`
returns `c`: an erase and a write, and a readback when the write succeeded. -/
def cycle_shape (c : Int) (addr : Nat) : List (FlashKind × Nat) :=
  [(FlashKind.erase, addr), (FlashKind.write, addr)] ++
    (if c = 0 then [(FlashKind.read, addr)] else [])

/-- The flash calls of the first `n` chunks, page after page from `base`. -/
def cycles (c : Int) (base : Nat) : Nat → List (FlashKind × Nat)
  | 0 => []
  | k + 1 => cycles c base k ++ cycle_shape c (base + k * 2048)

/-- The flash calls of one chunk at `addr` when `flash_write` returns `c`: the
erase of the page, the write of `page`, and the readback of `len` bytes when
the write succeeded. -/
def chunk_ops (c : Int) (addr : Nat) (page : List Nat) (len : Nat) : List FlashOp :=
  [FlashOp.erase addr 2048, FlashOp.write addr page] ++
    (if c = 0 then [FlashOp.read addr len] else [])

/-- The flash calls of the first `n` chunks of `img` when each of them is a
full chunk written from a cleared `image_buffer`. -/
def full_ops (c : Int) (img : List Nat) (base : Nat) : Nat → List FlashOp
  | 0 => []
  | k + 1 => full_ops c img base k ++ chunk_ops c (base + k * 2048) (chunk_at img k) 2048

/-- The content of `image_buffer` when the final chunk is written: the final
chunk, followed by the bytes that the chunk before it left behind. -/
def final_page (img : List Nat) : List Nat :=
  chunk_at img (num_chunks img.length - 1) ++
    (chunk_at img (num_chunks img.length - 2)).drop
      (chunk_at img (num_chunks img.length - 1)).length

/-- The digest `get_gecko_fw_size` computes when it reads `data` to the end
from a context `ctx`: one `mbedtls_sha1_update` for every piece of at most 2048
bytes, one more for the empty read that ends the loop, then
`mbedtls_sha1_finish`. -/
def sha1_stream {σ κ : Type} (E : Env σ κ) (ctx : κ) (data : List Nat) : List Nat :=
  if data.take 2048 = [] then (E.sha1_finish (E.sha1_update ctx [])).2
  else sha1_stream E (E.sha1_update ctx (data.take 2048)) (data.drop (data.take 2048).length)
termination_by data.length
decreasing_by
  rename_i h
  have h1 : data ≠ [] := fun e => h (by simp [e])
  have h2 : 0 < data.length := List.length_pos.2 h1
  simp only [List.length_drop, List.length_take]
  omega

/-- The digest that a call entered with the static variables `g` computes over
the image `img`: the context is restarted only in `GECKO_INITIAL_STATE`. -/
def computed_sha1 {σ κ : Type} (E : Env σ κ) (g : Globals σ κ) (img : List Nat) : List Nat :=
  sha1_stream E
    (if g.state = gecko_app_state.GECKO_INITIAL_STATE then E.sha1_starts else g.gecko_sha1_ctx)
    img

/-- The digest that `get_gecko_sha1` decodes from a digest file `digest` when
it is entered with the static variables `g`. -/
def decoded_sha1 {σ κ : Type} (g : Globals σ κ) (digest : List Nat) : List Nat :=
  sha_hex_to_bin (store (digest.take (DFU_SHA1_LEN * 2)) g.gecko_expected_sha1)
    g.gecko_expected_sha1_final (DFU_SHA1_LEN * 2)

/-- A stand-in for the external collaborators: a flash device that remembers
the page written last, whose `flash_write` returns `wr_rc` and whose
`flash_read` delivers the remembered page, except at the address `bad`, where
it delivers zeros; a digest primitive whose digest is twenty zero bytes; a
checksum that adds the bytes. -/
def sim_env (wr_rc : Int) (bad : Nat) : Env (List Nat) Unit :=
  { flash_erase := fun s _ _ => (s, 0),
    flash_write := fun _ _ d => (d, wr_rc),
    flash_read := fun s a n => (s, if a = bad then List.replicate n 0 else s.take n),
    sha1_starts := (),
    sha1_update := fun _ _ => (),
    sha1_finish := fun _ => ((), List.replicate 20 0),
    crc32_ieee_update := fun c d => (c + d.sum) % 4294967296 }

/-- The digest file that holds forty characters `c`. -/
def digest_of_char (c : Nat) : List Nat := List.replicate 40 c

/-- The invariant of the chunk loop at the head of the pass with
`chunk_cnt = j + 1`, in an upgrade of the image `img` into `slot` with a driver
whose `flash_write` returns `c`: `j` chunks have been transferred, to the pages
`0 .. j - 1`, and `L0` are the flash calls issued before the transfer. -/
structure AtChunk {σ κ : Type} (c : Int) (img : List Nat) (slot : Int)
    (L0 : List FlashOp) (j : Nat) (g : Globals σ κ) : Prop where
  data : g.geckofile.data = img
  faults : g.geckofile.faults = []
  pos : g.geckofile.pos = j * 2048
  offset : g.offset = j * 2048
  chunk_cnt : g.chunk_cnt = j + 1
  chunk_check : g.chunk_check = num_chunks img.length
  fw_image_size : g.fw_image_size = img.length
  page : g.page = j
  image_buffer : g.image_buffer = List.replicate 2048 0
  req_slot : g.requested_slot_to_upgrade = slot
  totalreadbytes : g.totalreadbytes = ((j * 2048 : Nat) : Int)
  log : g.flash_log = L0 ++ full_ops c img (slot_base slot) j
  done : g.fw_upgrade_done = 0

/-- The bytes the next healthy `fs_read` of 2048 bytes delivers. -/
def next_chunk (f : fs_file_t) : List Nat := (f.data.drop f.pos).take 2048

/-- The static variables after the healthy `fs_read` at the start of
`file_read_flash` and the update of `totalreadbytes`. -/
def after_fs_read {σ κ : Type} (g : Globals σ κ) : Globals σ κ :=
  { g with
    geckofile := { g.geckofile with pos := g.geckofile.pos + (next_chunk g.geckofile).length,
                                    calls := g.geckofile.calls + 1 },
    readbytes := ((next_chunk g.geckofile).length : Int),
    image_buffer := store (next_chunk g.geckofile) g.image_buffer,
    totalreadbytes := g.totalreadbytes + ((next_chunk g.geckofile).length : Int) }

/-- What holds when the chunk loop has set `GECKO_FW_UPGRADE_DONE` in an
upgrade of `img` into `slot` with a driver whose `flash_write` returns `c`:
every chunk was read, and the flash calls issued are those of the full chunks
followed by those of the final chunk, whose page is `final_page img`. -/
structure Transferred {σ κ : Type} (c : Int) (img : List Nat) (slot : Int)
    (L0 : List FlashOp) (g : Globals σ κ) : Prop where
  state : g.state = gecko_app_state.GECKO_FW_UPGRADE_DONE
  totalreadbytes : g.totalreadbytes = (img.length : Int)
  log : g.flash_log =
    L0 ++ (full_ops c img (slot_base slot) (num_chunks img.length - 1) ++
      chunk_ops c (slot_base slot + (num_chunks img.length - 1) * 2048) (final_page img)
        (chunk_at img (num_chunks img.length - 1)).length)

/-- The static variables with which `dfu_gecko_write_image` enters the loop
`while (!fw_upgrade_done)` when both files could be opened. -/
def entered {σ κ : Type} (g : Globals σ κ) (req : Request) (img digest : List Nat) :
    Globals σ κ :=
  { g with requested_slot_to_upgrade := req.slot_to_upgrade,
           geckofile :=
             { data := img, pos := 0, calls := 0, faults := req.bin_faults, opened := true },
           gecko_sha1_file :=
             { data := digest, pos := 0, calls := 0, faults := req.sha_faults, opened := true },
           page := 0, readbytes := 0, totalreadbytes := 0, totalwritebytes := 0 }

/-- The state the transfer claims start from: the orchestrator idle, the chunk
counter and the offset zero, no error recorded, no upgrade completed and the
two file handles free. The byte counters need no mention,
`dfu_gecko_write_image` clears them on entry. -/
structure Ready {σ κ : Type} (g : Globals σ κ) : Prop where
  state : g.state = gecko_app_state.GECKO_INITIAL_STATE
  chunk_cnt : g.chunk_cnt = 0
  offset : g.offset = 0
  status : g.status = 0
  done : g.fw_upgrade_done = 0
  bin_closed : g.geckofile.opened = false
  sha_closed : g.gecko_sha1_file.opened = false

/-- What holds on entry to the chunk loop in an upgrade of the image `img` into
`slot`, entered from a ready state: nothing has been transferred yet. -/
structure LoopEntry {σ κ : Type} (img : List Nat) (slot : Int) (L0 : List FlashOp)
    (g : Globals σ κ) : Prop where
  data : g.geckofile.data = img
  faults : g.geckofile.faults = []
  pos : g.geckofile.pos = 0
  offset : g.offset = 0
  chunk_cnt : g.chunk_cnt = 0
  status : g.status = 0
  readbytes : g.readbytes = 0
  chunk_check : g.chunk_check = num_chunks img.length
  fw_image_size : g.fw_image_size = img.length
  page : g.page = 0
  req_slot : g.requested_slot_to_upgrade = slot
  totalreadbytes : g.totalreadbytes = 0
  log : g.flash_log = L0
  done : g.fw_upgrade_done = 0

/-- The invariant of the chunk loop for an image of exactly one chunk
(`chunk_check = 1`): the pass for the last chunk, `chunk_cnt = chunk_check - 1
= 0`, is shadowed by the pass for `chunk_cnt == 0`, so the loop reads the chunk,
then reads at the end of the file for ever. -/
structure Stuck {σ κ : Type} (g : Globals σ κ) : Prop where
  chunk_check : g.chunk_check = 1
  faults : g.geckofile.faults = []
  status : g.status = 0
  size : g.geckofile.data.length = g.fw_image_size
  small : g.fw_image_size ≤ 2048
  offset : g.offset = g.geckofile.pos
  pos : g.geckofile.pos ≤ g.geckofile.data.length
  rb0 : g.chunk_cnt = 0 → g.readbytes = 0
  eof : 2 ≤ g.chunk_cnt → g.geckofile.pos = g.geckofile.data.length
  cnt : g.chunk_cnt < 4294967296

/-- An image of three chunks of 2048, 2048 and 500 bytes. -/
def img3 : List Nat :=
  List.replicate 2048 1 ++ (List.replicate 2048 2 ++ List.replicate 500 3)

/-- An image of 2049 bytes: a full chunk of `0xff` and a final chunk of one
byte. -/
def img_stale : List Nat := List.replicate 2048 255 ++ [1]

/-- An image of exactly one chunk. -/
def img_one_chunk : List Nat := List.replicate 2048 7

/-! ## Specification-side vocabulary of the later claims -/

/-- Specification side: the encoder of the header layout, the inverse of
`deserialize_magic_hdr`; the source has no encoder. The fields are written
little-endian at the offsets 0, 4, 8, 10, 12, 16, 20, 21, 22 and 24, and the
four padding bytes are zero. -/
def encode_magic_hdr (h : image_header) : List Nat :=
  [h.ih_magic % 256, h.ih_magic / 256 % 256, h.ih_magic / 65536 % 256,
   h.ih_magic / 16777216 % 256,
   h.ih_load_addr % 256, h.ih_load_addr / 256 % 256, h.ih_load_addr / 65536 % 256,
   h.ih_load_addr / 16777216 % 256,
   h.ih_hdr_size % 256, h.ih_hdr_size / 256 % 256,
   h.ih_protect_tlv_size % 256, h.ih_protect_tlv_size / 256 % 256,
   h.ih_img_size % 256, h.ih_img_size / 256 % 256, h.ih_img_size / 65536 % 256,
   h.ih_img_size / 16777216 % 256,
   h.ih_flags % 256, h.ih_flags / 256 % 256, h.ih_flags / 65536 % 256,
   h.ih_flags / 16777216 % 256,
   h.ih_ver.iv_major % 256, h.ih_ver.iv_minor % 256,
   h.ih_ver.iv_revision % 256, h.ih_ver.iv_revision / 256 % 256,
   h.ih_ver.iv_build_num % 256, h.ih_ver.iv_build_num / 256 % 256,
   h.ih_ver.iv_build_num / 65536 % 256, h.ih_ver.iv_build_num / 16777216 % 256,
   0, 0, 0, 0]

/-- The little-endian 16-bit value of the bytes `b[i]`, `b[i+1]`. -/
def LE16 (b : List Nat) (i : Nat) : Nat := b.getD i 0 + 256 * b.getD (i + 1) 0

/-- The little-endian 32-bit value of the bytes `b[i] .. b[i+3]`. -/
def LE32 (b : List Nat) (i : Nat) : Nat :=
  b.getD i 0 + 256 * b.getD (i + 1) 0 + 65536 * b.getD (i + 2) 0 + 16777216 * b.getD (i + 3) 0

/-- A sample 32-byte header buffer with every field different from zero. -/
def sample_hdr_buf : List Nat :=
  [0x3d, 0xb8, 0xf3, 0x96, 0x00, 0x00, 0x01, 0x00, 0x00, 0x02, 0x10, 0x00,
   0x78, 0x56, 0x34, 0x12, 0x01, 0x00, 0x00, 0x00, 1, 2, 3, 0, 9, 0, 0, 0,
   0xaa, 0xbb, 0xcc, 0xdd]

/-- Specification side: the ASCII characters `'0'..'9'`, `'a'..'f'` and
`'A'..'F'`. -/
def is_hex_char (c : Nat) : Prop :=
  (48 ≤ c ∧ c ≤ 57) ∨ (97 ≤ c ∧ c ≤ 102) ∨ (65 ≤ c ∧ c ≤ 70)

instance (c : Nat) : Decidable (is_hex_char c) := by
  unfold is_hex_char
  infer_instance

/-- Specification side: the value of a hex character, `'0'..'9'` to 0..9 and
`'a'..'f'`, `'A'..'F'` to 10..15. -/
def hex_val (c : Nat) : Nat :=
  if 48 ≤ c ∧ c ≤ 57 then c - 48
  else if 97 ≤ c ∧ c ≤ 102 then c - 97 + 10
  else if 65 ≤ c ∧ c ≤ 70 then c - 65 + 10
  else 0

/-- The fresh static variables with the digest file `digest` opened, as
`get_gecko_sha1` finds them. -/
def digest_state (digest : List Nat) : Globals (List Nat) Unit :=
  { Globals.fresh [] () with
    gecko_sha1_file := { data := digest, pos := 0, calls := 0, faults := [], opened := true } }

/-- What a call that ends at the size check or at the digest check leaves
untouched: the orchestrator state, the chunk counter, the offset, the recorded
status, the page cursor, the written-bytes counter, the running CRC, the flash
device and the list of flash calls. -/
structure GateFrame {σ κ : Type} (g g' : Globals σ κ) : Prop where
  state : g'.state = g.state
  chunk_cnt : g'.chunk_cnt = g.chunk_cnt
  chunk_check : g'.chunk_check = g.chunk_check
  offset : g'.offset = g.offset
  status : g'.status = g.status
  page : g'.page = g.page
  totalwritebytes : g'.totalwritebytes = g.totalwritebytes
  crc32 : g'.crc32 = g.crc32
  done : g'.fw_upgrade_done = g.fw_upgrade_done
  check_buf : g'.check_buf = g.check_buf
  req_slot : g'.requested_slot_to_upgrade = g.requested_slot_to_upgrade
  flash : g'.flash = g.flash
  flash_log : g'.flash_log = g.flash_log

/-- A source image that is too small: three bytes. -/
def img_small : List Nat := [1, 2, 3]

/-! ## Specification-side vocabulary of the running totals -/

/-- The driver calls of one chunk: the page at `addr` is erased, the first 2048
bytes of `page` are written, and when the write succeeded `len` bytes are read
back into `check_buf`. `sc` is the content of the flash device and of
`check_buf` before the chunk. The result is their content after it, and
whether the chunk is verified: the write succeeded and the first `len` bytes
of `check_buf` after the readback are the first `len` bytes of `page`. -/
def chunk_io {σ κ : Type} (E : Env σ κ) (sc : σ × List Nat) (addr : Nat) (page : List Nat)
    (len : Nat) : (σ × List Nat) × Bool :=
  let er := E.flash_erase sc.1 addr 2048
  let wr := E.flash_write er.1 addr (page.take 2048)
  if wr.2 ≠ 0 then ((wr.1, sc.2), false)
  else
    let rd := E.flash_read wr.1 addr len
    let cb := store (rd.2.take len) sc.2
    ((rd.1, cb), decide (page.take len = cb.take len))

/-- The content of `image_buffer` when chunk `k` of `img` is written: the chunk
itself for a full chunk, `final_page img` for the final chunk. -/
def page_of (img : List Nat) (k : Nat) : List Nat :=
  if k + 1 = num_chunks img.length then final_page img else chunk_at img k

/-- The content of the flash device and of `check_buf` before chunk `k` of
`img` is transferred to the slot at `base`, from the content `sc0` before the
transfer. -/
def drive {σ κ : Type} (E : Env σ κ) (img : List Nat) (base : Nat) (sc0 : σ × List Nat) :
    Nat → σ × List Nat
  | 0 => sc0
  | k + 1 =>
    (chunk_io E (drive E img base sc0 k) (base + k * 2048) (page_of img k)
      (chunk_at img k).length).1

/-- Whether chunk `k` of the transfer of `img` is verified: its flash write
succeeded and its readback matched the bytes supplied. -/
def chunk_verified {σ κ : Type} (E : Env σ κ) (img : List Nat) (base : Nat) (sc0 : σ × List Nat)
    (k : Nat) : Bool :=
  (chunk_io E (drive E img base sc0 k) (base + k * 2048) (page_of img k)
    (chunk_at img k).length).2

/-- The sum of the lengths of the verified chunks among the first `m` chunks
of `img`. -/
def verified_bytes {σ κ : Type} (E : Env σ κ) (img : List Nat) (base : Nat)
    (sc0 : σ × List Nat) (m : Nat) : Int :=
  ((List.range m).map (fun k =>
    if chunk_verified E img base sc0 k then ((chunk_at img k).length : Int) else 0)).sum

/-- The checksum folded from `c0` over the first `n` chunks of `img` in source
order, each chunk with its actual length. -/
def crc_of_chunks {σ κ : Type} (E : Env σ κ) (c0 : Nat) (img : List Nat) (n : Nat) : Nat :=
  (List.range n).foldl (fun acc k => E.crc32_ieee_update acc (chunk_at img k)) c0

/-- What `file_read_flash` has done when its read delivered a chunk: `g'` are
the static variables after the call on `g`. -/
structure ChunkDone {σ κ : Type} (E : Env σ κ) (g g' : Globals σ κ) : Prop where
  geckofile : g'.geckofile =
    { g.geckofile with pos := g.geckofile.pos + (next_chunk g.geckofile).length,
                       calls := g.geckofile.calls + 1 }
  readbytes : g'.readbytes = ((next_chunk g.geckofile).length : Int)
  image_buffer : g'.image_buffer = store (next_chunk g.geckofile) g.image_buffer
  page : g'.page = (g.page + 1) % 4294967296
  status : g'.status = 0
  crc32 : g'.crc32 = E.crc32_ieee_update g.crc32 (next_chunk g.geckofile)
  flash : g'.flash =
    (chunk_io E (g.flash, g.check_buf)
      ((slot_base g.requested_slot_to_upgrade + g.page * 2048) % 4294967296)
      (store (next_chunk g.geckofile) g.image_buffer) (next_chunk g.geckofile).length).1.1
  check_buf : g'.check_buf =
    (chunk_io E (g.flash, g.check_buf)
      ((slot_base g.requested_slot_to_upgrade + g.page * 2048) % 4294967296)
      (store (next_chunk g.geckofile) g.image_buffer) (next_chunk g.geckofile).length).1.2
  totalwritebytes : g'.totalwritebytes = g.totalwritebytes +
    (if (chunk_io E (g.flash, g.check_buf)
          ((slot_base g.requested_slot_to_upgrade + g.page * 2048) % 4294967296)
          (store (next_chunk g.geckofile) g.image_buffer) (next_chunk g.geckofile).length).2
     then ((next_chunk g.geckofile).length : Int) else 0)

/-- What holds on entry to the chunk loop, in terms of the static variables `g`
with which the body of `case GECKO_FW_UPGRADE:` was entered: the image was
measured with `fs_read` calls that all succeeded, the digest was decoded, and
the counters that the code clears are zero. The chunk counter, the offset, the
status and the running CRC are those of `g`. -/
structure LoopStart {σ κ : Type} (img digest : List Nat) (g G0 : Globals σ κ) : Prop where
  geckofile : G0.geckofile =
    { data := img, pos := 0, calls := g.geckofile.calls + num_chunks img.length + 1,
      faults := g.geckofile.faults, opened := g.geckofile.opened }
  readbytes : G0.readbytes = 0
  totalreadbytes : G0.totalreadbytes = 0
  totalwritebytes : G0.totalwritebytes = 0
  chunk_check : G0.chunk_check = num_chunks img.length
  fw_image_size : G0.fw_image_size = img.length
  state : G0.state = g.state
  chunk_cnt : G0.chunk_cnt = g.chunk_cnt
  offset : G0.offset = g.offset
  status : G0.status = g.status
  page : G0.page = g.page
  crc32 : G0.crc32 = g.crc32
  flash : G0.flash = g.flash
  check_buf : G0.check_buf = g.check_buf
  flash_log : G0.flash_log = g.flash_log
  req_slot : G0.requested_slot_to_upgrade = g.requested_slot_to_upgrade
  done : G0.fw_upgrade_done = g.fw_upgrade_done
  expected : G0.gecko_expected_sha1 = store (digest.take 40) g.gecko_expected_sha1
  expected_final : G0.gecko_expected_sha1_final =
    sha_hex_to_bin (store (digest.take 40) g.gecko_expected_sha1) g.gecko_expected_sha1_final 40

/-- The invariant of the chunk loop at the head of the pass with
`chunk_cnt = j + 1`, for any driver, in a transfer of `img` into `slot` whose
loop was entered with the static variables `G0`: `j` chunks have been read and
handed to the driver, `totalwritebytes` is the sum of the verified ones, and
the running CRC is folded over the `j` chunks. -/
structure AtPass {σ κ : Type} (E : Env σ κ) (img : List Nat) (slot : Int)
    (G0 : Globals σ κ) (j : Nat) (g : Globals σ κ) : Prop where
  data : g.geckofile.data = img
  faults : g.geckofile.faults = G0.geckofile.faults
  calls : g.geckofile.calls = G0.geckofile.calls + j
  pos : g.geckofile.pos = j * 2048
  offset : g.offset = j * 2048
  chunk_cnt : g.chunk_cnt = j + 1
  chunk_check : g.chunk_check = num_chunks img.length
  fw_image_size : g.fw_image_size = img.length
  page : g.page = j
  image_buffer : g.image_buffer = List.replicate 2048 0
  req_slot : g.requested_slot_to_upgrade = slot
  state : g.state = G0.state
  done : g.fw_upgrade_done = G0.fw_upgrade_done
  expected : g.gecko_expected_sha1 = G0.gecko_expected_sha1
  expected_final : g.gecko_expected_sha1_final = G0.gecko_expected_sha1_final
  flash : g.flash = (drive E img (slot_base slot) (G0.flash, G0.check_buf) j).1
  check_buf : g.check_buf = (drive E img (slot_base slot) (G0.flash, G0.check_buf) j).2
  totalwritebytes : g.totalwritebytes =
    verified_bytes E img (slot_base slot) (G0.flash, G0.check_buf) j
  crc32 : g.crc32 = crc_of_chunks E G0.crc32 img j

/-- What holds when the chunk loop is left after `m` chunks have been handed to
the driver, whether by `return -1` after a failed read or with
`GECKO_FW_UPGRADE_DONE` set: `totalwritebytes` is the sum of the lengths of the
verified chunks among them and the running CRC is folded over the `m` chunks. -/
structure Tallied {σ κ : Type} (E : Env σ κ) (img : List Nat) (slot : Int)
    (G0 : Globals σ κ) (m : Nat) (g : Globals σ κ) : Prop where
  totalwritebytes : g.totalwritebytes =
    verified_bytes E img (slot_base slot) (G0.flash, G0.check_buf) m
  crc32 : g.crc32 = crc_of_chunks E G0.crc32 img m
  flash : g.flash = (drive E img (slot_base slot) (G0.flash, G0.check_buf) m).1
  check_buf : g.check_buf = (drive E img (slot_base slot) (G0.flash, G0.check_buf) m).2
  page : g.page = m
  done : g.fw_upgrade_done = G0.fw_upgrade_done
  expected : g.gecko_expected_sha1 = G0.gecko_expected_sha1
  expected_final : g.gecko_expected_sha1_final = G0.gecko_expected_sha1_final

/-! ## Specification-side vocabulary of a transfer after a failed size pass -/

/-- Chunk `k` of `img` followed by the zeros of a cleared `image_buffer`. -/
def padded_page (img : List Nat) (k : Nat) : List Nat :=
  chunk_at img k ++ List.replicate (2048 - (chunk_at img k).length) 0

/-- The flash calls of the first `n` chunks of `img` when each of them is
written from a cleared `image_buffer` and `flash_write` returns `c`. -/
def padded_ops (c : Int) (img : List Nat) (base : Nat) : Nat → List FlashOp
  | 0 => []
  | k + 1 =>
    padded_ops c img base k ++
      chunk_ops c (base + k * 2048) (padded_page img k) (chunk_at img k).length

/-- What holds on entry to the chunk loop when read `k` of the size pass
failed and the digest check passed all the same, in terms of the static
variables `g` with which the body of `case GECKO_FW_UPGRADE:` was entered:
`fw_image_size` is `(uint32_t)-1` and `chunk_check` is derived from it. -/
structure Unmeasured {σ κ : Type} (img : List Nat) (k : Nat) (g G0 : Globals σ κ) : Prop where
  geckofile : G0.geckofile =
    { data := img, pos := 0, calls := g.geckofile.calls + k + 1, faults := g.geckofile.faults,
      opened := g.geckofile.opened }
  readbytes : G0.readbytes = 0
  chunk_check : G0.chunk_check = 2097152
  fw_image_size : G0.fw_image_size = 4294967295
  state : G0.state = g.state
  chunk_cnt : G0.chunk_cnt = g.chunk_cnt
  offset : G0.offset = g.offset
  status : G0.status = g.status
  page : G0.page = g.page
  flash : G0.flash = g.flash
  flash_log : G0.flash_log = g.flash_log
  req_slot : G0.requested_slot_to_upgrade = g.requested_slot_to_upgrade
  done : G0.fw_upgrade_done = g.fw_upgrade_done

/-- The invariant of the chunk loop at the head of the pass with
`chunk_cnt = j + 1` when `fw_image_size` is `(uint32_t)-1`: the loop reads
chunk after chunk from a cleared buffer, and goes on reading at the end of the
file. `L0` are the flash calls issued before the loop and `c` is the value
`flash_write` returns. -/
structure AtRead {σ κ : Type} (c : Int) (img : List Nat) (slot : Int)
    (L0 : List FlashOp) (j : Nat) (g : Globals σ κ) : Prop where
  data : g.geckofile.data = img
  healthy : ∀ k ∈ g.geckofile.faults, k < g.geckofile.calls
  pos : g.geckofile.pos = min (j * 2048) img.length
  offset : g.offset = min (j * 2048) img.length
  chunk_cnt : g.chunk_cnt = j + 1
  chunk_check : g.chunk_check = 2097152
  fw_image_size : g.fw_image_size = 4294967295
  page : g.page = min j (num_chunks img.length)
  image_buffer : g.image_buffer = List.replicate 2048 0
  req_slot : g.requested_slot_to_upgrade = slot
  log : g.flash_log = L0 ++ padded_ops c img (slot_base slot) (min j (num_chunks img.length))
  done : g.fw_upgrade_done = 0

/-! ## Specification-side vocabulary of the file handles and of a history of calls -/

/-- The static variables that calls of `dfu_gecko_write_image` can find: the
values after reset, and what a call that returned has left behind. A call that
reached `sys_reboot` leaves nothing behind. -/
inductive Reachable {σ κ : Type} (E : Env σ κ) : Globals σ κ → Prop
  | reset (s0 : σ) (k0 : κ) : Reachable E (Globals.fresh s0 k0)
  | call (g g' : Globals σ κ) (req : Request) (fuel : Nat) (v : Int) :
      Reachable E g → dfu_gecko_write_image E fuel g req = some (g', Exit.returned v) →
      Reachable E g'

/-- What holds of the static variables between calls: no upgrade has
completed, and as long as the image file handle is free the orchestrator is
idle and the chunk counter, the offset and the running CRC have their reset
values. Every `return` after the image file was opened leaves its handle in
use: `fs_close` is called for the reboot only. -/
structure Settled {σ κ : Type} (g : Globals σ κ) : Prop where
  done : g.fw_upgrade_done = 0
  idle : g.geckofile.opened = false →
    g.state = gecko_app_state.GECKO_INITIAL_STATE ∧ g.chunk_cnt = 0 ∧ g.offset = 0 ∧
      g.crc32 = 0

/-- The image file and the running CRC after `j` healthy reads of the transfer
of `img`, with the CRC at `c0` when the transfer started. -/
structure Streamed {σ κ : Type} (E : Env σ κ) (c0 : Nat) (img : List Nat) (j : Nat)
    (g : Globals σ κ) : Prop where
  data : g.geckofile.data = img
  pos : g.geckofile.pos = min (j * 2048) img.length
  crc32 : g.crc32 = crc_of_chunks E c0 img (min j (num_chunks img.length))

/-- The invariant of the chunk loop at the head of a pass, for any read faults,
any `fw_image_size = Z` that is at least the size of the image and any
`chunk_check = N` that is at least its number of chunks: `j` reads of the
transfer have been made and the chunk counter has not overtaken them. -/
structure Feeding {σ κ : Type} (E : Env σ κ) (c0 : Nat) (img : List Nat) (N Z : Nat)
    (j : Nat) (g : Globals σ κ) : Prop where
  streamed : Streamed E c0 img j g
  offset : g.offset = min (j * 2048) img.length
  chunk_cnt : g.chunk_cnt ≤ j + 1
  rb0 : g.chunk_cnt = 0 → g.readbytes = 0
  chunk_check : g.chunk_check = N
  fw_image_size : g.fw_image_size = Z
  done : g.fw_upgrade_done = 0

/-- A stand-in for the external collaborators whose digest depends on the
data: a healthy flash device that remembers the page written last, a digest
primitive whose context is the sum of the bytes hashed and whose digest is
twenty copies of that sum modulo 256, and a checksum that adds the bytes. -/
def sum_env : Env (List Nat) Nat :=
  { flash_erase := fun s _ _ => (s, 0),
    flash_write := fun _ _ d => (d, 0),
    flash_read := fun s _ n => (s, s.take n),
    sha1_starts := 0,
    sha1_update := fun k d => k + d.sum,
    sha1_finish := fun k => (k, List.replicate 20 (k % 256)),
    crc32_ieee_update := fun c d => (c + d.sum) % 4294967296 }

/-- The digest file that holds the two characters `a` and `b` twenty times. -/
def digest_of_pair (a b : Nat) : List Nat :=
  (List.range 40).map (fun i => if i % 2 = 0 then a else b)

/-! # Theorems -/

variable {σ κ : Type}

/-! ## Version comparator and slot selector -/

theorem ver_key_lt_iff (a b : image_version) :
    ver_key a < ver_key b ↔
      a.iv_major < b.iv_major ∨ (a.iv_major = b.iv_major ∧
        (a.iv_minor < b.iv_minor ∨ (a.iv_minor = b.iv_minor ∧ a.iv_revision < b.iv_revision))) := by
  simp only [ver_key, Prod.Lex.lt_iff]

theorem ver_key_eq_iff (a b : image_version) :
    ver_key a = ver_key b ↔
      a.iv_major = b.iv_major ∧ a.iv_minor = b.iv_minor ∧ a.iv_revision = b.iv_revision := by
  simp [ver_key]

theorem slot_version_cmp_gt (a b : image_version) (h : ver_key b < ver_key a) :
    slot_version_cmp a b = 0 := by
  rw [ver_key_lt_iff] at h
  unfold slot_version_cmp
  rcases h with h | ⟨h1, h | ⟨h2, h3⟩⟩
  · simp [h]
  · simp [h1, h]
  · simp [h1, h2, h3]

theorem slot_version_cmp_lt (a b : image_version) (h : ver_key a < ver_key b) :
    slot_version_cmp a b = 1 := by
  rw [ver_key_lt_iff] at h
  unfold slot_version_cmp
  rcases h with h | ⟨h1, h | ⟨h2, h3⟩⟩
  · simp [h, Nat.lt_asymm h]
  · simp [h1, h, Nat.lt_asymm h]
  · simp [h1, h2, h3, Nat.lt_asymm h3]

theorem slot_version_cmp_eq (a b : image_version) (h : ver_key a = ver_key b) :
    slot_version_cmp a b = -1 := by
  rw [ver_key_eq_iff] at h
  unfold slot_version_cmp
  simp [h.1, h.2.1, h.2.2]

theorem get_oldest_slot_both (M : Nat) (b0 b1 : List Nat)
    (h0 : (deserialize_magic_hdr b0).ih_magic = M)
    (h1 : (deserialize_magic_hdr b1).ih_magic = M) :
    get_oldest_slot M b0 b1 =
      if slot_version_cmp (deserialize_magic_hdr b0).ih_ver (deserialize_magic_hdr b1).ih_ver < 0
      then -1
      else if slot_version_cmp (deserialize_magic_hdr b0).ih_ver
                (deserialize_magic_hdr b1).ih_ver = 1 then 0 else 1 := by
  simp [get_oldest_slot, h0, h1]

theorem get_oldest_slot_not_both (M : Nat) (b0 b1 : List Nat)
    (h : ¬ ((deserialize_magic_hdr b0).ih_magic = M ∧ (deserialize_magic_hdr b1).ih_magic = M)) :
    get_oldest_slot M b0 b1 = if (deserialize_magic_hdr b0).ih_magic = M then 1 else 0 := by
  by_cases h0 : (deserialize_magic_hdr b0).ih_magic = M
  · have h1 : ¬ (deserialize_magic_hdr b1).ih_magic = M := fun h1 => h ⟨h0, h1⟩
    simp [get_oldest_slot, h0, h1]
  · by_cases h1 : (deserialize_magic_hdr b1).ih_magic = M <;>
      simp [get_oldest_slot, h0, h1]

/-- C6: when both slot headers carry the valid magic and their versions differ in
major, minor or revision, `get_oldest_slot` returns the slot whose
(major, minor, revision) triple is lexicographically smaller. -/
theorem C6_oldest_is_lex_smaller (M : Nat) (b0 b1 : List Nat)
    (h0 : (deserialize_magic_hdr b0).ih_magic = M)
    (h1 : (deserialize_magic_hdr b1).ih_magic = M)
    (hd : ¬ ((deserialize_magic_hdr b0).ih_ver.iv_major = (deserialize_magic_hdr b1).ih_ver.iv_major ∧
             (deserialize_magic_hdr b0).ih_ver.iv_minor = (deserialize_magic_hdr b1).ih_ver.iv_minor ∧
             (deserialize_magic_hdr b0).ih_ver.iv_revision =
               (deserialize_magic_hdr b1).ih_ver.iv_revision)) :
    (ver_key (deserialize_magic_hdr b0).ih_ver < ver_key (deserialize_magic_hdr b1).ih_ver ∧
        get_oldest_slot M b0 b1 = 0) ∨
    (ver_key (deserialize_magic_hdr b1).ih_ver < ver_key (deserialize_magic_hdr b0).ih_ver ∧
        get_oldest_slot M b0 b1 = 1) := by
  rw [get_oldest_slot_both M b0 b1 h0 h1]
  rcases lt_trichotomy (ver_key (deserialize_magic_hdr b0).ih_ver)
      (ver_key (deserialize_magic_hdr b1).ih_ver) with h | h | h
  · left
    exact ⟨h, by simp [slot_version_cmp_lt _ _ h]⟩
  · exact absurd ((ver_key_eq_iff _ _).1 h) hd
  · right
    exact ⟨h, by simp [slot_version_cmp_gt _ _ h]⟩

/-- C6, at slot 0 = 1.2.3 and slot 1 = 1.2.4: the oldest slot is slot 0. -/
theorem C6_oldest_is_lex_smaller_witness :
    (ver_key (deserialize_magic_hdr (mk_hdr_buf IMAGE_MAGIC 1 2 3 0)).ih_ver <
        ver_key (deserialize_magic_hdr (mk_hdr_buf IMAGE_MAGIC 1 2 4 0)).ih_ver ∧
      get_oldest_slot IMAGE_MAGIC (mk_hdr_buf IMAGE_MAGIC 1 2 3 0)
        (mk_hdr_buf IMAGE_MAGIC 1 2 4 0) = 0) ∨
    (ver_key (deserialize_magic_hdr (mk_hdr_buf IMAGE_MAGIC 1 2 4 0)).ih_ver <
        ver_key (deserialize_magic_hdr (mk_hdr_buf IMAGE_MAGIC 1 2 3 0)).ih_ver ∧
      get_oldest_slot IMAGE_MAGIC (mk_hdr_buf IMAGE_MAGIC 1 2 3 0)
        (mk_hdr_buf IMAGE_MAGIC 1 2 4 0) = 1) :=
  C6_oldest_is_lex_smaller IMAGE_MAGIC (mk_hdr_buf IMAGE_MAGIC 1 2 3 0)
    (mk_hdr_buf IMAGE_MAGIC 1 2 4 0) (by decide) (by decide) (by decide)

/-- C7: when at most one slot header carries the valid magic, the magic
classification alone decides `get_oldest_slot`: only slot 0 valid gives 1, only
slot 1 valid gives 0, neither valid gives 0, and any two buffers with the same
classification give the same answer. -/
theorem C7_invalid_slot_is_oldest (M : Nat) (b0 b1 : List Nat)
    (h : ¬ ((deserialize_magic_hdr b0).ih_magic = M ∧ (deserialize_magic_hdr b1).ih_magic = M)) :
    ((deserialize_magic_hdr b0).ih_magic = M → get_oldest_slot M b0 b1 = 1) ∧
    ((deserialize_magic_hdr b1).ih_magic = M → get_oldest_slot M b0 b1 = 0) ∧
    ((deserialize_magic_hdr b0).ih_magic ≠ M → (deserialize_magic_hdr b1).ih_magic ≠ M →
        get_oldest_slot M b0 b1 = 0) ∧
    (∀ c0 c1 : List Nat,
        ((deserialize_magic_hdr c0).ih_magic = M ↔ (deserialize_magic_hdr b0).ih_magic = M) →
        ((deserialize_magic_hdr c1).ih_magic = M ↔ (deserialize_magic_hdr b1).ih_magic = M) →
        get_oldest_slot M c0 c1 = get_oldest_slot M b0 b1) := by
  refine ⟨fun h0 => ?_, fun h1 => ?_, fun h0 _ => ?_, fun c0 c1 e0 e1 => ?_⟩
  · rw [get_oldest_slot_not_both M b0 b1 h, if_pos h0]
  · have h0 : ¬ (deserialize_magic_hdr b0).ih_magic = M := fun h0 => h ⟨h0, h1⟩
    rw [get_oldest_slot_not_both M b0 b1 h, if_neg h0]
  · rw [get_oldest_slot_not_both M b0 b1 h, if_neg h0]
  · have hc : ¬ ((deserialize_magic_hdr c0).ih_magic = M ∧
        (deserialize_magic_hdr c1).ih_magic = M) := fun hc => h ⟨e0.1 hc.1, e1.1 hc.2⟩
    rw [get_oldest_slot_not_both M b0 b1 h, get_oldest_slot_not_both M c0 c1 hc]
    by_cases h0 : (deserialize_magic_hdr b0).ih_magic = M
    · rw [if_pos h0, if_pos (e0.2 h0)]
    · rw [if_neg h0, if_neg (fun hc0 => h0 (e0.1 hc0))]

/-- C7, at slot 0 valid with version 9.9.9 and slot 1 erased: the oldest slot is
slot 1. -/
theorem C7_invalid_slot_is_oldest_witness :
    get_oldest_slot IMAGE_MAGIC (mk_hdr_buf IMAGE_MAGIC 9 9 9 0)
      (mk_hdr_buf 0xffffffff 255 255 65535 0) = 1 :=
  (C7_invalid_slot_is_oldest IMAGE_MAGIC (mk_hdr_buf IMAGE_MAGIC 9 9 9 0)
    (mk_hdr_buf 0xffffffff 255 255 65535 0) (by decide)).1 (by decide)

/-- C8: `get_oldest_slot` returns -1 exactly when both slot headers carry the
valid magic and agree in major, minor and revision (the build numbers play no
part); in every other case it returns 0 or 1. -/
theorem C8_tie_is_the_only_failure (M : Nat) (b0 b1 : List Nat) :
    (get_oldest_slot M b0 b1 = -1 ↔
      ((deserialize_magic_hdr b0).ih_magic = M ∧ (deserialize_magic_hdr b1).ih_magic = M ∧
        (deserialize_magic_hdr b0).ih_ver.iv_major = (deserialize_magic_hdr b1).ih_ver.iv_major ∧
        (deserialize_magic_hdr b0).ih_ver.iv_minor = (deserialize_magic_hdr b1).ih_ver.iv_minor ∧
        (deserialize_magic_hdr b0).ih_ver.iv_revision =
          (deserialize_magic_hdr b1).ih_ver.iv_revision)) ∧
    (get_oldest_slot M b0 b1 = -1 ∨ get_oldest_slot M b0 b1 = 0 ∨ get_oldest_slot M b0 b1 = 1) := by
  by_cases hb : (deserialize_magic_hdr b0).ih_magic = M ∧ (deserialize_magic_hdr b1).ih_magic = M
  · obtain ⟨h0, h1⟩ := hb
    rw [get_oldest_slot_both M b0 b1 h0 h1]
    rcases lt_trichotomy (ver_key (deserialize_magic_hdr b0).ih_ver)
        (ver_key (deserialize_magic_hdr b1).ih_ver) with h | h | h
    · have hne := fun e => (ne_of_lt h) ((ver_key_eq_iff _ _).2 e)
      simp only [slot_version_cmp_lt _ _ h]
      refine ⟨⟨fun e => by simp at e, fun e => absurd e.2.2 hne⟩, by simp⟩
    · simp only [slot_version_cmp_eq _ _ h]
      refine ⟨⟨fun _ => ⟨h0, h1, (ver_key_eq_iff _ _).1 h⟩, fun _ => by simp⟩, by simp⟩
    · have hne := fun e => (ne_of_gt h) ((ver_key_eq_iff _ _).2 e)
      simp only [slot_version_cmp_gt _ _ h]
      refine ⟨⟨fun e => by simp at e, fun e => absurd e.2.2 hne⟩, by simp⟩
  · rw [get_oldest_slot_not_both M b0 b1 hb]
    refine ⟨⟨fun e => ?_, fun e => absurd ⟨e.1, e.2.1⟩ hb⟩, ?_⟩
    · split at e <;> simp at e
    · split <;> simp

/-- C9 fails on the code: with both slots valid at version 1.2.3 the function
returns -1, not slot 0. -/
theorem C9_tie_returns_error_not_slot0 :
    get_oldest_slot IMAGE_MAGIC (mk_hdr_buf IMAGE_MAGIC 1 2 3 0)
      (mk_hdr_buf IMAGE_MAGIC 1 2 3 0) = -1 ∧
    get_oldest_slot IMAGE_MAGIC (mk_hdr_buf IMAGE_MAGIC 1 2 3 0)
      (mk_hdr_buf IMAGE_MAGIC 1 2 3 0) ≠ 0 := by
  decide

/-- C10: `slot_version_cmp a b` is the three-way lexicographic comparison of
(major, minor, revision): 0 iff the triple of `a` is greater, 1 iff it is
smaller, -1 iff the triples are equal; the build numbers never matter. -/
theorem C10_slot_version_cmp_lexicographic (a b : image_version) :
    (slot_version_cmp a b = 0 ↔ ver_key b < ver_key a) ∧
    (slot_version_cmp a b = 1 ↔ ver_key a < ver_key b) ∧
    (slot_version_cmp a b = -1 ↔ ver_key a = ver_key b) ∧
    (∀ ba bb : Nat,
      slot_version_cmp { a with iv_build_num := ba } { b with iv_build_num := bb } =
        slot_version_cmp a b) := by
  refine ⟨?_, ?_, ?_, fun ba bb => rfl⟩
  all_goals
    rcases lt_trichotomy (ver_key a) (ver_key b) with h | h | h
    · have h1 := slot_version_cmp_lt a b h
      have h2 := ne_of_lt h
      have h3 := lt_asymm h
      simp [h1, h, h2, h3]
    · have h1 := slot_version_cmp_eq a b h
      simp [h1, h]
    · have h1 := slot_version_cmp_gt a b h
      have h2 := ne_of_gt h
      have h3 := lt_asymm h
      simp [h1, h, h2, h3]

/-! ## Files and buffers -/

theorem fs_open_none (zfp : fs_file_t) (faults : List Nat) : fs_open zfp none faults = none := by
  unfold fs_open
  split_ifs <;> rfl

theorem fs_open_busy (zfp : fs_file_t) (content : Option (List Nat)) (faults : List Nat)
    (h : zfp.opened = true) : fs_open zfp content faults = none := by
  unfold fs_open
  rw [if_pos h]

theorem fs_open_free (zfp : fs_file_t) (d : List Nat) (faults : List Nat)
    (h : zfp.opened = false) :
    fs_open zfp (some d) faults =
      some { data := d, pos := 0, calls := 0, faults := faults, opened := true } := by
  unfold fs_open
  rw [h]
  rfl

theorem fs_read_opened (f : fs_file_t) (n : Nat) : (fs_read f n).1.opened = f.opened := by
  unfold fs_read
  split_ifs <;> rfl

/-- The size pass leaves the image file handle in use or free as it was. -/
theorem fw_size_loop_opened (E : Env σ κ) :
    ∀ (fuel : Nat) (g : Globals σ κ) (r : Globals σ κ × Nat),
      get_gecko_fw_size_loop E fuel g = some r →
      r.1.geckofile.opened = g.geckofile.opened := by
  intro fuel
  induction fuel with
  | zero => intro g r h; simp [get_gecko_fw_size_loop] at h
  | succ fuel ih =>
    intro g r h
    rw [get_gecko_fw_size_loop] at h
    dsimp only at h
    split_ifs at h
    · injection h with h
      subst h
      exact fs_read_opened _ _
    · injection h with h
      subst h
      exact fs_read_opened _ _
    · have := ih _ _ h
      dsimp only at this
      rw [this]
      exact fs_read_opened _ _

theorem fs_read_ok (f : fs_file_t) (n : Nat) (h : f.calls ∉ f.faults) :
    fs_read f n =
      ({ f with pos := f.pos + ((f.data.drop f.pos).take n).length, calls := f.calls + 1 },
       (((f.data.drop f.pos).take n).length : Int), (f.data.drop f.pos).take n) := by
  simp [fs_read, h]

theorem fs_read_nofault (f : fs_file_t) (n : Nat) (h : f.faults = []) :
    fs_read f n =
      ({ f with pos := f.pos + ((f.data.drop f.pos).take n).length, calls := f.calls + 1 },
       (((f.data.drop f.pos).take n).length : Int), (f.data.drop f.pos).take n) :=
  fs_read_ok f n (by simp [h])

theorem store_nil (buf : List Nat) : store [] buf = buf := by
  simp [store]

theorem take_store (bs buf : List Nat) : (store bs buf).take bs.length = bs := by
  simp [store]

theorem store_full (bs buf : List Nat) (h : buf.length ≤ bs.length) : store bs buf = bs := by
  simp [store, List.drop_eq_nil_of_le h]

theorem to_uint32_natCast (n : Nat) (h : n < 4294967296) : to_uint32 (n : Int) = n := by
  unfold to_uint32
  omega

/-! ## Frame of `write_image_chunk_to_flash` and `file_read_flash` -/

@[simp] theorem wicf_state (E : Env σ κ) (g : Globals σ κ) (n : Int) (d : List Nat) (s p : Nat) :
    (write_image_chunk_to_flash E g n d s p).1.state = g.state := by
  unfold write_image_chunk_to_flash
  dsimp only
  split_ifs <;> rfl

@[simp] theorem wicf_chunk_cnt (E : Env σ κ) (g : Globals σ κ) (n : Int) (d : List Nat) (s p : Nat) :
    (write_image_chunk_to_flash E g n d s p).1.chunk_cnt = g.chunk_cnt := by
  unfold write_image_chunk_to_flash
  dsimp only
  split_ifs <;> rfl

@[simp] theorem wicf_chunk_check (E : Env σ κ) (g : Globals σ κ) (n : Int) (d : List Nat) (s p : Nat) :
    (write_image_chunk_to_flash E g n d s p).1.chunk_check = g.chunk_check := by
  unfold write_image_chunk_to_flash
  dsimp only
  split_ifs <;> rfl

@[simp] theorem wicf_offset (E : Env σ κ) (g : Globals σ κ) (n : Int) (d : List Nat) (s p : Nat) :
    (write_image_chunk_to_flash E g n d s p).1.offset = g.offset := by
  unfold write_image_chunk_to_flash
  dsimp only
  split_ifs <;> rfl

@[simp] theorem wicf_fw_image_size (E : Env σ κ) (g : Globals σ κ) (n : Int) (d : List Nat) (s p : Nat) :
    (write_image_chunk_to_flash E g n d s p).1.fw_image_size = g.fw_image_size := by
  unfold write_image_chunk_to_flash
  dsimp only
  split_ifs <;> rfl

@[simp] theorem wicf_status (E : Env σ κ) (g : Globals σ κ) (n : Int) (d : List Nat) (s p : Nat) :
    (write_image_chunk_to_flash E g n d s p).1.status = g.status := by
  unfold write_image_chunk_to_flash
  dsimp only
  split_ifs <;> rfl

@[simp] theorem wicf_image_buffer (E : Env σ κ) (g : Globals σ κ) (n : Int) (d : List Nat) (s p : Nat) :
    (write_image_chunk_to_flash E g n d s p).1.image_buffer = g.image_buffer := by
  unfold write_image_chunk_to_flash
  dsimp only
  split_ifs <;> rfl

@[simp] theorem wicf_requested_slot_to_upgrade (E : Env σ κ) (g : Globals σ κ) (n : Int) (d : List Nat) (s p : Nat) :
    (write_image_chunk_to_flash E g n d s p).1.requested_slot_to_upgrade = g.requested_slot_to_upgrade := by
  unfold write_image_chunk_to_flash
  dsimp only
  split_ifs <;> rfl

@[simp] theorem wicf_geckofile (E : Env σ κ) (g : Globals σ κ) (n : Int) (d : List Nat) (s p : Nat) :
    (write_image_chunk_to_flash E g n d s p).1.geckofile = g.geckofile := by
  unfold write_image_chunk_to_flash
  dsimp only
  split_ifs <;> rfl

@[simp] theorem wicf_readbytes (E : Env σ κ) (g : Globals σ κ) (n : Int) (d : List Nat) (s p : Nat) :
    (write_image_chunk_to_flash E g n d s p).1.readbytes = g.readbytes := by
  unfold write_image_chunk_to_flash
  dsimp only
  split_ifs <;> rfl

@[simp] theorem wicf_totalreadbytes (E : Env σ κ) (g : Globals σ κ) (n : Int) (d : List Nat) (s p : Nat) :
    (write_image_chunk_to_flash E g n d s p).1.totalreadbytes = g.totalreadbytes := by
  unfold write_image_chunk_to_flash
  dsimp only
  split_ifs <;> rfl

@[simp] theorem wicf_gecko_sha1_file (E : Env σ κ) (g : Globals σ κ) (n : Int) (d : List Nat) (s p : Nat) :
    (write_image_chunk_to_flash E g n d s p).1.gecko_sha1_file = g.gecko_sha1_file := by
  unfold write_image_chunk_to_flash
  dsimp only
  split_ifs <;> rfl

@[simp] theorem wicf_gecko_sha1_ctx (E : Env σ κ) (g : Globals σ κ) (n : Int) (d : List Nat) (s p : Nat) :
    (write_image_chunk_to_flash E g n d s p).1.gecko_sha1_ctx = g.gecko_sha1_ctx := by
  unfold write_image_chunk_to_flash
  dsimp only
  split_ifs <;> rfl

@[simp] theorem wicf_gecko_sha1_output (E : Env σ κ) (g : Globals σ κ) (n : Int) (d : List Nat) (s p : Nat) :
    (write_image_chunk_to_flash E g n d s p).1.gecko_sha1_output = g.gecko_sha1_output := by
  unfold write_image_chunk_to_flash
  dsimp only
  split_ifs <;> rfl

@[simp] theorem wicf_gecko_expected_sha1 (E : Env σ κ) (g : Globals σ κ) (n : Int) (d : List Nat) (s p : Nat) :
    (write_image_chunk_to_flash E g n d s p).1.gecko_expected_sha1 = g.gecko_expected_sha1 := by
  unfold write_image_chunk_to_flash
  dsimp only
  split_ifs <;> rfl

@[simp] theorem wicf_gecko_expected_sha1_final (E : Env σ κ) (g : Globals σ κ) (n : Int) (d : List Nat) (s p : Nat) :
    (write_image_chunk_to_flash E g n d s p).1.gecko_expected_sha1_final = g.gecko_expected_sha1_final := by
  unfold write_image_chunk_to_flash
  dsimp only
  split_ifs <;> rfl

@[simp] theorem wicf_crc32 (E : Env σ κ) (g : Globals σ κ) (n : Int) (d : List Nat) (s p : Nat) :
    (write_image_chunk_to_flash E g n d s p).1.crc32 = g.crc32 := by
  unfold write_image_chunk_to_flash
  dsimp only
  split_ifs <;> rfl

@[simp] theorem wicf_fw_upgrade_done (E : Env σ κ) (g : Globals σ κ) (n : Int) (d : List Nat) (s p : Nat) :
    (write_image_chunk_to_flash E g n d s p).1.fw_upgrade_done = g.fw_upgrade_done := by
  unfold write_image_chunk_to_flash
  dsimp only
  split_ifs <;> rfl

@[simp] theorem frf_state (E : Env σ κ) (g : Globals σ κ) :
    (file_read_flash E g).1.state = g.state := by
  unfold file_read_flash
  dsimp only
  split_ifs <;> simp only [wicf_state]

@[simp] theorem frf_chunk_cnt (E : Env σ κ) (g : Globals σ κ) :
    (file_read_flash E g).1.chunk_cnt = g.chunk_cnt := by
  unfold file_read_flash
  dsimp only
  split_ifs <;> simp only [wicf_chunk_cnt]

@[simp] theorem frf_chunk_check (E : Env σ κ) (g : Globals σ κ) :
    (file_read_flash E g).1.chunk_check = g.chunk_check := by
  unfold file_read_flash
  dsimp only
  split_ifs <;> simp only [wicf_chunk_check]

@[simp] theorem frf_offset (E : Env σ κ) (g : Globals σ κ) :
    (file_read_flash E g).1.offset = g.offset := by
  unfold file_read_flash
  dsimp only
  split_ifs <;> simp only [wicf_offset]

@[simp] theorem frf_fw_image_size (E : Env σ κ) (g : Globals σ κ) :
    (file_read_flash E g).1.fw_image_size = g.fw_image_size := by
  unfold file_read_flash
  dsimp only
  split_ifs <;> simp only [wicf_fw_image_size]

@[simp] theorem frf_requested_slot_to_upgrade (E : Env σ κ) (g : Globals σ κ) :
    (file_read_flash E g).1.requested_slot_to_upgrade = g.requested_slot_to_upgrade := by
  unfold file_read_flash
  dsimp only
  split_ifs <;> simp only [wicf_requested_slot_to_upgrade]

@[simp] theorem frf_gecko_sha1_file (E : Env σ κ) (g : Globals σ κ) :
    (file_read_flash E g).1.gecko_sha1_file = g.gecko_sha1_file := by
  unfold file_read_flash
  dsimp only
  split_ifs <;> simp only [wicf_gecko_sha1_file]

@[simp] theorem frf_gecko_sha1_ctx (E : Env σ κ) (g : Globals σ κ) :
    (file_read_flash E g).1.gecko_sha1_ctx = g.gecko_sha1_ctx := by
  unfold file_read_flash
  dsimp only
  split_ifs <;> simp only [wicf_gecko_sha1_ctx]

@[simp] theorem frf_gecko_sha1_output (E : Env σ κ) (g : Globals σ κ) :
    (file_read_flash E g).1.gecko_sha1_output = g.gecko_sha1_output := by
  unfold file_read_flash
  dsimp only
  split_ifs <;> simp only [wicf_gecko_sha1_output]

@[simp] theorem frf_gecko_expected_sha1 (E : Env σ κ) (g : Globals σ κ) :
    (file_read_flash E g).1.gecko_expected_sha1 = g.gecko_expected_sha1 := by
  unfold file_read_flash
  dsimp only
  split_ifs <;> simp only [wicf_gecko_expected_sha1]

@[simp] theorem frf_gecko_expected_sha1_final (E : Env σ κ) (g : Globals σ κ) :
    (file_read_flash E g).1.gecko_expected_sha1_final = g.gecko_expected_sha1_final := by
  unfold file_read_flash
  dsimp only
  split_ifs <;> simp only [wicf_gecko_expected_sha1_final]

@[simp] theorem frf_fw_upgrade_done (E : Env σ κ) (g : Globals σ κ) :
    (file_read_flash E g).1.fw_upgrade_done = g.fw_upgrade_done := by
  unfold file_read_flash
  dsimp only
  split_ifs <;> simp only [wicf_fw_upgrade_done]

/-! ## One chunk: `file_read_flash` on a healthy file -/

theorem frf_eq (E : Env σ κ) (g : Globals σ κ) (hf : g.geckofile.faults = []) :
    file_read_flash E g =
      ({ (if 0 < (next_chunk g.geckofile).length then
            { (write_image_chunk_to_flash E (after_fs_read g)
                  ((next_chunk g.geckofile).length : Int) (after_fs_read g).image_buffer
                  (slot_base g.requested_slot_to_upgrade) 0).1 with
              crc32 := E.crc32_ieee_update g.crc32
                ((after_fs_read g).image_buffer.take (next_chunk g.geckofile).length) }
          else after_fs_read g) with status := 0 }, 0) := by
  unfold file_read_flash
  rw [fs_read_nofault _ _ hf]
  have h0 : ¬ ((((g.geckofile.data.drop g.geckofile.pos).take DFU_XFER_SIZE_2K).length : Int) < 0) := by
    omega
  dsimp only
  rw [if_neg h0]
  by_cases hp : 0 < (next_chunk g.geckofile).length
  · have hp' : (((g.geckofile.data.drop g.geckofile.pos).take DFU_XFER_SIZE_2K).length : Int) > 0 := by
      unfold next_chunk at hp
      unfold DFU_XFER_SIZE_2K
      omega
    rw [if_pos hp', if_pos hp]
    unfold slot_base
    by_cases hs : g.requested_slot_to_upgrade = 0
    · simp only [if_pos hs, wicf_crc32, wicf_image_buffer, wicf_readbytes, Int.toNat_ofNat]
      rfl
    · simp only [if_neg hs, wicf_crc32, wicf_image_buffer, wicf_readbytes, Int.toNat_ofNat]
      rfl
  · have hp' : ¬ (((g.geckofile.data.drop g.geckofile.pos).take DFU_XFER_SIZE_2K).length : Int) > 0 := by
      unfold next_chunk at hp
      unfold DFU_XFER_SIZE_2K
      omega
    rw [if_neg hp', if_neg hp]
    rfl

theorem frf_rc (E : Env σ κ) (g : Globals σ κ) (hf : g.geckofile.faults = []) :
    (file_read_flash E g).2 = 0 := by
  rw [frf_eq E g hf]

theorem frf_status (E : Env σ κ) (g : Globals σ κ) (hf : g.geckofile.faults = []) :
    (file_read_flash E g).1.status = 0 := by
  rw [frf_eq E g hf]

theorem frf_geckofile (E : Env σ κ) (g : Globals σ κ) (hf : g.geckofile.faults = []) :
    (file_read_flash E g).1.geckofile = (after_fs_read g).geckofile := by
  rw [frf_eq E g hf]
  dsimp only
  split_ifs <;> simp only [wicf_geckofile]

theorem frf_readbytes (E : Env σ κ) (g : Globals σ κ) (hf : g.geckofile.faults = []) :
    (file_read_flash E g).1.readbytes = ((next_chunk g.geckofile).length : Int) := by
  rw [frf_eq E g hf]
  dsimp only
  split_ifs <;> first | rfl | (simp only [wicf_readbytes]; rfl)

theorem frf_totalreadbytes (E : Env σ κ) (g : Globals σ κ) (hf : g.geckofile.faults = []) :
    (file_read_flash E g).1.totalreadbytes =
      g.totalreadbytes + ((next_chunk g.geckofile).length : Int) := by
  rw [frf_eq E g hf]
  dsimp only
  split_ifs <;> first | rfl | (simp only [wicf_totalreadbytes]; rfl)

theorem frf_image_buffer (E : Env σ κ) (g : Globals σ κ) (hf : g.geckofile.faults = []) :
    (file_read_flash E g).1.image_buffer = store (next_chunk g.geckofile) g.image_buffer := by
  rw [frf_eq E g hf]
  dsimp only
  split_ifs <;> first | rfl | (simp only [wicf_image_buffer]; rfl)

theorem wicf_page_incr (E : Env σ κ) (g : Globals σ κ) (n : Int) (d : List Nat) (s : Nat) :
    (write_image_chunk_to_flash E g n d s 0).1.page = (g.page + 1) % 4294967296 := by
  unfold write_image_chunk_to_flash
  dsimp only
  split_ifs <;> first | rfl | contradiction

theorem wicf_flash_log_incr (E : Env σ κ) (g : Globals σ κ) (n : Int) (d : List Nat) (s : Nat) :
    (write_image_chunk_to_flash E g n d s 0).1.flash_log =
      g.flash_log ++
        ([FlashOp.erase ((s + g.page * 2048) % 4294967296) 2048,
          FlashOp.write ((s + g.page * 2048) % 4294967296) (d.take 2048)] ++
         (if (E.flash_write (E.flash_erase g.flash ((s + g.page * 2048) % 4294967296) 2048).1
                ((s + g.page * 2048) % 4294967296) (d.take 2048)).2 = 0
          then [FlashOp.read ((s + g.page * 2048) % 4294967296) n.toNat] else [])) := by
  unfold write_image_chunk_to_flash
  simp only [DFU_XFER_SIZE_2K]
  split_ifs <;> simp_all

theorem frf_page (E : Env σ κ) (g : Globals σ κ) (hf : g.geckofile.faults = [])
    (hb : 0 < (next_chunk g.geckofile).length) :
    (file_read_flash E g).1.page = (g.page + 1) % 4294967296 := by
  rw [frf_eq E g hf]
  dsimp only
  rw [if_pos hb]
  dsimp only
  rw [wicf_page_incr]
  rfl

theorem frf_flash_log (E : Env σ κ) (g : Globals σ κ) (hf : g.geckofile.faults = [])
    (hb : 0 < (next_chunk g.geckofile).length) :
    (file_read_flash E g).1.flash_log =
      g.flash_log ++
        ([FlashOp.erase ((slot_base g.requested_slot_to_upgrade + g.page * 2048) % 4294967296)
            2048,
          FlashOp.write ((slot_base g.requested_slot_to_upgrade + g.page * 2048) % 4294967296)
            ((store (next_chunk g.geckofile) g.image_buffer).take 2048)] ++
         (if (E.flash_write
                (E.flash_erase g.flash
                  ((slot_base g.requested_slot_to_upgrade + g.page * 2048) % 4294967296) 2048).1
                ((slot_base g.requested_slot_to_upgrade + g.page * 2048) % 4294967296)
                ((store (next_chunk g.geckofile) g.image_buffer).take 2048)).2 = 0
          then [FlashOp.read
                  ((slot_base g.requested_slot_to_upgrade + g.page * 2048) % 4294967296)
                  (next_chunk g.geckofile).length]
          else [])) := by
  rw [frf_eq E g hf]
  dsimp only
  rw [if_pos hb]
  dsimp only
  rw [wicf_flash_log_incr]
  simp only [Int.toNat_ofNat]
  rfl

theorem frf_eof (E : Env σ κ) (g : Globals σ κ) (hf : g.geckofile.faults = [])
    (hb : (next_chunk g.geckofile).length = 0) :
    file_read_flash E g = ({ after_fs_read g with status := 0 }, 0) := by
  rw [frf_eq E g hf, if_neg (by omega)]

/-- The flash calls of one chunk, for a driver whose `flash_write` always
returns `c`. -/
theorem frf_flash_log_ops (E : Env σ κ) (c : Int) (hc : ∀ s a d, (E.flash_write s a d).2 = c)
    (g : Globals σ κ) (hf : g.geckofile.faults = [])
    (hb : 0 < (next_chunk g.geckofile).length) :
    (file_read_flash E g).1.flash_log =
      g.flash_log ++
        chunk_ops c ((slot_base g.requested_slot_to_upgrade + g.page * 2048) % 4294967296)
          ((store (next_chunk g.geckofile) g.image_buffer).take 2048)
          (next_chunk g.geckofile).length := by
  rw [frf_flash_log E g hf hb, hc]
  rfl

/-! ## The passes of the chunk loop -/

theorem chunk_loop_first (E : Env σ κ) (fuel : Nat) (g : Globals σ κ)
    (h0 : g.chunk_cnt = 0) (hst : g.status = 0) (hoff : g.offset ≤ g.fw_image_size) :
    chunk_loop E (fuel + 1) g = chunk_loop E fuel (chunk_loop_advance g) := by
  rw [chunk_loop]
  simp [h0, hst, hoff]

theorem chunk_loop_mid (E : Env σ κ) (fuel : Nat) (g : Globals σ κ)
    (h0 : g.chunk_cnt ≠ 0)
    (h1 : g.chunk_cnt ≠ (g.chunk_check + 4294967295) % 4294967296)
    (hoff : g.offset ≤ g.fw_image_size) (hf : g.geckofile.faults = []) :
    chunk_loop E (fuel + 1) g =
      chunk_loop E fuel (chunk_loop_advance (file_read_flash E g).1) := by
  rw [chunk_loop]
  simp [h0, h1, hoff, frf_rc E g hf, frf_status E g hf]

theorem chunk_loop_last (E : Env σ κ) (fuel : Nat) (g : Globals σ κ)
    (h0 : g.chunk_cnt ≠ 0)
    (h1 : g.chunk_cnt = (g.chunk_check + 4294967295) % 4294967296)
    (hoff : g.offset ≤ g.fw_image_size) (hf : g.geckofile.faults = []) :
    chunk_loop E (fuel + 1) g =
      some ({ (file_read_flash E (file_read_flash E g).1).1 with
                state := gecko_app_state.GECKO_FW_UPGRADE_DONE }, none) := by
  have hf2 : (file_read_flash E g).1.geckofile.faults = [] := by
    rw [frf_geckofile E g hf]
    exact hf
  rw [chunk_loop]
  simp [h0, h1.symm, hoff, frf_rc E g hf, frf_rc E _ hf2, frf_status E _ hf2]

/-! ## The invariant of the chunk loop -/

theorem slot_base_le (slot : Int) : slot_base slot ≤ 524288 := by
  unfold slot_base GECKO_IMAGE_SLOT_0_SECTOR GECKO_IMAGE_SLOT_1_SECTOR
  split_ifs <;> omega

theorem chunk_at_length_full (img : List Nat) (j : Nat) (h : (j + 1) * 2048 ≤ img.length) :
    (chunk_at img j).length = 2048 := by
  simp only [chunk_at, List.length_take, List.length_drop]
  omega

theorem chunk_at_length_last (img : List Nat) (j : Nat) (h : img.length ≤ (j + 1) * 2048) :
    (chunk_at img j).length = img.length - j * 2048 := by
  simp only [chunk_at, List.length_take, List.length_drop]
  omega

theorem next_chunk_atChunk {c : Int} {img : List Nat} {slot : Int}
    {L0 : List FlashOp} {j : Nat} {g : Globals σ κ}
    (h : AtChunk c img slot L0 j g) : next_chunk g.geckofile = chunk_at img j := by
  simp only [next_chunk, chunk_at, h.data, h.pos]

theorem atChunk_step (E : Env σ κ) (c : Int) (hc : ∀ s a d, (E.flash_write s a d).2 = c)
    (img : List Nat) (slot : Int) (L0 : List FlashOp) (j : Nat) (g : Globals σ κ)
    (h : AtChunk c img slot L0 j g) (hS : img.length < 2147483648)
    (hj : j + 2 ≤ num_chunks img.length) :
    AtChunk c img slot L0 (j + 1) (chunk_loop_advance (file_read_flash E g).1) := by
  have hf := h.faults
  have hfull : (j + 1) * 2048 ≤ img.length := by
    unfold num_chunks at hj
    omega
  have hnc := next_chunk_atChunk h
  have hlen : (next_chunk g.geckofile).length = 2048 := by
    rw [hnc]
    exact chunk_at_length_full img j hfull
  have hb : 0 < (next_chunk g.geckofile).length := by omega
  have hsb := slot_base_le slot
  have hcnt : (chunk_loop_advance (file_read_flash E g).1).chunk_cnt = j + 2 := by
    simp only [chunk_loop_advance, frf_chunk_cnt, h.chunk_cnt]
    omega
  refine
    { data := ?_, faults := ?_, pos := ?_, offset := ?_, chunk_cnt := hcnt, chunk_check := ?_,
      fw_image_size := ?_, page := ?_, image_buffer := ?_, req_slot := ?_,
      totalreadbytes := ?_, log := ?_, done := ?_ }
  · simp only [chunk_loop_advance, frf_geckofile E g hf, after_fs_read, h.data]
  · simp only [chunk_loop_advance, frf_geckofile E g hf, after_fs_read, h.faults]
  · simp only [chunk_loop_advance, frf_geckofile E g hf, after_fs_read, h.pos, hlen]
    omega
  · simp only [chunk_loop_advance, frf_offset, frf_readbytes E g hf, h.offset, hlen, to_uint32]
    omega
  · simp only [chunk_loop_advance, frf_chunk_check, h.chunk_check]
  · simp only [chunk_loop_advance, frf_fw_image_size, h.fw_image_size]
  · simp only [chunk_loop_advance, frf_page E g hf hb, h.page]
    omega
  · simp only [chunk_loop_advance, DFU_CHUNK_SIZE]
  · simp only [chunk_loop_advance, frf_requested_slot_to_upgrade, h.req_slot]
  · simp only [chunk_loop_advance, frf_totalreadbytes E g hf, h.totalreadbytes, hlen]
    push_cast
    ring
  · have hpg : (store (next_chunk g.geckofile) g.image_buffer).take 2048 = chunk_at img j := by
      rw [hnc, h.image_buffer, store_full _ _ (by
        rw [chunk_at_length_full img j hfull, List.length_replicate])]
      exact List.take_of_length_le (by rw [chunk_at_length_full img j hfull])
    simp only [chunk_loop_advance, frf_flash_log_ops E c hc g hf hb, h.log, h.req_slot, h.page,
      full_ops, List.append_assoc, hpg, hlen]
    rw [Nat.mod_eq_of_lt (by omega)]
  · simp only [chunk_loop_advance, frf_fw_upgrade_done, h.done]

theorem atChunk_last (E : Env σ κ) (c : Int) (hc : ∀ s a d, (E.flash_write s a d).2 = c)
    (img : List Nat) (slot : Int) (L0 : List FlashOp) (j : Nat) (g : Globals σ κ)
    (h : AtChunk c img slot L0 j g) (hS : img.length < 2147483648)
    (hj : j + 2 = num_chunks img.length) :
    Transferred c img slot L0
      { (file_read_flash E (file_read_flash E g).1).1 with
          state := gecko_app_state.GECKO_FW_UPGRADE_DONE } := by
  have hf := h.faults
  have hn1 : num_chunks img.length - 1 = j + 1 := by omega
  have hn2 : num_chunks img.length - 2 = j := by omega
  have hfull : (j + 1) * 2048 ≤ img.length := by
    unfold num_chunks at hj
    omega
  have hrest : (j + 1) * 2048 < img.length ∧ img.length ≤ (j + 2) * 2048 := by
    unfold num_chunks at hj
    omega
  have hnc := next_chunk_atChunk h
  have hlen : (next_chunk g.geckofile).length = 2048 := by
    rw [hnc]
    exact chunk_at_length_full img j hfull
  have hb : 0 < (next_chunk g.geckofile).length := by omega
  have hsb := slot_base_le slot
  -- the state between the two reads of the last pass
  have hf1 : (file_read_flash E g).1.geckofile.faults = [] := by
    simp only [frf_geckofile E g hf, after_fs_read, h.faults]
  have hpos1 : (file_read_flash E g).1.geckofile.pos = (j + 1) * 2048 := by
    rw [frf_geckofile E g hf]
    simp only [after_fs_read, hlen, h.pos]
    omega
  have hdata1 : (file_read_flash E g).1.geckofile.data = img := by
    rw [frf_geckofile E g hf]
    simp only [after_fs_read, h.data]
  have hnc1 : next_chunk (file_read_flash E g).1.geckofile = chunk_at img (j + 1) := by
    unfold next_chunk chunk_at
    rw [hpos1, hdata1]
  have hlen1 : (chunk_at img (j + 1)).length = img.length - (j + 1) * 2048 :=
    chunk_at_length_last img (j + 1) (by omega)
  have hb1 : 0 < (next_chunk (file_read_flash E g).1.geckofile).length := by
    rw [hnc1, hlen1]
    omega
  have hbuf1 : (file_read_flash E g).1.image_buffer = chunk_at img j := by
    rw [frf_image_buffer E g hf, hnc, h.image_buffer]
    apply store_full
    rw [chunk_at_length_full img j hfull, List.length_replicate]
  have hpage1 : (file_read_flash E g).1.page = j + 1 := by
    rw [frf_page E g hf hb, h.page]
    omega
  have hpg : (store (next_chunk g.geckofile) g.image_buffer).take 2048 = chunk_at img j := by
    rw [hnc, h.image_buffer, store_full _ _ (by
      rw [chunk_at_length_full img j hfull, List.length_replicate])]
    exact List.take_of_length_le (by rw [chunk_at_length_full img j hfull])
  have hst : (store (chunk_at img (j + 1)) (chunk_at img j)).take 2048 = final_page img := by
    unfold final_page store
    rw [hn1, hn2]
    apply List.take_of_length_le
    simp only [List.length_append, List.length_drop, chunk_at_length_full img j hfull, hlen1]
    omega
  refine { state := rfl, totalreadbytes := ?_, log := ?_ }
  · simp only [frf_totalreadbytes E _ hf1, frf_totalreadbytes E g hf, h.totalreadbytes, hlen,
      hnc1, hlen1]
    omega
  · show (file_read_flash E (file_read_flash E g).1).1.flash_log = _
    rw [frf_flash_log_ops E c hc _ hf1 hb1, frf_flash_log_ops E c hc g hf hb, h.log,
      frf_requested_slot_to_upgrade, h.req_slot, h.page, hpage1, hn1, hnc1, hbuf1, hst, hpg, hlen,
      Nat.mod_eq_of_lt (by omega), Nat.mod_eq_of_lt (by omega)]
    simp only [full_ops, List.append_assoc]

theorem chunk_loop_completes (E : Env σ κ) (c : Int) (hc : ∀ s a d, (E.flash_write s a d).2 = c)
    (img : List Nat) (slot : Int) (L0 : List FlashOp) (hS : img.length < 2147483648) :
    ∀ (d j fuel : Nat) (g : Globals σ κ), AtChunk c img slot L0 j g →
      j + 2 + d = num_chunks img.length → d + 1 ≤ fuel →
      ∃ g', chunk_loop E fuel g = some (g', none) ∧ Transferred c img slot L0 g' ∧
        g'.fw_upgrade_done = 0 := by
  intro d
  induction d with
  | zero =>
    intro j fuel g h hj hfuel
    obtain ⟨fuel, rfl⟩ : ∃ k, fuel = k + 1 := ⟨fuel - 1, by omega⟩
    have hnle : num_chunks img.length ≤ 1048576 := by
      unfold num_chunks
      omega
    have hbound : img.length ≤ (j + 2) * 2048 := by
      unfold num_chunks at hj
      omega
    refine ⟨_, chunk_loop_last E fuel g ?_ ?_ ?_ h.faults, atChunk_last E c hc img slot L0 j g h hS
      (by omega), ?_⟩
    rotate_right
    · simp only [frf_fw_upgrade_done, h.done]
    · rw [h.chunk_cnt]
      omega
    · rw [h.chunk_cnt, h.chunk_check]
      omega
    · rw [h.offset, h.fw_image_size]
      unfold num_chunks at hj
      omega
  | succ d ih =>
    intro j fuel g h hj hfuel
    obtain ⟨fuel, rfl⟩ : ∃ k, fuel = k + 1 := ⟨fuel - 1, by omega⟩
    have hnle : num_chunks img.length ≤ 1048576 := by
      unfold num_chunks
      omega
    have hstep := atChunk_step E c hc img slot L0 j g h hS (by omega)
    rw [chunk_loop_mid E fuel g ?_ ?_ ?_ h.faults]
    · exact ih (j + 1) fuel _ hstep (by omega) (by omega)
    · rw [h.chunk_cnt]
      omega
    · rw [h.chunk_cnt, h.chunk_check]
      unfold num_chunks at hj ⊢
      omega
    · rw [h.offset, h.fw_image_size]
      unfold num_chunks at hj
      omega

/-! ## The pre-read pass, the digest file and the comparison -/

theorem sha1_stream_eof (E : Env σ κ) (ctx : κ) (data : List Nat) (h : data.take 2048 = []) :
    sha1_stream E ctx data = (E.sha1_finish (E.sha1_update ctx [])).2 := by
  rw [sha1_stream, if_pos h]

theorem sha1_stream_more (E : Env σ κ) (ctx : κ) (data : List Nat) (h : data.take 2048 ≠ []) :
    sha1_stream E ctx data =
      sha1_stream E (E.sha1_update ctx (data.take 2048)) (data.drop (data.take 2048).length) := by
  rw [sha1_stream, if_neg h]

/-- The pre-read pass over a healthy file reads it to the end: it returns the
number of bytes that were left, leaves the streamed digest in
`gecko_sha1_output`, and changes no static variable besides the file, the read
counters, `image_buffer` and the digest context and output. -/
theorem fw_size_loop_spec (E : Env σ κ) :
    ∀ (fuel : Nat) (g : Globals σ κ), g.geckofile.faults = [] →
      (g.geckofile.data.drop g.geckofile.pos).length < fuel →
      ∃ g', get_gecko_fw_size_loop E fuel g =
          some (g', to_uint32 (g.totalreadbytes +
                  ((g.geckofile.data.drop g.geckofile.pos).length : Int))) ∧
        g' = { g with geckofile := g'.geckofile, readbytes := g'.readbytes,
                      image_buffer := g'.image_buffer, totalreadbytes := g'.totalreadbytes,
                      gecko_sha1_ctx := g'.gecko_sha1_ctx,
                      gecko_sha1_output := g'.gecko_sha1_output } ∧
        g'.geckofile.data = g.geckofile.data ∧ g'.geckofile.faults = [] ∧
        g'.gecko_sha1_output =
          sha1_stream E g.gecko_sha1_ctx (g.geckofile.data.drop g.geckofile.pos) ∧
        g'.totalreadbytes =
          g.totalreadbytes + ((g.geckofile.data.drop g.geckofile.pos).length : Int) := by
  intro fuel
  induction fuel with
  | zero => intro g _ h; omega
  | succ fuel ih =>
    intro g hf hfuel
    rw [get_gecko_fw_size_loop, fs_read_nofault _ _ hf]
    have h0 : ¬ ((((g.geckofile.data.drop g.geckofile.pos).take DFU_XFER_SIZE_2K).length : Int)
        < 0) := by omega
    dsimp only
    rw [if_neg h0]
    simp only [take_store, Int.toNat_ofNat, DFU_XFER_SIZE_2K]
    by_cases hb : (g.geckofile.data.drop g.geckofile.pos).take 2048 = []
    · have hlen0 : (g.geckofile.data.drop g.geckofile.pos).length = 0 := by
        have := congrArg List.length hb
        simp only [List.length_take, List.length_nil] at this
        omega
      simp only [hb, List.length_nil, Nat.cast_zero, if_true, add_zero, hlen0,
        sha1_stream_eof E _ _ hb, store_nil]
      exact ⟨_, rfl, rfl, rfl, hf, rfl, rfl⟩
    · have hpos : 0 < ((g.geckofile.data.drop g.geckofile.pos).take 2048).length :=
        List.length_pos.2 hb
      have hne : ¬ ((((g.geckofile.data.drop g.geckofile.pos).take 2048).length : Int) = 0) := by
        omega
      rw [if_neg hne]
      have hdrop : ∀ m, (g.geckofile.data.drop (g.geckofile.pos + m)) =
          (g.geckofile.data.drop g.geckofile.pos).drop m := fun m => by
        rw [List.drop_drop]
      obtain ⟨g', hrun, hfr, hdata, hflt, hsha, htot⟩ := ih
        { g with
          geckofile := { g.geckofile with
            pos := g.geckofile.pos + ((g.geckofile.data.drop g.geckofile.pos).take 2048).length,
            calls := g.geckofile.calls + 1 },
          readbytes := (((g.geckofile.data.drop g.geckofile.pos).take 2048).length : Int),
          image_buffer :=
            store ((g.geckofile.data.drop g.geckofile.pos).take 2048) g.image_buffer,
          totalreadbytes := g.totalreadbytes +
            (((g.geckofile.data.drop g.geckofile.pos).take 2048).length : Int),
          gecko_sha1_ctx :=
            E.sha1_update g.gecko_sha1_ctx ((g.geckofile.data.drop g.geckofile.pos).take 2048) }
        hf
        (by
          dsimp only
          rw [hdrop]
          simp only [List.length_drop, List.length_take] at hpos hfuel ⊢
          omega)
      dsimp only at hrun hfr hdata hflt hsha htot
      have hlens : ((g.geckofile.data.drop g.geckofile.pos).take 2048).length +
          ((g.geckofile.data.drop g.geckofile.pos).drop
            ((g.geckofile.data.drop g.geckofile.pos).take 2048).length).length =
          (g.geckofile.data.drop g.geckofile.pos).length := by
        simp only [List.length_drop, List.length_take]
        omega
      rw [hdrop] at hrun hsha htot
      refine ⟨g', ?_, hfr, hdata, hflt, ?_, ?_⟩
      · rw [hrun]
        congr 3
        rw [← hlens]
        push_cast
        ring
      · rw [hsha, sha1_stream_more E _ _ hb]
      · rw [htot, ← hlens]
        push_cast
        ring

theorem compare_sha1_eq (g : Globals σ κ) (slot : Int) :
    compare_sha1 g slot =
      if ∃ i, i < 20 ∧ byteAt g.gecko_sha1_output i ≠ byteAt g.gecko_expected_sha1_final i
      then -1 else 0 := by
  unfold compare_sha1 DFU_SHA1_LEN
  by_cases h : ∃ i, i < 20 ∧ byteAt g.gecko_sha1_output i ≠ byteAt g.gecko_expected_sha1_final i
  · have h' : ((List.range 20).any fun i =>
        decide (byteAt g.gecko_sha1_output i ≠ byteAt g.gecko_expected_sha1_final i)) = true := by
      rw [List.any_eq_true]
      obtain ⟨i, hi, hne⟩ := h
      exact ⟨i, List.mem_range.2 hi, by simpa using hne⟩
    simp only [h', if_true, if_pos h]
    rfl
  · have h' : ¬ ((List.range 20).any fun i =>
        decide (byteAt g.gecko_sha1_output i ≠ byteAt g.gecko_expected_sha1_final i)) = true := by
      rw [List.any_eq_true]
      rintro ⟨i, hi, hne⟩
      exact h ⟨i, List.mem_range.1 hi, by simpa using hne⟩
    simp only [h', if_neg h]
    rfl

/-- What `get_gecko_sha1` does: it fails, or it has read forty characters and
decoded them. In both cases it touches neither the flash device nor the
computed digest. -/
theorem get_gecko_sha1_spec (g : Globals σ κ) :
    ((get_gecko_sha1 g).2 = -1 ∨
      ((get_gecko_sha1 g).2 = 0 ∧
        (get_gecko_sha1 g).1.gecko_expected_sha1_final =
          sha_hex_to_bin
            (store ((g.gecko_sha1_file.data.drop g.gecko_sha1_file.pos).take (DFU_SHA1_LEN * 2))
              g.gecko_expected_sha1)
            g.gecko_expected_sha1_final (DFU_SHA1_LEN * 2))) ∧
    (get_gecko_sha1 g).1 =
      { g with gecko_sha1_file := (get_gecko_sha1 g).1.gecko_sha1_file,
               readbytes := (get_gecko_sha1 g).1.readbytes,
               gecko_expected_sha1 := (get_gecko_sha1 g).1.gecko_expected_sha1,
               gecko_expected_sha1_final := (get_gecko_sha1 g).1.gecko_expected_sha1_final } := by
  unfold get_gecko_sha1
  by_cases hflt : g.gecko_sha1_file.calls ∈ g.gecko_sha1_file.faults
  · simp [fs_read, hflt]
  · rw [fs_read_ok _ _ hflt]
    dsimp only
    split_ifs with h
    · refine ⟨Or.inl ?_, ?_⟩
      · with_reducible rfl
      · with_reducible rfl
    · refine ⟨Or.inr ⟨?_, ?_⟩, ?_⟩
      · with_reducible rfl
      · with_reducible rfl
      · with_reducible rfl

/-! ## Assembling a call of `dfu_gecko_write_image` -/

theorem dfu_enter (E : Env σ κ) (fuel : Nat) (g : Globals σ κ) (req : Request)
    (img digest : List Nat) (hb : req.bin_file = some img) (hs : req.sha_file = some digest)
    (hbo : g.geckofile.opened = false) (hso : g.gecko_sha1_file.opened = false) :
    dfu_gecko_write_image E fuel g req =
      upgrade_loop E req.slot_to_upgrade fuel (entered g req img digest) := by
  unfold dfu_gecko_write_image
  simp only [hb, hs, hbo, hso, fs_open, write_image_chunk_to_flash, GECKO_INIT_PAGE]
  rfl

theorem get_gecko_sha1_ok (g : Globals σ κ)
    (hflt : g.gecko_sha1_file.calls ∉ g.gecko_sha1_file.faults)
    (hlen : ((g.gecko_sha1_file.data.drop g.gecko_sha1_file.pos).take 40).length = 40) :
    get_gecko_sha1 g =
      ({ g with
          gecko_sha1_file :=
            { g.gecko_sha1_file with pos := g.gecko_sha1_file.pos + 40,
                                     calls := g.gecko_sha1_file.calls + 1 },
          readbytes := 40,
          gecko_expected_sha1 :=
            store ((g.gecko_sha1_file.data.drop g.gecko_sha1_file.pos).take 40)
              g.gecko_expected_sha1,
          gecko_expected_sha1_final :=
            sha_hex_to_bin
              (store ((g.gecko_sha1_file.data.drop g.gecko_sha1_file.pos).take 40)
                g.gecko_expected_sha1)
              g.gecko_expected_sha1_final 40 }, 0) := by
  unfold get_gecko_sha1
  rw [fs_read_ok _ _ hflt]
  simp only [DFU_SHA1_LEN, Nat.reduceMul, hlen]
  rw [if_neg (by omega)]
  rfl

/-- The body of `case GECKO_FW_UPGRADE:` on an image of at least one chunk
whose digest matches, entered with the chunk counter and the offset at zero,
reaches the chunk loop without a flash call. -/
theorem case_reaches_loop (E : Env σ κ) (slot0 slot : Int) (img digest : List Nat)
    (g : Globals σ κ)
    (hfd : g.geckofile.data = img) (hfp : g.geckofile.pos = 0) (hff : g.geckofile.faults = [])
    (hsd : g.gecko_sha1_file.data = digest) (hsp : g.gecko_sha1_file.pos = 0)
    (hsf : g.gecko_sha1_file.calls ∉ g.gecko_sha1_file.faults)
    (hd : 40 ≤ digest.length) (hS : 2048 ≤ img.length) (hS31 : img.length < 2147483648)
    (hmatch : ∀ i, i < 20 →
      byteAt (sha1_stream E g.gecko_sha1_ctx img) i =
        byteAt (sha_hex_to_bin (store (digest.take 40) g.gecko_expected_sha1)
          g.gecko_expected_sha1_final 40) i)
    (hcc : g.chunk_cnt = 0) (hoff : g.offset = 0) (hst : g.status = 0)
    (hslot : g.requested_slot_to_upgrade = slot) (hpage : g.page = 0)
    (hdone : g.fw_upgrade_done = 0) (fuel : Nat) (hfuel : img.length + 1 ≤ fuel) :
    ∃ g5, case_GECKO_FW_UPGRADE E slot0 fuel g = chunk_loop E fuel g5 ∧
      LoopEntry img slot g.flash_log g5 := by
  obtain ⟨g2, hrun, hfr, hd2, hf2, hsha, -⟩ :=
    fw_size_loop_spec E fuel { g with totalreadbytes := 0 } hff (by
      dsimp only
      rw [hfp, hfd, List.drop_zero]
      omega)
  obtain ⟨f2, rb, b, t, cx, o, rfl⟩ : ∃ f rb b t cx o, g2 =
      { g with geckofile := f, readbytes := rb, image_buffer := b, totalreadbytes := t,
               gecko_sha1_ctx := cx, gecko_sha1_output := o } := ⟨_, _, _, _, _, _, hfr⟩
  clear hfr
  dsimp only at hrun hd2 hf2 hsha
  rw [hfp, hfd, List.drop_zero] at hrun hsha
  have hsize : to_uint32 (0 + (img.length : Int)) = img.length := by
    unfold to_uint32
    omega
  rw [hsize] at hrun
  have hlen40 : ((g.gecko_sha1_file.data.drop g.gecko_sha1_file.pos).take 40).length = 40 := by
    rw [hsp, hsd, List.drop_zero, List.length_take]
    omega
  have hnosmall : ¬ (img.length = 0 ∨ img.length < DFU_CHUNK_SIZE) := by
    unfold DFU_CHUNK_SIZE
    omega
  have hcmp : ¬ ∃ i, i < 20 ∧ byteAt o i ≠
      byteAt (sha_hex_to_bin
        (store ((g.gecko_sha1_file.data.drop g.gecko_sha1_file.pos).take 40) g.gecko_expected_sha1)
        g.gecko_expected_sha1_final 40) i := by
    rintro ⟨i, hi, hne⟩
    apply hne
    rw [hsha, hsp, hsd, List.drop_zero]
    exact hmatch i hi
  have hnc : (if img.length % DFU_CHUNK_SIZE ≠ 0
      then (img.length / DFU_CHUNK_SIZE + 1) % 4294967296 else img.length / DFU_CHUNK_SIZE) =
      num_chunks img.length := by
    unfold DFU_CHUNK_SIZE num_chunks
    split_ifs <;> omega
  unfold case_GECKO_FW_UPGRADE get_gecko_fw_size
  rw [hrun]
  dsimp only
  have hs := get_gecko_sha1_ok
    ({ g with geckofile := f2, readbytes := rb, image_buffer := b, totalreadbytes := t,
              gecko_sha1_ctx := cx, gecko_sha1_output := o, fw_image_size := img.length } :
      Globals σ κ) hsf hlen40
  dsimp only at hs
  rw [if_neg hnosmall, hs]
  dsimp only
  rw [if_neg (by decide), compare_sha1_eq]
  dsimp only
  rw [if_neg hcmp, if_neg (by decide)]
  refine ⟨_, rfl, ?_⟩
  refine
    { data := ?_, faults := ?_, pos := ?_, offset := ?_, chunk_cnt := ?_, status := ?_,
      readbytes := ?_, chunk_check := ?_,
      fw_image_size := ?_, page := ?_, req_slot := ?_,
      totalreadbytes := ?_, log := ?_, done := ?_ }
  · unfold fs_seek
    split_ifs <;> exact hd2.trans hfd
  · unfold fs_seek
    split_ifs <;> exact hf2
  · unfold fs_seek
    split_ifs <;> rfl
  · split_ifs <;> exact hoff
  · split_ifs <;> exact hcc
  · split_ifs <;> exact hst
  · split_ifs <;> rfl
  · dsimp only
    rw [← hnc]
    split_ifs <;> rfl
  · split_ifs <;> rfl
  · split_ifs <;> exact hpage
  · split_ifs <;> exact hslot
  · split_ifs <;> rfl
  · split_ifs <;> rfl
  · split_ifs <;> exact hdone

theorem atChunk_of_loopEntry (c : Int) (img : List Nat) (slot : Int) (L0 : List FlashOp)
    (g : Globals σ κ) (h : LoopEntry img slot L0 g) :
    AtChunk c img slot L0 0 (chunk_loop_advance g) := by
  refine
    { data := h.data, faults := h.faults, pos := ?_, offset := ?_, chunk_cnt := ?_,
      chunk_check := h.chunk_check, fw_image_size := h.fw_image_size, page := ?_,
      image_buffer := rfl, req_slot := h.req_slot, totalreadbytes := ?_, log := ?_,
      done := h.done }
  · show g.geckofile.pos = 0 * 2048
    rw [h.pos]
  · show to_uint32 ((g.offset : Int) + g.readbytes) = 0 * 2048
    rw [h.offset, h.readbytes]
    rfl
  · show (g.chunk_cnt + 1) % 4294967296 = 0 + 1
    rw [h.chunk_cnt]
  · show g.page = 0
    exact h.page
  · show g.totalreadbytes = ((0 * 2048 : Nat) : Int)
    rw [h.totalreadbytes]
    rfl
  · show g.flash_log = L0 ++ full_ops c img (slot_base slot) 0
    rw [h.log]
    simp [full_ops]

/-- The body of `case GECKO_FW_UPGRADE:` on an image of more than one chunk
whose digest matches, entered with the chunk counter and the offset at zero:
it leaves the chunk loop with `GECKO_FW_UPGRADE_DONE` set. -/
theorem case_transfer (E : Env σ κ) (c : Int) (hc : ∀ s a d, (E.flash_write s a d).2 = c)
    (slot0 slot : Int) (img digest : List Nat) (g : Globals σ κ)
    (hfd : g.geckofile.data = img) (hfp : g.geckofile.pos = 0) (hff : g.geckofile.faults = [])
    (hsd : g.gecko_sha1_file.data = digest) (hsp : g.gecko_sha1_file.pos = 0)
    (hsf : g.gecko_sha1_file.calls ∉ g.gecko_sha1_file.faults)
    (hd : 40 ≤ digest.length) (hS : 2048 < img.length) (hS31 : img.length < 2147483648)
    (hmatch : ∀ i, i < 20 →
      byteAt (sha1_stream E g.gecko_sha1_ctx img) i =
        byteAt (sha_hex_to_bin (store (digest.take 40) g.gecko_expected_sha1)
          g.gecko_expected_sha1_final 40) i)
    (hcc : g.chunk_cnt = 0) (hoff : g.offset = 0) (hst : g.status = 0)
    (hslot : g.requested_slot_to_upgrade = slot) (hpage : g.page = 0)
    (hdone : g.fw_upgrade_done = 0) (fuel : Nat) (hfuel : img.length + 1 ≤ fuel) :
    ∃ g', case_GECKO_FW_UPGRADE E slot0 fuel g = some (g', none) ∧
      Transferred c img slot g.flash_log g' ∧ g'.fw_upgrade_done = 0 := by
  obtain ⟨g5, hrun, hentry⟩ := case_reaches_loop E slot0 slot img digest g hfd hfp hff hsd hsp hsf
    hd (by omega) hS31 hmatch hcc hoff hst hslot hpage hdone fuel hfuel
  obtain ⟨fuel, rfl⟩ : ∃ k, fuel = k + 1 := ⟨fuel - 1, by omega⟩
  rw [hrun, chunk_loop_first E fuel g5 hentry.chunk_cnt hentry.status
    (by rw [hentry.offset]; omega)]
  have hn2 : 2 ≤ num_chunks img.length := by
    unfold num_chunks
    omega
  have hfuel2 : num_chunks img.length ≤ img.length := by
    unfold num_chunks
    omega
  exact chunk_loop_completes E c hc img slot _ hS31 (num_chunks img.length - 2) 0 fuel _
    (atChunk_of_loopEntry c img slot g.flash_log g5 hentry) (by omega) (by omega)

theorem upgrade_loop_done_state (E : Env σ κ) (slot : Int) (fuel : Nat) (g : Globals σ κ)
    (hd : g.fw_upgrade_done = 0) (hs : g.state = gecko_app_state.GECKO_FW_UPGRADE_DONE) :
    upgrade_loop E slot (fuel + 1) g =
      some ({ g with fw_upgrade_done := 1, geckofile := fs_close g.geckofile },
        Exit.rebooted) := by
  rw [upgrade_loop]
  simp only [hd, hs, ne_eq, not_true_eq_false, if_false]

theorem upgrade_loop_initial (E : Env σ κ) (slot : Int) (fuel : Nat) (g : Globals σ κ)
    (hd : g.fw_upgrade_done = 0) (hs : g.state = gecko_app_state.GECKO_INITIAL_STATE) :
    upgrade_loop E slot (fuel + 1) g =
      match case_GECKO_FW_UPGRADE E slot fuel (case_GECKO_INITIAL_STATE E g) with
      | none => none
      | some (g, some v) => some (g, Exit.returned v)
      | some (g, none) => upgrade_loop E slot fuel g := by
  rw [upgrade_loop]
  simp only [hd, hs, ne_eq, not_true_eq_false, if_false]

theorem upgrade_loop_upgrade (E : Env σ κ) (slot : Int) (fuel : Nat) (g : Globals σ κ)
    (hd : g.fw_upgrade_done = 0) (hs : g.state = gecko_app_state.GECKO_FW_UPGRADE) :
    upgrade_loop E slot (fuel + 1) g =
      match case_GECKO_FW_UPGRADE E slot fuel g with
      | none => none
      | some (g, some v) => some (g, Exit.returned v)
      | some (g, none) => upgrade_loop E slot fuel g := by
  rw [upgrade_loop]
  simp only [hd, hs, ne_eq, not_true_eq_false, if_false]

/-- From a ready state, an image of more than one chunk with a matching digest
and healthy files is transferred completely, and the call ends in the reboot. -/
theorem run_completes (E : Env σ κ) (c : Int) (hc : ∀ s a d, (E.flash_write s a d).2 = c)
    (g : Globals σ κ) (hr : Ready g) (slot : Int) (img digest : List Nat)
    (hd : 40 ≤ digest.length) (hS : 2048 < img.length) (hS31 : img.length < 2147483648)
    (hmatch : ∀ i, i < 20 →
      byteAt (computed_sha1 E g img) i = byteAt (decoded_sha1 g digest) i)
    (fuel : Nat) (hfuel : img.length + 3 ≤ fuel) :
    ∃ g', dfu_gecko_write_image E fuel g
        { slot_to_upgrade := slot, bin_file := some img, sha_file := some digest,
          bin_faults := [], sha_faults := [] } = some (g', Exit.rebooted) ∧
      Transferred c img slot g.flash_log g' ∧ g'.fw_upgrade_done = 1 := by
  obtain ⟨fuel, rfl⟩ : ∃ k, fuel = k + 2 := ⟨fuel - 2, by omega⟩
  rw [dfu_enter E _ g _ img digest rfl rfl hr.bin_closed hr.sha_closed,
    upgrade_loop_initial E _ _ _ (by exact hr.done) (by exact hr.state)]
  obtain ⟨g1, hrun, htr, hdone⟩ := case_transfer E c hc slot slot img digest
    (case_GECKO_INITIAL_STATE E (entered g
      { slot_to_upgrade := slot, bin_file := some img, sha_file := some digest,
        bin_faults := [], sha_faults := [] } img digest))
    rfl rfl rfl rfl rfl (by simp [case_GECKO_INITIAL_STATE, entered]) hd hS hS31
    (by
      intro i hi
      have := hmatch i hi
      simp only [computed_sha1, decoded_sha1, hr.state, if_true, DFU_SHA1_LEN] at this
      exact this)
    (by exact hr.chunk_cnt) (by exact hr.offset) (by exact hr.status) rfl rfl (by exact hr.done)
    (fuel + 1) (by omega)
  rw [hrun]
  dsimp only
  rw [upgrade_loop_done_state E slot fuel g1 hdone htr.state]
  exact ⟨_, rfl, ⟨htr.state, htr.totalreadbytes, htr.log⟩, rfl⟩

/-! ## More fuel does not change a result -/

theorem fw_size_loop_succ (E : Env σ κ) :
    ∀ (fuel : Nat) (g : Globals σ κ) (r : Globals σ κ × Nat),
      get_gecko_fw_size_loop E fuel g = some r → get_gecko_fw_size_loop E (fuel + 1) g = some r := by
  intro fuel
  induction fuel with
  | zero => intro g r h; simp [get_gecko_fw_size_loop] at h
  | succ fuel ih =>
    intro g r h
    rw [get_gecko_fw_size_loop] at h ⊢
    dsimp only at h ⊢
    split_ifs at h ⊢
    · exact h
    · exact h
    · exact ih _ _ h

theorem chunk_loop_succ (E : Env σ κ) :
    ∀ (fuel : Nat) (g : Globals σ κ) (r : Globals σ κ × Option Int),
      chunk_loop E fuel g = some r → chunk_loop E (fuel + 1) g = some r := by
  intro fuel
  induction fuel with
  | zero => intro g r h; simp [chunk_loop] at h
  | succ fuel ih =>
    intro g r h
    rw [chunk_loop] at h ⊢
    generalize (if g.chunk_cnt ≠ 0 then file_read_flash E g else (g, 0)) = r1 at h ⊢
    dsimp only at h ⊢
    generalize file_read_flash E r1.1 = r2 at h ⊢
    split_ifs at h ⊢
    all_goals first
      | exact h
      | exact ih _ _ h

theorem case_succ (E : Env σ κ) (slot : Int) (fuel : Nat) (g : Globals σ κ)
    (r : Globals σ κ × Option Int) (h : case_GECKO_FW_UPGRADE E slot fuel g = some r) :
    case_GECKO_FW_UPGRADE E slot (fuel + 1) g = some r := by
  unfold case_GECKO_FW_UPGRADE get_gecko_fw_size at h ⊢
  cases hsz : get_gecko_fw_size_loop E fuel { g with totalreadbytes := 0 } with
  | none => rw [hsz] at h; simp at h
  | some p =>
    rw [hsz] at h
    rw [fw_size_loop_succ E fuel _ p hsz]
    dsimp only at h ⊢
    split_ifs at h ⊢
    all_goals first
      | exact h
      | exact chunk_loop_succ E fuel _ r h

theorem upgrade_loop_succ (E : Env σ κ) (slot : Int) :
    ∀ (fuel : Nat) (g : Globals σ κ) (r : Globals σ κ × Exit),
      upgrade_loop E slot fuel g = some r → upgrade_loop E slot (fuel + 1) g = some r := by
  intro fuel
  induction fuel with
  | zero => intro g r h; simp [upgrade_loop] at h
  | succ fuel ih =>
    intro g r h
    rw [upgrade_loop] at h ⊢
    by_cases hd : g.fw_upgrade_done ≠ 0
    · rw [if_pos hd] at h ⊢
      exact h
    · rw [if_neg hd] at h ⊢
      cases hs : g.state with
      | GECKO_INITIAL_STATE =>
        rw [hs] at h
        dsimp only at h ⊢
        cases hc : case_GECKO_FW_UPGRADE E slot fuel (case_GECKO_INITIAL_STATE E g) with
        | none => rw [hc] at h; simp at h
        | some p =>
          rw [hc] at h
          rw [case_succ E slot fuel _ p hc]
          obtain ⟨g1, _ | v⟩ := p
          · exact ih _ _ h
          · exact h
      | GECKO_FW_UPGRADE =>
        rw [hs] at h
        dsimp only at h ⊢
        cases hc : case_GECKO_FW_UPGRADE E slot fuel g with
        | none => rw [hc] at h; simp at h
        | some p =>
          rw [hc] at h
          rw [case_succ E slot fuel _ p hc]
          obtain ⟨g1, _ | v⟩ := p
          · exact ih _ _ h
          · exact h
      | GECKO_FW_UPGRADE_DONE =>
        rw [hs] at h
        exact h
      | GECKO_INIT_STATE =>
        rw [hs] at h
        exact ih _ _ h

theorem dfu_succ (E : Env σ κ) (fuel : Nat) (g : Globals σ κ) (req : Request)
    (r : Globals σ κ × Exit) (h : dfu_gecko_write_image E fuel g req = some r) :
    dfu_gecko_write_image E (fuel + 1) g req = some r := by
  unfold dfu_gecko_write_image at h ⊢
  dsimp only at h ⊢
  split at h
  · exact h
  · split at h
    · exact h
    · exact upgrade_loop_succ E _ fuel _ r h

/-- A result obtained with some fuel is the result with any larger fuel. -/
theorem dfu_mono (E : Env σ κ) (g : Globals σ κ) (req : Request) (r : Globals σ κ × Exit)
    (fuel fuel' : Nat) (hle : fuel ≤ fuel')
    (h : dfu_gecko_write_image E fuel g req = some r) :
    dfu_gecko_write_image E fuel' g req = some r := by
  induction fuel' with
  | zero =>
    have : fuel = 0 := by omega
    subst this
    exact h
  | succ n ih =>
    by_cases hn : fuel ≤ n
    · exact dfu_succ E n g req r (ih hn)
    · have : fuel = n + 1 := by omega
      subst this
      exact h

theorem case_mono (E : Env σ κ) (slot : Int) (g : Globals σ κ) (r : Globals σ κ × Option Int)
    (fuel fuel' : Nat) (hle : fuel ≤ fuel')
    (h : case_GECKO_FW_UPGRADE E slot fuel g = some r) :
    case_GECKO_FW_UPGRADE E slot fuel' g = some r := by
  induction fuel' with
  | zero =>
    have : fuel = 0 := by omega
    subst this
    exact h
  | succ n ih =>
    by_cases hn : fuel ≤ n
    · exact case_succ E slot n g r (ih hn)
    · have : fuel = n + 1 := by omega
      subst this
      exact h

/-! ## An image of exactly one chunk -/

theorem stuck_first (g : Globals σ κ) (h : Stuck g) (h0 : g.chunk_cnt = 0) :
    Stuck (chunk_loop_advance g) := by
  have hrb := h.rb0 h0
  have hp := h.pos
  have hs := h.size
  have hsm := h.small
  refine
    { chunk_check := h.chunk_check, faults := h.faults, status := h.status, size := h.size,
      small := h.small, offset := ?_, pos := h.pos, rb0 := ?_, eof := ?_, cnt := ?_ }
  · show to_uint32 ((g.offset : Int) + g.readbytes) = g.geckofile.pos
    rw [h.offset, hrb]
    unfold to_uint32
    omega
  · show (g.chunk_cnt + 1) % 4294967296 = 0 → g.readbytes = 0
    intro _
    exact hrb
  · show 2 ≤ (g.chunk_cnt + 1) % 4294967296 → _
    rw [h0]
    intro h2
    omega
  · show (g.chunk_cnt + 1) % 4294967296 < 4294967296
    omega

theorem stuck_read (E : Env σ κ) (g : Globals σ κ) (h : Stuck g) :
    Stuck (chunk_loop_advance (file_read_flash E g).1) := by
  have hf := h.faults
  have hp := h.pos
  have hs := h.size
  have hsm := h.small
  have hcnt := h.cnt
  have hlen : (next_chunk g.geckofile).length = g.geckofile.data.length - g.geckofile.pos := by
    simp only [next_chunk, List.length_take, List.length_drop]
    omega
  have hgf : (file_read_flash E g).1.geckofile = (after_fs_read g).geckofile :=
    frf_geckofile E g hf
  refine
    { chunk_check := ?_, faults := ?_, status := ?_, size := ?_, small := ?_, offset := ?_,
      pos := ?_, rb0 := ?_, eof := ?_, cnt := ?_ }
  · simp only [chunk_loop_advance, frf_chunk_check, h.chunk_check]
  · simp only [chunk_loop_advance, hgf, after_fs_read, h.faults]
  · simp only [chunk_loop_advance, frf_status E g hf]
  · simp only [chunk_loop_advance, hgf, after_fs_read, frf_fw_image_size, h.size]
  · simp only [chunk_loop_advance, frf_fw_image_size, h.small]
  · simp only [chunk_loop_advance, hgf, after_fs_read, frf_offset, frf_readbytes E g hf,
      h.offset, hlen, to_uint32]
    omega
  · simp only [chunk_loop_advance, hgf, after_fs_read, hlen]
    omega
  · simp only [chunk_loop_advance, frf_chunk_cnt, frf_readbytes E g hf, hlen]
    intro hw
    have h2 : 2 ≤ g.chunk_cnt := by omega
    have := h.eof h2
    omega
  · simp only [chunk_loop_advance, hgf, after_fs_read, hlen]
    intro _
    omega
  · simp only [chunk_loop_advance, frf_chunk_cnt]
    omega

/-- With `chunk_check = 1` the chunk loop is never left. -/
theorem chunk_loop_stuck (E : Env σ κ) :
    ∀ (fuel : Nat) (g : Globals σ κ), Stuck g → chunk_loop E fuel g = none := by
  intro fuel
  induction fuel with
  | zero => intro g _; rfl
  | succ fuel ih =>
    intro g h
    have hoff : g.offset ≤ g.fw_image_size := by
      rw [h.offset, ← h.size]
      exact h.pos
    by_cases h0 : g.chunk_cnt = 0
    · rw [chunk_loop_first E fuel g h0 h.status hoff]
      exact ih _ (stuck_first g h h0)
    · rw [chunk_loop_mid E fuel g h0 (by rw [h.chunk_check]; exact h0) hoff h.faults]
      exact ih _ (stuck_read E g h)

theorem stuck_of_loopEntry (img : List Nat) (slot : Int) (L0 : List FlashOp) (g : Globals σ κ)
    (h : LoopEntry img slot L0 g) (hS : img.length = 2048) : Stuck g := by
  refine
    { chunk_check := ?_, faults := h.faults, status := h.status, size := ?_, small := ?_,
      offset := ?_, pos := ?_, rb0 := fun _ => h.readbytes, eof := ?_, cnt := ?_ }
  · rw [h.chunk_check, hS]
    rfl
  · rw [h.data, h.fw_image_size]
  · rw [h.fw_image_size, hS]
  · rw [h.offset, h.pos]
  · rw [h.pos]
    omega
  · rw [h.chunk_cnt]
    intro h2
    omega
  · rw [h.chunk_cnt]
    omega

/-- From a ready state, an image of exactly 2048 bytes with a matching digest
never leaves the chunk loop, whatever the fuel. -/
theorem run_stuck (E : Env σ κ) (g : Globals σ κ) (hr : Ready g) (slot : Int)
    (img digest : List Nat) (hd : 40 ≤ digest.length) (hS : img.length = 2048)
    (hmatch : ∀ i, i < 20 →
      byteAt (computed_sha1 E g img) i = byteAt (decoded_sha1 g digest) i)
    (fuel : Nat) :
    dfu_gecko_write_image E fuel g
        { slot_to_upgrade := slot, bin_file := some img, sha_file := some digest,
          bin_faults := [], sha_faults := [] } = none := by
  cases hrun : dfu_gecko_write_image E fuel g
        { slot_to_upgrade := slot, bin_file := some img, sha_file := some digest,
          bin_faults := [], sha_faults := [] } with
  | none => rfl
  | some r =>
    exfalso
    have hbig := dfu_mono E g _ r fuel (fuel + 2050) (by omega) hrun
    rw [dfu_enter E _ g _ img digest rfl rfl hr.bin_closed hr.sha_closed,
      upgrade_loop_initial E _ _ _ (by exact hr.done) (by exact hr.state)] at hbig
    obtain ⟨g5, hcase, hentry⟩ := case_reaches_loop E slot slot img digest
      (case_GECKO_INITIAL_STATE E (entered g
        { slot_to_upgrade := slot, bin_file := some img, sha_file := some digest,
          bin_faults := [], sha_faults := [] } img digest))
      rfl rfl rfl rfl rfl (by simp [case_GECKO_INITIAL_STATE, entered]) hd (by omega) (by omega)
      (by
        intro i hi
        have := hmatch i hi
        simp only [computed_sha1, decoded_sha1, hr.state, if_true, DFU_SHA1_LEN] at this
        exact this)
      (by exact hr.chunk_cnt) (by exact hr.offset) (by exact hr.status) rfl rfl
      (by exact hr.done) (fuel + 2049) (by omega)
    rw [hcase, chunk_loop_stuck E _ g5 (stuck_of_loopEntry img slot _ g5 hentry hS)] at hbig
    simp at hbig

/-! ## The integrity gate -/

/-- When the digest streamed over the rest of the image file differs from the
digest decoded from the digest file, the body of `case GECKO_FW_UPGRADE:`
executes `return -1` before any flash call. -/
theorem case_mismatch (E : Env σ κ) (slot0 : Int) (g : Globals σ κ)
    (hff : g.geckofile.faults = []) (fuel : Nat)
    (hfuel : (g.geckofile.data.drop g.geckofile.pos).length < fuel)
    (hmis : ∃ i, i < 20 ∧
      byteAt (sha1_stream E g.gecko_sha1_ctx (g.geckofile.data.drop g.geckofile.pos)) i ≠
        byteAt (sha_hex_to_bin
          (store ((g.gecko_sha1_file.data.drop g.gecko_sha1_file.pos).take (DFU_SHA1_LEN * 2))
            g.gecko_expected_sha1)
          g.gecko_expected_sha1_final (DFU_SHA1_LEN * 2)) i) :
    ∃ g', case_GECKO_FW_UPGRADE E slot0 fuel g = some (g', some (-1)) ∧
      g'.flash_log = g.flash_log ∧ g'.flash = g.flash ∧ g'.state = g.state := by
  obtain ⟨g2, hrun, hfr, -, -, hsha, -⟩ :=
    fw_size_loop_spec E fuel { g with totalreadbytes := 0 } hff hfuel
  obtain ⟨f2, rb, b, t, cx, o, rfl⟩ : ∃ f rb b t cx o, g2 =
      { g with geckofile := f, readbytes := rb, image_buffer := b, totalreadbytes := t,
               gecko_sha1_ctx := cx, gecko_sha1_output := o } := ⟨_, _, _, _, _, _, hfr⟩
  clear hfr
  dsimp only at hrun hsha
  generalize to_uint32 (0 + ((g.geckofile.data.drop g.geckofile.pos).length : Int)) = n0 at hrun
  obtain ⟨G2, hG2⟩ : ∃ G2 : Globals σ κ, G2 =
      { g with geckofile := f2, readbytes := rb, image_buffer := b, totalreadbytes := t,
               gecko_sha1_ctx := cx, gecko_sha1_output := o, fw_image_size := n0 } := ⟨_, rfl⟩
  obtain ⟨hor, hfr2⟩ := get_gecko_sha1_spec G2
  have hG2out : G2.gecko_sha1_output = o := by rw [hG2]
  have hG2e : G2.gecko_expected_sha1 = g.gecko_expected_sha1 := by rw [hG2]
  have hG2f : G2.gecko_expected_sha1_final = g.gecko_expected_sha1_final := by rw [hG2]
  have hG2s : G2.gecko_sha1_file = g.gecko_sha1_file := by rw [hG2]
  have key : (get_gecko_sha1 G2).2 ≠ 0 ∨ compare_sha1 (get_gecko_sha1 G2).1 slot0 ≠ 0 := by
    rcases hor with h1 | ⟨-, hfin⟩
    · left
      rw [h1]
      decide
    · right
      rw [compare_sha1_eq, if_pos]
      · decide
      · obtain ⟨i, hi, hne⟩ := hmis
        refine ⟨i, hi, ?_⟩
        rw [hfin, hfr2]
        dsimp only
        rw [hG2out, hG2e, hG2f, hG2s, hsha]
        exact hne
  have hlog : (get_gecko_sha1 G2).1.flash_log = g.flash_log := by rw [hfr2, hG2]
  have hfl : (get_gecko_sha1 G2).1.flash = g.flash := by rw [hfr2, hG2]
  have hstt : (get_gecko_sha1 G2).1.state = g.state := by rw [hfr2, hG2]
  clear hfr2 hor
  rw [hG2] at key hlog hfl hstt
  unfold case_GECKO_FW_UPGRADE get_gecko_fw_size
  rw [hrun]
  dsimp only
  split_ifs with hsmall hrc hcmp
  · exact ⟨_, rfl, rfl, rfl, rfl⟩
  · exact ⟨_, rfl, hlog, hfl, hstt⟩
  · exact ⟨_, rfl, hlog, hfl, hstt⟩
  all_goals
    exfalso
    rcases key with k | k
    · exact hrc k
    · exact hcmp k

/-! ## Shapes of the flash calls -/

theorem chunk_ops_shape (c : Int) (a : Nat) (p : List Nat) (l : Nat) :
    (chunk_ops c a p l).map FlashOp.shape = cycle_shape c a := by
  unfold chunk_ops cycle_shape
  split_ifs <;> rfl

theorem full_ops_shape (c : Int) (img : List Nat) (base : Nat) (k : Nat) :
    (full_ops c img base k).map FlashOp.shape = cycles c base k := by
  induction k with
  | zero => rfl
  | succ k ih => rw [full_ops, cycles, List.map_append, ih, chunk_ops_shape]

theorem cycles_eq_flatMap (c : Int) (base : Nat) (n : Nat) :
    cycles c base n = (List.range n).flatMap (fun k => cycle_shape c (base + k * 2048)) := by
  induction n with
  | zero => rfl
  | succ n ih =>
    rw [cycles, List.range_succ, List.flatMap_append, ih]
    simp

theorem transferred_shape (c : Int) (img : List Nat) (slot : Int) (L0 : List FlashOp)
    (g : Globals σ κ) (h : Transferred c img slot L0 g) (hn : 1 ≤ num_chunks img.length) :
    g.flash_log.map FlashOp.shape =
      L0.map FlashOp.shape ++ cycles c (slot_base slot) (num_chunks img.length) := by
  obtain ⟨m, hm⟩ : ∃ m, num_chunks img.length = m + 1 := ⟨num_chunks img.length - 1, by omega⟩
  rw [h.log, hm, List.map_append, List.map_append, full_ops_shape, chunk_ops_shape, cycles]
  rfl

/-! ## The stand-in collaborators and the sample images -/

theorem sha1_stream_sim (c : Int) (bad : Nat) :
    ∀ (n : Nat) (ctx : Unit) (data : List Nat), data.length ≤ n →
      sha1_stream (sim_env c bad) ctx data = List.replicate 20 0 := by
  intro n
  induction n with
  | zero =>
    intro ctx data h
    have : data = [] := List.length_eq_zero.1 (by omega)
    subst this
    rw [sha1_stream_eof (sim_env c bad) ctx [] rfl]
    rfl
  | succ n ih =>
    intro ctx data h
    by_cases hb : data.take 2048 = []
    · rw [sha1_stream_eof _ _ _ hb]
      rfl
    · rw [sha1_stream_more _ _ _ hb]
      apply ih
      have hpos : 0 < (data.take 2048).length := List.length_pos.2 hb
      simp only [List.length_drop, List.length_take] at hpos ⊢
      omega

theorem computed_sha1_sim (c : Int) (bad : Nat) (g : Globals (List Nat) Unit) (img : List Nat) :
    computed_sha1 (sim_env c bad) g img = List.replicate 20 0 :=
  sha1_stream_sim c bad img.length _ img (le_refl _)

theorem decoded_sha1_zero (s0 : σ) (k0 : κ) :
    decoded_sha1 (Globals.fresh s0 k0) (digest_of_char 48) = List.replicate 20 0 := by
  unfold decoded_sha1
  show sha_hex_to_bin (store ((digest_of_char 48).take (DFU_SHA1_LEN * 2)) (List.replicate 40 0))
    (List.replicate 20 0) (DFU_SHA1_LEN * 2) = List.replicate 20 0
  decide

theorem decoded_sha1_ones (s0 : σ) (k0 : κ) :
    decoded_sha1 (Globals.fresh s0 k0) (digest_of_char 49) = List.replicate 20 17 := by
  unfold decoded_sha1
  show sha_hex_to_bin (store ((digest_of_char 49).take (DFU_SHA1_LEN * 2)) (List.replicate 40 0))
    (List.replicate 20 0) (DFU_SHA1_LEN * 2) = List.replicate 20 17
  decide

theorem ready_fresh (s0 : σ) (k0 : κ) : Ready (Globals.fresh s0 k0) :=
  { state := rfl, chunk_cnt := rfl, offset := rfl, status := rfl, done := rfl,
    bin_closed := rfl, sha_closed := rfl }

theorem sim_match (c : Int) (bad : Nat) (s0 : List Nat) (img : List Nat) :
    ∀ i, i < 20 →
      byteAt (computed_sha1 (sim_env c bad) (Globals.fresh s0 ()) img) i =
        byteAt (decoded_sha1 (Globals.fresh s0 ()) (digest_of_char 48)) i := by
  intro i _
  rw [computed_sha1_sim, decoded_sha1_zero]

theorem chunk_at_zero_append (A R : List Nat) (hA : A.length = 2048) :
    chunk_at (A ++ R) 0 = A := by
  unfold chunk_at
  rw [Nat.zero_mul, List.drop_zero]
  exact List.take_left' hA

theorem chunk_at_succ_append (A R : List Nat) (hA : A.length = 2048) (k : Nat) :
    chunk_at (A ++ R) (k + 1) = chunk_at R k := by
  unfold chunk_at
  rw [show (k + 1) * 2048 = 2048 + k * 2048 by omega, ← List.drop_drop, List.drop_left' hA]

theorem chunk_at_short (C : List Nat) (hC : C.length ≤ 2048) : chunk_at C 0 = C := by
  unfold chunk_at
  rw [Nat.zero_mul, List.drop_zero]
  exact List.take_of_length_le hC

theorem img3_length : img3.length = 4596 := by
  simp only [img3, List.length_append, List.length_replicate]

theorem img3_chunks :
    chunk_at img3 0 = List.replicate 2048 1 ∧ chunk_at img3 1 = List.replicate 2048 2 ∧
      chunk_at img3 2 = List.replicate 500 3 := by
  have h1 : (List.replicate 2048 1 : List Nat).length = 2048 := List.length_replicate _ _
  have h2 : (List.replicate 2048 2 : List Nat).length = 2048 := List.length_replicate _ _
  have h3 : (List.replicate 500 3 : List Nat).length ≤ 2048 := by
    rw [List.length_replicate]
    omega
  unfold img3
  refine ⟨chunk_at_zero_append _ _ h1, ?_, ?_⟩
  · rw [chunk_at_succ_append _ _ h1, chunk_at_zero_append _ _ h2]
  · rw [chunk_at_succ_append _ _ h1, chunk_at_succ_append _ _ h2, chunk_at_short _ h3]

theorem img3_final_page :
    final_page img3 = List.replicate 500 3 ++ List.replicate 1548 2 := by
  unfold final_page
  rw [img3_length, show num_chunks 4596 - 1 = 2 by decide, show num_chunks 4596 - 2 = 1 by decide,
    img3_chunks.2.2, img3_chunks.2.1, List.length_replicate, List.drop_replicate]

theorem img_stale_length : img_stale.length = 2049 := by
  simp only [img_stale, List.length_append, List.length_replicate, List.length_singleton]

theorem img_stale_chunks :
    chunk_at img_stale 0 = List.replicate 2048 255 ∧ chunk_at img_stale 1 = [1] := by
  have h1 : (List.replicate 2048 255 : List Nat).length = 2048 := List.length_replicate _ _
  unfold img_stale
  refine ⟨chunk_at_zero_append _ _ h1, ?_⟩
  rw [chunk_at_succ_append _ _ h1, chunk_at_short _ (by decide)]

theorem img_stale_final_page : final_page img_stale = 1 :: List.replicate 2047 255 := by
  unfold final_page
  rw [img_stale_length, show num_chunks 2049 - 1 = 1 by decide,
    show num_chunks 2049 - 2 = 0 by decide, img_stale_chunks.2, img_stale_chunks.1,
    List.length_singleton, List.drop_replicate]
  rfl

/-! ## The upgrade claims -/

/-- In every call of `dfu_gecko_write_image` that opens both files, reads the
image without a file error and in which the SHA-1 computed over the image
differs in at least one of its 20 bytes from the digest decoded from the digest
file, the call returns -1 and no flash call is issued: the list of flash calls
and the state of the flash device are unchanged. -/
theorem digest_mismatch_aborts_before_flash (E : Env σ κ) (g : Globals σ κ)
    (slot : Int) (img digest : List Nat) (sha_faults : List Nat)
    (hstate : g.state = gecko_app_state.GECKO_INITIAL_STATE ∨
      g.state = gecko_app_state.GECKO_FW_UPGRADE)
    (hdone : g.fw_upgrade_done = 0)
    (hbo : g.geckofile.opened = false) (hso : g.gecko_sha1_file.opened = false)
    (hmis : ∃ i, i < 20 ∧
      byteAt (computed_sha1 E g img) i ≠ byteAt (decoded_sha1 g digest) i)
    (fuel : Nat) (hfuel : img.length + 2 ≤ fuel) :
    ∃ g', dfu_gecko_write_image E fuel g
        { slot_to_upgrade := slot, bin_file := some img, sha_file := some digest,
          bin_faults := [], sha_faults := sha_faults } = some (g', Exit.returned (-1)) ∧
      g'.flash_log = g.flash_log ∧ g'.flash = g.flash := by
  obtain ⟨fuel, rfl⟩ : ∃ k, fuel = k + 1 := ⟨fuel - 1, by omega⟩
  rw [dfu_enter E _ g _ img digest rfl rfl hbo hso]
  rcases hstate with hs | hs
  · rw [upgrade_loop_initial E _ _ _ (by exact hdone) (by exact hs)]
    obtain ⟨g1, hrun, hlog, hfl, -⟩ := case_mismatch E slot
      (case_GECKO_INITIAL_STATE E (entered g
        { slot_to_upgrade := slot, bin_file := some img, sha_file := some digest,
          bin_faults := [], sha_faults := sha_faults } img digest))
      rfl fuel
      (by
        show (img.drop 0).length < fuel
        rw [List.drop_zero]
        omega)
      (by
        obtain ⟨i, hi, hne⟩ := hmis
        refine ⟨i, hi, ?_⟩
        simp only [computed_sha1, decoded_sha1, hs, if_true] at hne
        exact hne)
    rw [hrun]
    exact ⟨g1, rfl, hlog, hfl⟩
  · rw [upgrade_loop_upgrade E _ _ _ (by exact hdone) (by exact hs)]
    obtain ⟨g1, hrun, hlog, hfl, -⟩ := case_mismatch E slot
      (entered g
        { slot_to_upgrade := slot, bin_file := some img, sha_file := some digest,
          bin_faults := [], sha_faults := sha_faults } img digest)
      rfl fuel
      (by
        show (img.drop 0).length < fuel
        rw [List.drop_zero]
        omega)
      (by
        obtain ⟨i, hi, hne⟩ := hmis
        refine ⟨i, hi, ?_⟩
        have hs' : ¬ g.state = gecko_app_state.GECKO_INITIAL_STATE := by
          rw [hs]
          decide
        simp only [computed_sha1, decoded_sha1, hs', if_false] at hne
        exact hne)
    rw [hrun]
    exact ⟨g1, rfl, hlog, hfl⟩

/-- C2 fails on the code: `file_read_flash` drops the value returned by
`write_image_chunk_to_flash`. With the three-chunk image and a driver whose
`flash_write` fails for every chunk, all three pages are still erased and
written and the upgrade reaches the reboot; with a driver whose readback of
the second chunk delivers zeros instead of the page written, the third chunk
is still erased, written and read back and the upgrade reaches the reboot. -/
theorem C2_failed_chunk_does_not_stop_transfer :
    (∃ g', dfu_gecko_write_image (sim_env (-5) 0) 4600 (Globals.fresh [] ())
        { slot_to_upgrade := 1, bin_file := some img3, sha_file := some (digest_of_char 48),
          bin_faults := [], sha_faults := [] } = some (g', Exit.rebooted) ∧
      g'.flash_log =
        [FlashOp.erase 524288 2048, FlashOp.write 524288 (List.replicate 2048 1),
         FlashOp.erase 526336 2048, FlashOp.write 526336 (List.replicate 2048 2),
         FlashOp.erase 528384 2048,
         FlashOp.write 528384 (List.replicate 500 3 ++ List.replicate 1548 2)]) ∧
    (∃ g', dfu_gecko_write_image (sim_env 0 526336) 4600 (Globals.fresh [] ())
        { slot_to_upgrade := 1, bin_file := some img3, sha_file := some (digest_of_char 48),
          bin_faults := [], sha_faults := [] } = some (g', Exit.rebooted) ∧
      g'.flash_log =
        [FlashOp.erase 524288 2048, FlashOp.write 524288 (List.replicate 2048 1),
         FlashOp.read 524288 2048,
         FlashOp.erase 526336 2048, FlashOp.write 526336 (List.replicate 2048 2),
         FlashOp.read 526336 2048,
         FlashOp.erase 528384 2048,
         FlashOp.write 528384 (List.replicate 500 3 ++ List.replicate 1548 2),
         FlashOp.read 528384 500]) ∧
    (∀ s : List Nat, ((sim_env 0 526336).flash_read s 526336 2048).2 = List.replicate 2048 0) ∧
    List.replicate 2048 0 ≠ List.replicate 2048 2 := by
  have hlen : img3.length + 3 ≤ 4600 := by
    rw [img3_length]
    omega
  have hopsA : ∀ c : Int, full_ops c img3 (slot_base 1) 2 ++
      chunk_ops c (slot_base 1 + 2 * 2048) (final_page img3) (chunk_at img3 2).length =
      chunk_ops c 524288 (List.replicate 2048 1) 2048 ++
        (chunk_ops c 526336 (List.replicate 2048 2) 2048 ++
          chunk_ops c 528384 (List.replicate 500 3 ++ List.replicate 1548 2) 500) := by
    intro c
    rw [img3_final_page, img3_chunks.2.2, List.length_replicate]
    simp only [full_ops, img3_chunks.1, img3_chunks.2.1, List.nil_append, List.append_assoc]
    rfl
  refine ⟨?_, ?_, fun s => rfl, ?_⟩
  · obtain ⟨g', hrun, htr, -⟩ := run_completes (sim_env (-5) 0) (-5) (fun _ _ _ => rfl)
      (Globals.fresh [] ()) (ready_fresh _ _) 1 img3 (digest_of_char 48)
      (by decide) (by rw [img3_length]; omega) (by rw [img3_length]; omega)
      (sim_match _ _ _ _) 4600 hlen
    refine ⟨g', hrun, ?_⟩
    have hlog := htr.log
    rw [img3_length, show num_chunks 4596 - 1 = 2 by decide, hopsA] at hlog
    rw [hlog]
    rfl
  · obtain ⟨g', hrun, htr, -⟩ := run_completes (sim_env 0 526336) 0 (fun _ _ _ => rfl)
      (Globals.fresh [] ()) (ready_fresh _ _) 1 img3 (digest_of_char 48)
      (by decide) (by rw [img3_length]; omega) (by rw [img3_length]; omega)
      (sim_match _ _ _ _) 4600 hlen
    refine ⟨g', hrun, ?_⟩
    have hlog := htr.log
    rw [img3_length, show num_chunks 4596 - 1 = 2 by decide, hopsA] at hlog
    rw [hlog]
    rfl
  · intro h
    exact absurd ((List.replicate_right_inj (by decide)).1 h) (by decide)

/-- C3 fails on the code: the last pass of the chunk loop reads the final chunk
into `image_buffer` without clearing it after the chunk before. For the image
of 2048 bytes `0xff` followed by one byte `0x01`, the page written for the
final chunk is that byte followed by 2047 bytes `0xff`, not by zeros. -/
theorem C3_final_page_keeps_stale_bytes :
    (∃ g', dfu_gecko_write_image (sim_env 0 0) 2100 (Globals.fresh [] ())
        { slot_to_upgrade := 1, bin_file := some img_stale,
          sha_file := some (digest_of_char 48), bin_faults := [], sha_faults := [] } =
          some (g', Exit.rebooted) ∧
      g'.flash_log =
        [FlashOp.erase 524288 2048, FlashOp.write 524288 (List.replicate 2048 255),
         FlashOp.read 524288 2048,
         FlashOp.erase 526336 2048, FlashOp.write 526336 (1 :: List.replicate 2047 255),
         FlashOp.read 526336 1]) ∧
    (1 :: List.replicate 2047 255 : List Nat) ≠ [1] ++ List.replicate 2047 0 := by
  refine ⟨?_, ?_⟩
  · obtain ⟨g', hrun, htr, -⟩ := run_completes (sim_env 0 0) 0 (fun _ _ _ => rfl)
      (Globals.fresh [] ()) (ready_fresh _ _) 1 img_stale (digest_of_char 48)
      (by decide) (by rw [img_stale_length]; omega) (by rw [img_stale_length]; omega)
      (sim_match _ _ _ _) 2100 (by rw [img_stale_length]; omega)
    refine ⟨g', hrun, ?_⟩
    have hlog := htr.log
    rw [img_stale_length, show num_chunks 2049 - 1 = 1 by decide, img_stale_final_page,
      img_stale_chunks.2] at hlog
    simp only [full_ops, img_stale_chunks.1, List.nil_append] at hlog
    rw [hlog]
    rfl
  · intro h
    have h1 : (1 :: List.replicate 2047 255 : List Nat) = 1 :: List.replicate 2047 0 := h
    have h2 : List.replicate 2047 (255 : Nat) = List.replicate 2047 0 := (List.cons.inj h1).2
    exact absurd ((List.replicate_right_inj (by decide)).1 h2) (by decide)

/-- C4: from the ready state, with healthy files, a matching digest and a
driver whose writes succeed, a call on an image of `S >= 2048` bytes that
reaches the reboot has issued, for `k = 0 .. ceil (S / 2048) - 1` in this order,
an erase, a write and a readback at `slot_base + k * 2048`, and nothing else,
has read `S` bytes in total and has set `GECKO_FW_UPGRADE_DONE`; `slot_base` is
0x10000 for slot 0 and 0x80000 for slot 1. -/
theorem C4_cycles_addresses_and_total (E : Env σ κ)
    (hw : ∀ s a d, (E.flash_write s a d).2 = 0)
    (g : Globals σ κ) (hr : Ready g) (slot : Int) (img digest : List Nat)
    (hd : 40 ≤ digest.length) (hS : 2048 ≤ img.length) (hS31 : img.length < 2147483648)
    (hmatch : ∀ i, i < 20 →
      byteAt (computed_sha1 E g img) i = byteAt (decoded_sha1 g digest) i)
    (fuel : Nat) (g' : Globals σ κ)
    (hrun : dfu_gecko_write_image E fuel g
        { slot_to_upgrade := slot, bin_file := some img, sha_file := some digest,
          bin_faults := [], sha_faults := [] } = some (g', Exit.rebooted)) :
    g'.flash_log.map FlashOp.shape =
      g.flash_log.map FlashOp.shape ++
        (List.range (num_chunks img.length)).flatMap (fun k =>
          [(FlashKind.erase, slot_base slot + k * 2048),
           (FlashKind.write, slot_base slot + k * 2048),
           (FlashKind.read, slot_base slot + k * 2048)]) ∧
    g'.totalreadbytes = (img.length : Int) ∧
    g'.state = gecko_app_state.GECKO_FW_UPGRADE_DONE ∧
    slot_base 0 = 0x10000 ∧ slot_base 1 = 0x80000 := by
  refine ⟨?_, ?_, ?_, rfl, rfl⟩
  all_goals
    by_cases h1 : img.length = 2048
    · rw [run_stuck E g hr slot img digest hd h1 hmatch fuel] at hrun
      simp at hrun
    · obtain ⟨g'', hrun2, htr, -⟩ := run_completes E 0 hw g hr slot img digest hd (by omega) hS31
        hmatch (fuel + img.length + 3) (by omega)
      have hrun3 := dfu_mono E g _ _ fuel (fuel + img.length + 3) (by omega) hrun
      rw [hrun2] at hrun3
      have hg : g'' = g' := by
        injection hrun3 with h
        exact congrArg Prod.fst h
      subst hg
      first
        | exact htr.totalreadbytes
        | exact htr.state
        | (rw [transferred_shape 0 img slot g.flash_log g'' htr (by unfold num_chunks; omega),
            cycles_eq_flatMap]
           rfl)

/-- C4, at the image of 2048, 2048 and 500 bytes and slot 1: the call reaches
the reboot after exactly three cycles, at 0x80000, 0x80800 and 0x81000, and has
read 4596 bytes. -/
theorem C4_cycles_addresses_and_total_witness :
    ∃ g', dfu_gecko_write_image (sim_env 0 0) 4600 (Globals.fresh [] ())
        { slot_to_upgrade := 1, bin_file := some img3, sha_file := some (digest_of_char 48),
          bin_faults := [], sha_faults := [] } = some (g', Exit.rebooted) ∧
      g'.flash_log.map FlashOp.shape =
        [(FlashKind.erase, 0x80000), (FlashKind.write, 0x80000), (FlashKind.read, 0x80000),
         (FlashKind.erase, 0x80800), (FlashKind.write, 0x80800), (FlashKind.read, 0x80800),
         (FlashKind.erase, 0x81000), (FlashKind.write, 0x81000), (FlashKind.read, 0x81000)] ∧
      g'.totalreadbytes = 4596 := by
  obtain ⟨g', hrun, -, -⟩ := run_completes (sim_env 0 0) 0 (fun _ _ _ => rfl)
    (Globals.fresh [] ()) (ready_fresh _ _) 1 img3 (digest_of_char 48)
    (by decide) (by rw [img3_length]; omega) (by rw [img3_length]; omega)
    (sim_match _ _ _ _) 4600 (by rw [img3_length]; omega)
  have h := C4_cycles_addresses_and_total (sim_env 0 0) (fun _ _ _ => rfl)
    (Globals.fresh [] ()) (ready_fresh _ _) 1 img3 (digest_of_char 48)
    (by decide) (by rw [img3_length]; omega) (by rw [img3_length]; omega)
    (sim_match _ _ _ _) 4600 g' hrun
  rw [img3_length] at h
  exact ⟨g', hrun, h.1, h.2.1⟩

/-- C5 fails on the code for an image of exactly one chunk: for the image of
2048 bytes with a matching digest the chunk loop is never left, so the call
neither returns nor reaches `GECKO_FW_UPGRADE_DONE`, whatever the fuel. -/
theorem C5_one_chunk_image_never_completes (fuel : Nat) :
    dfu_gecko_write_image (sim_env 0 0) fuel (Globals.fresh [] ())
        { slot_to_upgrade := 1, bin_file := some img_one_chunk,
          sha_file := some (digest_of_char 48), bin_faults := [], sha_faults := [] } = none :=
  run_stuck (sim_env 0 0) (Globals.fresh [] ()) (ready_fresh _ _) 1 img_one_chunk
    (digest_of_char 48) (by decide) (List.length_replicate _ _) (sim_match _ _ _ _) fuel

/-! ## The header codec -/

theorem list_of_length_32 (b : List Nat) (h : b.length = 32) :
    ∃ b0 b1 b2 b3 b4 b5 b6 b7 b8 b9 b10 b11 b12 b13 b14 b15 b16 b17 b18 b19 b20 b21 b22 b23
      b24 b25 b26 b27 b28 b29 b30 b31 : Nat,
      b = [b0, b1, b2, b3, b4, b5, b6, b7, b8, b9, b10, b11, b12, b13, b14, b15, b16, b17, b18,
        b19, b20, b21, b22, b23, b24, b25, b26, b27, b28, b29, b30, b31] := by
  match b, h with
  | [b0, b1, b2, b3, b4, b5, b6, b7, b8, b9, b10, b11, b12, b13, b14, b15, b16, b17, b18,
      b19, b20, b21, b22, b23, b24, b25, b26, b27, b28, b29, b30, b31], _ =>
    exact ⟨b0, b1, b2, b3, b4, b5, b6, b7, b8, b9, b10, b11, b12, b13, b14, b15, b16, b17, b18,
      b19, b20, b21, b22, b23, b24, b25, b26, b27, b28, b29, b30, b31, rfl⟩

/-- C11: for every 32-byte buffer, `deserialize_magic_hdr` (a total function, it
has no failure result) produces the header whose fields are the little-endian
values of the bytes at the offsets 0, 4, 8, 10, 12, 16, 20, 21, 22 and 24. -/
theorem C11_deserialize_is_little_endian_layout (b : List Nat) (hlen : b.length = 32)
    (hbytes : ∀ x ∈ b, x < 256) :
    deserialize_magic_hdr b =
      { ih_magic := LE32 b 0, ih_load_addr := LE32 b 4, ih_hdr_size := LE16 b 8,
        ih_protect_tlv_size := LE16 b 10, ih_img_size := LE32 b 12, ih_flags := LE32 b 16,
        ih_ver := { iv_major := b.getD 20 0, iv_minor := b.getD 21 0, iv_revision := LE16 b 22,
                    iv_build_num := LE32 b 24 } } := by
  obtain ⟨b0, b1, b2, b3, b4, b5, b6, b7, b8, b9, b10, b11, b12, b13, b14, b15, b16, b17, b18,
    b19, b20, b21, b22, b23, b24, b25, b26, b27, b28, b29, b30, b31, rfl⟩ :=
    list_of_length_32 b hlen
  simp only [List.mem_cons, List.mem_singleton, forall_eq_or_imp, forall_eq] at hbytes
  obtain ⟨h0, h1, h2, h3, h4, h5, h6, h7, h8, h9, h10, h11, h12, h13, h14, h15, h16, h17, h18,
    h19, h20, h21, h22, h23, h24, h25, h26, h27, -⟩ := hbytes
  simp only [deserialize_magic_hdr, POP32, POP16, byteAt, LE32, LE16, List.drop_succ_cons,
    List.drop_zero, List.getD_cons_zero, List.getD_cons_succ, Nat.mod_eq_of_lt, h0, h1, h2, h3,
    h4, h5, h6, h7, h8, h9, h10, h11, h12, h13, h14, h15, h16, h17, h18, h19, h20, h21, h22,
    h23, h24, h25, h26, h27]

/-- C11, at a sample buffer: the decoded header, field by field. -/
theorem C11_deserialize_is_little_endian_layout_witness :
    sample_hdr_buf.length = 32 ∧ (∀ x ∈ sample_hdr_buf, x < 256) ∧
    deserialize_magic_hdr sample_hdr_buf =
      { ih_magic := 0x96f3b83d, ih_load_addr := 0x10000, ih_hdr_size := 0x200,
        ih_protect_tlv_size := 0x10, ih_img_size := 0x12345678, ih_flags := 1,
        ih_ver := { iv_major := 1, iv_minor := 2, iv_revision := 3, iv_build_num := 9 } } :=
  ⟨by decide, by decide,
    (C11_deserialize_is_little_endian_layout sample_hdr_buf (by decide) (by decide)).trans
      (by decide)⟩

theorem encode_deserialize (b : List Nat) (hlen : b.length = 32) (hbytes : ∀ x ∈ b, x < 256) :
    (encode_magic_hdr (deserialize_magic_hdr b)).take 28 = b.take 28 := by
  obtain ⟨b0, b1, b2, b3, b4, b5, b6, b7, b8, b9, b10, b11, b12, b13, b14, b15, b16, b17, b18,
    b19, b20, b21, b22, b23, b24, b25, b26, b27, b28, b29, b30, b31, rfl⟩ :=
    list_of_length_32 b hlen
  simp only [List.mem_cons, List.mem_singleton, forall_eq_or_imp, forall_eq] at hbytes
  obtain ⟨h0, h1, h2, h3, h4, h5, h6, h7, h8, h9, h10, h11, h12, h13, h14, h15, h16, h17, h18,
    h19, h20, h21, h22, h23, h24, h25, h26, h27, -⟩ := hbytes
  simp only [encode_magic_hdr, deserialize_magic_hdr, POP32, POP16, byteAt, List.drop_succ_cons,
    List.drop_zero, List.getD_cons_zero, List.getD_cons_succ, Nat.mod_eq_of_lt, h0, h1, h2, h3,
    h4, h5, h6, h7, h8, h9, h10, h11, h12, h13, h14, h15, h16, h17, h18, h19, h20, h21, h22,
    h23, h24, h25, h26, h27, List.take_succ_cons, List.take_zero, List.cons.injEq, and_true]
  refine ⟨?_, ?_, ?_, ?_, ?_, ?_, ?_, ?_, ?_, ?_, ?_, ?_, ?_, ?_, ?_, ?_, ?_, ?_, ?_, ?_, ?_, ?_,
    ?_, ?_, ?_, ?_, ?_, ?_⟩ <;> first | trivial | omega

/-- C12: decoding a 32-byte buffer and encoding the header again in the same
little-endian layout gives back the bytes 0 to 27 of the buffer, so two buffers
that decode to the same header agree on all those bytes. -/
theorem C12_header_round_trip (b : List Nat) (hlen : b.length = 32)
    (hbytes : ∀ x ∈ b, x < 256) :
    (encode_magic_hdr (deserialize_magic_hdr b)).take 28 = b.take 28 ∧
    ∀ c : List Nat, c.length = 32 → (∀ x ∈ c, x < 256) →
      deserialize_magic_hdr c = deserialize_magic_hdr b → c.take 28 = b.take 28 := by
  refine ⟨encode_deserialize b hlen hbytes, fun c hc hcb heq => ?_⟩
  rw [← encode_deserialize b hlen hbytes, ← encode_deserialize c hc hcb, heq]

/-- C12, at the sample buffer: the re-encoded header is the buffer with its
four padding bytes cleared. -/
theorem C12_header_round_trip_witness :
    encode_magic_hdr (deserialize_magic_hdr sample_hdr_buf) =
        sample_hdr_buf.take 28 ++ [0, 0, 0, 0] ∧
      (encode_magic_hdr (deserialize_magic_hdr sample_hdr_buf)).take 28 =
        sample_hdr_buf.take 28 :=
  ⟨by decide, (C12_header_round_trip sample_hdr_buf (by decide) (by decide)).1⟩

/-! ## Hex decoding of the digest -/

theorem hex_nibble_of_hex (c : Nat) (h : is_hex_char c) :
    hex_nibble c = hex_val c ∧ hex_val c < 16 := by
  unfold is_hex_char at h
  unfold hex_nibble hex_val
  rcases h with h | h | h
  · have h1 : ¬ c ≥ 97 := by omega
    have h2 : ¬ c ≥ 65 := by omega
    rw [if_neg h1, if_neg h2, if_pos h]
    omega
  · have h1 : c ≥ 97 := by omega
    have h2 : ¬ (48 ≤ c ∧ c ≤ 57) := by omega
    rw [if_pos h1, if_neg h2, if_pos h]
    omega
  · have h1 : ¬ c ≥ 97 := by omega
    have h2 : c ≥ 65 := by omega
    have h3 : ¬ (48 ≤ c ∧ c ≤ 57) := by omega
    have h4 : ¬ (97 ≤ c ∧ c ≤ 102) := by omega
    rw [if_neg h1, if_pos h2, if_neg h3, if_neg h4, if_pos h]
    omega

theorem lor_nibbles : ∀ h < 16, ∀ l < 16, (h * 16 ||| l) = h * 16 + l := by
  decide

theorem getD_set_self (l : List Nat) (m x : Nat) (h : m < l.length) :
    (l.set m x).getD m 0 = x := by
  simp [List.getD_eq_getElem?_getD, h]

theorem getD_set_other (l : List Nat) (m j x : Nat) (h : m ≠ j) :
    (l.set m x).getD j 0 = l.getD j 0 := by
  simp [List.getD_eq_getElem?_getD, List.getElem?_set_ne h]

theorem sha_hex_to_bin_succ (s out : List Nat) (k : Nat) :
    sha_hex_to_bin s out (k + 1) =
      if k % 2 = 0 then
        (sha_hex_to_bin s out k).set (k / 2) ((hex_nibble (byteAt s k) * 16) % 256)
      else
        (sha_hex_to_bin s out k).set (k / 2)
          ((byteAt (sha_hex_to_bin s out k) (k / 2) ||| hex_nibble (byteAt s k)) % 256) := by
  unfold sha_hex_to_bin
  rw [List.range_succ, List.foldl_append]
  rfl

/-- The state of the output buffer after `k` passes of the loop of
`sha_hex_to_bin` over hex characters: the bytes whose two characters have been
consumed are complete, and the byte whose first character has been consumed
holds its high nibble. -/
theorem sha_hex_to_bin_inv (s out : List Nat) (hs : ∀ c ∈ s, is_hex_char c) :
    ∀ k, k ≤ s.length → k ≤ 2 * out.length →
      (sha_hex_to_bin s out k).length = out.length ∧
      (∀ j, 2 * j + 1 < k →
        (sha_hex_to_bin s out k).getD j 0 =
          16 * hex_val (s.getD (2 * j) 0) + hex_val (s.getD (2 * j + 1) 0)) ∧
      (∀ j, 2 * j + 1 = k →
        (sha_hex_to_bin s out k).getD j 0 = 16 * hex_val (s.getD (2 * j) 0)) := by
  intro k
  induction k with
  | zero =>
    intro _ _
    refine ⟨rfl, fun j hj => by omega, fun j hj => by omega⟩
  | succ k ih =>
    intro hk1 hk2
    obtain ⟨hlen, hfull, hhalf⟩ := ih (by omega) (by omega)
    have hmem : s.getD k 0 ∈ s := by
      rw [List.getD_eq_getElem?_getD, List.getElem?_eq_getElem (by omega)]
      exact List.getElem_mem _
    have hb : byteAt s k = s.getD k 0 := by
      unfold byteAt
      have := hs _ hmem
      unfold is_hex_char at this
      omega
    obtain ⟨hn, hv⟩ := hex_nibble_of_hex _ (hs _ hmem)
    rw [sha_hex_to_bin_succ, hb, hn]
    by_cases hpar : k % 2 = 0
    · rw [if_pos hpar]
      have hidx : k / 2 < (sha_hex_to_bin s out k).length := by omega
      refine ⟨by rw [List.length_set, hlen], fun j hj => ?_, fun j hj => ?_⟩
      · rw [getD_set_other _ _ _ _ (by omega)]
        exact hfull j (by omega)
      · have hj2 : j = k / 2 := by omega
        subst hj2
        have hk : 2 * (k / 2) = k := by omega
        rw [getD_set_self _ _ _ hidx, hk]
        omega
    · rw [if_neg hpar]
      have hidx : k / 2 < (sha_hex_to_bin s out k).length := by omega
      have hprev := hhalf (k / 2) (by omega)
      have hmem2 : s.getD (2 * (k / 2)) 0 ∈ s := by
        rw [List.getD_eq_getElem?_getD, List.getElem?_eq_getElem (by omega)]
        exact List.getElem_mem _
      obtain ⟨-, hv2⟩ := hex_nibble_of_hex _ (hs _ hmem2)
      have hby : byteAt (sha_hex_to_bin s out k) (k / 2) = hex_val (s.getD (2 * (k / 2)) 0) * 16 := by
        unfold byteAt
        rw [hprev]
        omega
      refine ⟨by rw [List.length_set, hlen], fun j hj => ?_, fun j hj => by omega⟩
      by_cases hj2 : j = k / 2
      · subst hj2
        have hk : 2 * (k / 2) + 1 = k := by omega
        rw [getD_set_self _ _ _ hidx, hby, lor_nibbles _ hv2 _ hv, hk]
        omega
      · rw [getD_set_other _ _ _ _ (fun e => hj2 e.symm)]
        exact hfull j (by omega)

/-- C13: for `2N` hex characters `s` and an output buffer of at least `N` bytes,
`sha_hex_to_bin (s, out, 2N)` sets `out[i] = 16 * val (s[2i]) + val (s[2i+1])`
for every `i < N`; upper and lower case decode alike. -/
theorem C13_hex_decode_two_chars_per_byte (N : Nat) (s out : List Nat)
    (hlen : s.length = 2 * N) (hs : ∀ c ∈ s, is_hex_char c) (hout : N ≤ out.length)
    (i : Nat) (hi : i < N) :
    (sha_hex_to_bin s out (2 * N)).getD i 0 =
      16 * hex_val (s.getD (2 * i) 0) + hex_val (s.getD (2 * i + 1) 0) :=
  (sha_hex_to_bin_inv s out hs (2 * N) (by omega) (by omega)).2.1 i (by omega)

/-- C13, at the string "00ff0a": it decodes to `[0x00, 0xff, 0x0a]`, and so
does "00FF0A". -/
theorem C13_hex_decode_two_chars_per_byte_witness :
    sha_hex_to_bin [48, 48, 102, 102, 48, 97] [0, 0, 0] 6 = [0x00, 0xff, 0x0a] ∧
    sha_hex_to_bin [48, 48, 70, 70, 48, 65] [0, 0, 0] 6 = [0x00, 0xff, 0x0a] ∧
    (sha_hex_to_bin [48, 48, 102, 102, 48, 97] [0, 0, 0] (2 * 3)).getD 1 0 =
      16 * hex_val ([48, 48, 102, 102, 48, 97].getD (2 * 1) 0) +
        hex_val ([48, 48, 102, 102, 48, 97].getD (2 * 1 + 1) 0) :=
  ⟨by decide, by decide,
    C13_hex_decode_two_chars_per_byte 3 [48, 48, 102, 102, 48, 97] [0, 0, 0] (by decide)
      (by decide) (by decide) 1 (by decide)⟩

/-- C14 fails on the code: a digest file of forty characters `g`, none of them
a hex character, is accepted by `get_gecko_sha1`, which returns 0 and leaves
twenty bytes `0x10` as the expected digest; a file of 41 characters, an odd
length, is accepted as well; `sha_hex_to_bin` on "zz" produces the byte `0x33`. -/
theorem C14_non_hex_digest_is_decoded :
    (∀ c ∈ digest_of_char 103, ¬ is_hex_char c) ∧
    (get_gecko_sha1 (digest_state (digest_of_char 103))).2 = 0 ∧
    (get_gecko_sha1 (digest_state (digest_of_char 103))).1.gecko_expected_sha1_final =
      List.replicate 20 0x10 ∧
    (get_gecko_sha1 (digest_state (List.replicate 41 48))).2 = 0 ∧
    sha_hex_to_bin [122, 122] [0] 2 = [0x33] := by
  decide

/-- C14 as amended: `get_gecko_sha1` checks the length of the read only. It
returns -1 exactly when the `fs_read` of the digest file fails or delivers
fewer than forty characters, and 0 otherwise, whatever the characters are. -/
theorem C14_digest_is_checked_for_length_only {σ κ : Type} (g : Globals σ κ) :
    (get_gecko_sha1 g).2 =
      if g.gecko_sha1_file.calls ∈ g.gecko_sha1_file.faults ∨
          (g.gecko_sha1_file.data.drop g.gecko_sha1_file.pos).length < 40
      then -1 else 0 := by
  unfold get_gecko_sha1
  by_cases hflt : g.gecko_sha1_file.calls ∈ g.gecko_sha1_file.faults
  · simp [fs_read, hflt]
  · rw [fs_read_ok _ _ hflt]
    simp only [DFU_SHA1_LEN, Nat.reduceMul, hflt, false_or, List.length_take]
    by_cases hl : (g.gecko_sha1_file.data.drop g.gecko_sha1_file.pos).length < 40
    · rw [if_pos (by omega), if_pos hl]
    · rw [if_neg (by omega), if_neg hl]

/-- C15: `compare_sha1` returns 0 exactly when the computed and the expected
digest agree at every one of the 20 byte positions, and -1 exactly when they
differ at some position. -/
theorem C15_compare_sha1_is_bytewise_equality {σ κ : Type} (g : Globals σ κ) (slot : Int) :
    (compare_sha1 g slot = 0 ↔
      ∀ i, i < 20 → byteAt g.gecko_sha1_output i = byteAt g.gecko_expected_sha1_final i) ∧
    (compare_sha1 g slot = -1 ↔
      ∃ i, i < 20 ∧ byteAt g.gecko_sha1_output i ≠ byteAt g.gecko_expected_sha1_final i) := by
  rw [compare_sha1_eq]
  by_cases h : ∃ i, i < 20 ∧
      byteAt g.gecko_sha1_output i ≠ byteAt g.gecko_expected_sha1_final i
  · rw [if_pos h]
    refine ⟨⟨fun e => absurd e (by decide), fun e => ?_⟩, ⟨fun _ => h, fun _ => rfl⟩⟩
    obtain ⟨i, hi, hne⟩ := h
    exact absurd (e i hi) hne
  · rw [if_neg h]
    refine ⟨⟨fun _ i hi => ?_, fun _ => rfl⟩, ⟨fun e => absurd e (by decide), fun e => absurd e h⟩⟩
    by_contra hne
    exact h ⟨i, hi, hne⟩

/-- C16: when the image file or the digest file cannot be opened,
`dfu_gecko_write_image` returns 1, whatever the slot, the fuel and the static
variables; the orchestrator state, the list of flash calls and the flash device
are unchanged. -/
theorem C16_missing_file_aborts_in_place {σ κ : Type} (E : Env σ κ) (fuel : Nat)
    (g : Globals σ κ) (req : Request) (h : req.bin_file = none ∨ req.sha_file = none) :
    ∃ g', dfu_gecko_write_image E fuel g req = some (g', Exit.returned 1) ∧
      g'.state = g.state ∧ g'.flash_log = g.flash_log ∧ g'.flash = g.flash := by
  unfold dfu_gecko_write_image
  cases hb : req.bin_file with
  | none =>
    dsimp only
    rw [fs_open_none]
    exact ⟨_, rfl, rfl, rfl, rfl⟩
  | some img =>
    have hs : req.sha_file = none := by
      rcases h with h | h
      · rw [hb] at h
        cases h
      · exact h
    rw [hs]
    dsimp only
    cases fs_open g.geckofile (some img) req.bin_faults with
    | none => exact ⟨_, rfl, rfl, rfl, rfl⟩
    | some f =>
      dsimp only
      rw [fs_open_none]
      exact ⟨_, rfl, rfl, rfl, rfl⟩

/-- C16, at the fresh state with the image file present and the digest file
missing: the call returns 1 and the state stays `GECKO_INITIAL_STATE`. -/
theorem C16_missing_file_aborts_in_place_witness :
    ∃ g', dfu_gecko_write_image (sim_env 0 0) 0 (Globals.fresh [] ())
        { slot_to_upgrade := 0, bin_file := some img3, sha_file := none,
          bin_faults := [], sha_faults := [] } = some (g', Exit.returned 1) ∧
      g'.state = gecko_app_state.GECKO_INITIAL_STATE ∧ g'.flash_log = [] ∧ g'.flash = [] :=
  C16_missing_file_aborts_in_place (sim_env 0 0) 0 (Globals.fresh [] ())
    { slot_to_upgrade := 0, bin_file := some img3, sha_file := none,
      bin_faults := [], sha_faults := [] } (Or.inr rfl)

/-! ## Calls that end at the size check or at the digest check -/

/-- When the rest of the image file is shorter than one chunk, or the digest
streamed over it differs from the digest decoded from the digest file, the body
of `case GECKO_FW_UPGRADE:` executes `return -1` after the source has been read
to its end, before any flash call and without touching the chunk counter or
the offset. -/
theorem case_gate_abort (E : Env σ κ) (slot0 : Int) (g : Globals σ κ)
    (hff : g.geckofile.faults = []) (fuel : Nat)
    (hfuel : (g.geckofile.data.drop g.geckofile.pos).length < fuel)
    (hgate : (g.geckofile.data.drop g.geckofile.pos).length < 2048 ∨
      ∃ i, i < 20 ∧
        byteAt (sha1_stream E g.gecko_sha1_ctx (g.geckofile.data.drop g.geckofile.pos)) i ≠
          byteAt (sha_hex_to_bin
            (store ((g.gecko_sha1_file.data.drop g.gecko_sha1_file.pos).take (DFU_SHA1_LEN * 2))
              g.gecko_expected_sha1)
            g.gecko_expected_sha1_final (DFU_SHA1_LEN * 2)) i) :
    ∃ g', case_GECKO_FW_UPGRADE E slot0 fuel g = some (g', some (-1)) ∧ GateFrame g g' ∧
      g'.totalreadbytes = ((g.geckofile.data.drop g.geckofile.pos).length : Int) ∧
      ((g.geckofile.data.drop g.geckofile.pos).length < 2048 →
        g'.gecko_expected_sha1 = g.gecko_expected_sha1 ∧
          g'.gecko_expected_sha1_final = g.gecko_expected_sha1_final) := by
  obtain ⟨g2, hrun, hfr, -, -, hsha, htot⟩ :=
    fw_size_loop_spec E fuel { g with totalreadbytes := 0 } hff hfuel
  obtain ⟨f2, rb, b, t, cx, o, rfl⟩ : ∃ f rb b t cx o, g2 =
      { g with geckofile := f, readbytes := rb, image_buffer := b, totalreadbytes := t,
               gecko_sha1_ctx := cx, gecko_sha1_output := o } := ⟨_, _, _, _, _, _, hfr⟩
  clear hfr
  dsimp only at hrun hsha htot
  rw [zero_add] at htot
  generalize hn0 :
    to_uint32 (0 + ((g.geckofile.data.drop g.geckofile.pos).length : Int)) = n0 at hrun
  obtain ⟨G2, hG2⟩ : ∃ G2 : Globals σ κ, G2 =
      { g with geckofile := f2, readbytes := rb, image_buffer := b, totalreadbytes := t,
               gecko_sha1_ctx := cx, gecko_sha1_output := o, fw_image_size := n0 } := ⟨_, rfl⟩
  obtain ⟨hor, hfr2⟩ := get_gecko_sha1_spec G2
  have hG2out : G2.gecko_sha1_output = o := by rw [hG2]
  have hG2e : G2.gecko_expected_sha1 = g.gecko_expected_sha1 := by rw [hG2]
  have hG2f : G2.gecko_expected_sha1_final = g.gecko_expected_sha1_final := by rw [hG2]
  have hG2s : G2.gecko_sha1_file = g.gecko_sha1_file := by rw [hG2]
  have hsm : (g.geckofile.data.drop g.geckofile.pos).length < 2048 →
      (n0 = 0 ∨ n0 < DFU_CHUNK_SIZE) := by
    intro hlt
    right
    rw [← hn0]
    unfold to_uint32 DFU_CHUNK_SIZE
    omega
  have key : (n0 = 0 ∨ n0 < DFU_CHUNK_SIZE) ∨ (get_gecko_sha1 G2).2 ≠ 0 ∨
      compare_sha1 (get_gecko_sha1 G2).1 slot0 ≠ 0 := by
    rcases hgate with hsm | hmis
    · left
      right
      rw [← hn0]
      unfold to_uint32 DFU_CHUNK_SIZE
      omega
    · right
      rcases hor with h1 | ⟨-, hfin⟩
      · left
        rw [h1]
        decide
      · right
        rw [compare_sha1_eq, if_pos]
        · decide
        · obtain ⟨i, hi, hne⟩ := hmis
          refine ⟨i, hi, ?_⟩
          rw [hfin, hfr2]
          dsimp only
          rw [hG2out, hG2e, hG2f, hG2s, hsha]
          exact hne
  have hframe2 : GateFrame g (get_gecko_sha1 G2).1 := by
    refine
      { state := ?_, chunk_cnt := ?_, chunk_check := ?_, offset := ?_, status := ?_, page := ?_,
        totalwritebytes := ?_, crc32 := ?_, done := ?_, check_buf := ?_, req_slot := ?_,
        flash := ?_, flash_log := ?_ } <;> rw [hfr2, hG2]
  have htot2 : (get_gecko_sha1 G2).1.totalreadbytes = t := by rw [hfr2, hG2]
  clear hfr2 hor
  rw [hG2] at key hframe2 htot2
  unfold case_GECKO_FW_UPGRADE get_gecko_fw_size
  rw [hrun]
  dsimp only
  split_ifs with hsmall hrc hcmp
  · exact ⟨_, rfl, ⟨rfl, rfl, rfl, rfl, rfl, rfl, rfl, rfl, rfl, rfl, rfl, rfl, rfl⟩, htot,
      fun _ => ⟨rfl, rfl⟩⟩
  · exact ⟨_, rfl, hframe2, htot2.trans htot, fun hlt => absurd (hsm hlt) hsmall⟩
  · exact ⟨_, rfl, hframe2, htot2.trans htot, fun hlt => absurd (hsm hlt) hsmall⟩
  all_goals
    exfalso
    rcases key with k | k | k
    · exact hsmall k
    · exact hrc k
    · exact hcmp k

/-- A call entered in `GECKO_INITIAL_STATE` or `GECKO_FW_UPGRADE` whose image is
shorter than one chunk, or whose computed digest differs from the decoded one,
returns -1 before any flash call. It has opened the files, cleared the page
cursor and measured the source; the state is `GECKO_FW_UPGRADE` afterwards. -/
theorem run_gate_abort (E : Env σ κ) (g : Globals σ κ) (slot : Int) (img digest : List Nat)
    (sha_faults : List Nat)
    (hstate : g.state = gecko_app_state.GECKO_INITIAL_STATE ∨
      g.state = gecko_app_state.GECKO_FW_UPGRADE)
    (hdone : g.fw_upgrade_done = 0)
    (hbo : g.geckofile.opened = false) (hso : g.gecko_sha1_file.opened = false)
    (hgate : img.length < 2048 ∨ ∃ i, i < 20 ∧
      byteAt (computed_sha1 E g img) i ≠ byteAt (decoded_sha1 g digest) i)
    (fuel : Nat) (hfuel : img.length + 2 ≤ fuel) :
    ∃ g', dfu_gecko_write_image E fuel g
        { slot_to_upgrade := slot, bin_file := some img, sha_file := some digest,
          bin_faults := [], sha_faults := sha_faults } = some (g', Exit.returned (-1)) ∧
      g'.state = gecko_app_state.GECKO_FW_UPGRADE ∧
      g'.chunk_cnt = g.chunk_cnt ∧ g'.offset = g.offset ∧ g'.status = g.status ∧
      g'.crc32 = g.crc32 ∧ g'.fw_upgrade_done = 0 ∧
      g'.flash_log = g.flash_log ∧ g'.flash = g.flash ∧
      g'.page = 0 ∧ g'.totalwritebytes = 0 ∧ g'.totalreadbytes = (img.length : Int) ∧
      g'.requested_slot_to_upgrade = slot ∧
      (img.length < 2048 →
        g'.gecko_expected_sha1 = g.gecko_expected_sha1 ∧
          g'.gecko_expected_sha1_final = g.gecko_expected_sha1_final) := by
  obtain ⟨fuel, rfl⟩ : ∃ k, fuel = k + 1 := ⟨fuel - 1, by omega⟩
  rw [dfu_enter E _ g _ img digest rfl rfl hbo hso]
  rcases hstate with hs | hs
  · rw [upgrade_loop_initial E _ _ _ (by exact hdone) (by exact hs)]
    obtain ⟨g1, hrun, hfr, htot, hbufs⟩ := case_gate_abort E slot
      (case_GECKO_INITIAL_STATE E (entered g
        { slot_to_upgrade := slot, bin_file := some img, sha_file := some digest,
          bin_faults := [], sha_faults := sha_faults } img digest))
      rfl fuel
      (by
        show (img.drop 0).length < fuel
        rw [List.drop_zero]
        omega)
      (by
        show (img.drop 0).length < 2048 ∨ _
        rw [List.drop_zero]
        rcases hgate with h | ⟨i, hi, hne⟩
        · exact Or.inl h
        · refine Or.inr ⟨i, hi, ?_⟩
          simp only [computed_sha1, decoded_sha1, hs, if_true] at hne
          exact hne)
    rw [hrun]
    refine ⟨g1, rfl, hfr.state, hfr.chunk_cnt, hfr.offset, hfr.status, hfr.crc32,
      hfr.done.trans hdone, hfr.flash_log, hfr.flash, hfr.page, hfr.totalwritebytes, ?_,
      hfr.req_slot, ?_⟩
    · rw [htot]
      show (((img.drop 0).length : Nat) : Int) = _
      rw [List.drop_zero]
    · intro hlt
      exact hbufs (by
        show (img.drop 0).length < 2048
        rw [List.drop_zero]
        exact hlt)
  · rw [upgrade_loop_upgrade E _ _ _ (by exact hdone) (by exact hs)]
    obtain ⟨g1, hrun, hfr, htot, hbufs⟩ := case_gate_abort E slot
      (entered g
        { slot_to_upgrade := slot, bin_file := some img, sha_file := some digest,
          bin_faults := [], sha_faults := sha_faults } img digest)
      rfl fuel
      (by
        show (img.drop 0).length < fuel
        rw [List.drop_zero]
        omega)
      (by
        show (img.drop 0).length < 2048 ∨ _
        rw [List.drop_zero]
        rcases hgate with h | ⟨i, hi, hne⟩
        · exact Or.inl h
        · refine Or.inr ⟨i, hi, ?_⟩
          have hs' : ¬ g.state = gecko_app_state.GECKO_INITIAL_STATE := by
            rw [hs]
            decide
          simp only [computed_sha1, decoded_sha1, hs', if_false] at hne
          exact hne)
    rw [hrun]
    refine ⟨g1, rfl, hfr.state.trans hs, hfr.chunk_cnt, hfr.offset, hfr.status, hfr.crc32,
      hfr.done.trans hdone, hfr.flash_log, hfr.flash, hfr.page, hfr.totalwritebytes, ?_,
      hfr.req_slot, ?_⟩
    · rw [htot]
      show (((img.drop 0).length : Nat) : Int) = _
      rw [List.drop_zero]
    · intro hlt
      exact hbufs (by
        show (img.drop 0).length < 2048
        rw [List.drop_zero]
        exact hlt)

/-! ## The size check and the state on entry -/

/-- C17: a call of `dfu_gecko_write_image` that opens both files and reads an
image of fewer than 2048 bytes (zero bytes included) without a file error
returns -1 whatever the digest file holds and whichever reads of it fail; no
flash call is issued, the state of the flash device is unchanged, and the
source has been measured: `totalreadbytes` is its size. -/
theorem C17_too_small_image_aborts_before_flash (E : Env σ κ) (g : Globals σ κ)
    (slot : Int) (img digest : List Nat) (sha_faults : List Nat)
    (hstate : g.state = gecko_app_state.GECKO_INITIAL_STATE ∨
      g.state = gecko_app_state.GECKO_FW_UPGRADE)
    (hdone : g.fw_upgrade_done = 0)
    (hbin : g.geckofile.opened = false) (hsha : g.gecko_sha1_file.opened = false)
    (hsmall : img.length = 0 ∨ img.length < 2048)
    (fuel : Nat) (hfuel : img.length + 2 ≤ fuel) :
    ∃ g', dfu_gecko_write_image E fuel g
        { slot_to_upgrade := slot, bin_file := some img, sha_file := some digest,
          bin_faults := [], sha_faults := sha_faults } = some (g', Exit.returned (-1)) ∧
      g'.flash_log = g.flash_log ∧ g'.flash = g.flash ∧
      g'.totalreadbytes = (img.length : Int) := by
  obtain ⟨g', hrun, -, -, -, -, -, -, hlog, hfl, -, -, htot, -⟩ :=
    run_gate_abort E g slot img digest sha_faults hstate hdone hbin hsha (Or.inl (by omega)) fuel
      hfuel
  exact ⟨g', hrun, hlog, hfl, htot⟩

/-- C17, at an image of three bytes and at the empty image, each with a digest
file of forty characters: both calls return -1 with an empty flash log. -/
theorem C17_too_small_image_aborts_before_flash_witness :
    (∃ g', dfu_gecko_write_image (sim_env 0 0) 5 (Globals.fresh [] ())
        { slot_to_upgrade := 1, bin_file := some img_small,
          sha_file := some (digest_of_char 48), bin_faults := [], sha_faults := [] } =
          some (g', Exit.returned (-1)) ∧
      g'.flash_log = [] ∧ g'.flash = [] ∧ g'.totalreadbytes = 3) ∧
    (∃ g', dfu_gecko_write_image (sim_env 0 0) 2 (Globals.fresh [] ())
        { slot_to_upgrade := 0, bin_file := some [],
          sha_file := some (digest_of_char 48), bin_faults := [], sha_faults := [0] } =
          some (g', Exit.returned (-1)) ∧
      g'.flash_log = [] ∧ g'.flash = [] ∧ g'.totalreadbytes = 0) :=
  ⟨C17_too_small_image_aborts_before_flash (sim_env 0 0) (Globals.fresh [] ()) 1 img_small
      (digest_of_char 48) [] (Or.inl rfl) rfl rfl rfl (Or.inr (by decide)) 5 (by decide),
    C17_too_small_image_aborts_before_flash (sim_env 0 0) (Globals.fresh [] ()) 0 []
      (digest_of_char 48) [0] (Or.inl rfl) rfl rfl rfl (Or.inl rfl) 2 (by decide)⟩

/-! ## One chunk, for any driver and a file whose next read succeeds -/

theorem frf_eq_ok (E : Env σ κ) (g : Globals σ κ)
    (hok : g.geckofile.calls ∉ g.geckofile.faults) :
    file_read_flash E g =
      ({ (if 0 < (next_chunk g.geckofile).length then
            { (write_image_chunk_to_flash E (after_fs_read g)
                  ((next_chunk g.geckofile).length : Int) (after_fs_read g).image_buffer
                  (slot_base g.requested_slot_to_upgrade) 0).1 with
              crc32 := E.crc32_ieee_update g.crc32
                ((after_fs_read g).image_buffer.take (next_chunk g.geckofile).length) }
          else after_fs_read g) with status := 0 }, 0) := by
  unfold file_read_flash
  rw [fs_read_ok _ _ hok]
  have h0 : ¬ ((((g.geckofile.data.drop g.geckofile.pos).take DFU_XFER_SIZE_2K).length : Int) < 0) := by
    omega
  dsimp only
  rw [if_neg h0]
  by_cases hp : 0 < (next_chunk g.geckofile).length
  · have hp' : (((g.geckofile.data.drop g.geckofile.pos).take DFU_XFER_SIZE_2K).length : Int) > 0 := by
      unfold next_chunk at hp
      unfold DFU_XFER_SIZE_2K
      omega
    rw [if_pos hp', if_pos hp]
    unfold slot_base
    by_cases hs : g.requested_slot_to_upgrade = 0
    · simp only [if_pos hs, wicf_crc32, wicf_image_buffer, wicf_readbytes, Int.toNat_ofNat]
      rfl
    · simp only [if_neg hs, wicf_crc32, wicf_image_buffer, wicf_readbytes, Int.toNat_ofNat]
      rfl
  · have hp' : ¬ (((g.geckofile.data.drop g.geckofile.pos).take DFU_XFER_SIZE_2K).length : Int) > 0 := by
      unfold next_chunk at hp
      unfold DFU_XFER_SIZE_2K
      omega
    rw [if_neg hp', if_neg hp]
    rfl

/-- A failing `fs_read` makes `file_read_flash` record the status -1 and
return -1; nothing is handed to the driver. -/
theorem frf_fault (E : Env σ κ) (g : Globals σ κ)
    (hflt : g.geckofile.calls ∈ g.geckofile.faults) :
    file_read_flash E g =
      ({ g with geckofile := { g.geckofile with calls := g.geckofile.calls + 1 },
                readbytes := -5, status := -1 }, -1) := by
  unfold file_read_flash fs_read
  rw [if_pos hflt]
  dsimp only
  rw [if_pos (by decide), store_nil]

/-- The driver side of `write_image_chunk_to_flash`, in terms of `chunk_io`. -/
theorem wicf_io (E : Env σ κ) (g : Globals σ κ) (n : Int) (d : List Nat) (s : Nat) :
    (write_image_chunk_to_flash E g n d s 0).1.flash =
        (chunk_io E (g.flash, g.check_buf) ((s + g.page * 2048) % 4294967296) d n.toNat).1.1 ∧
      (write_image_chunk_to_flash E g n d s 0).1.check_buf =
        (chunk_io E (g.flash, g.check_buf) ((s + g.page * 2048) % 4294967296) d n.toNat).1.2 ∧
      (write_image_chunk_to_flash E g n d s 0).1.totalwritebytes =
        g.totalwritebytes +
          (if (chunk_io E (g.flash, g.check_buf) ((s + g.page * 2048) % 4294967296) d
                n.toNat).2 then n else 0) := by
  unfold write_image_chunk_to_flash chunk_io
  simp only [DFU_XFER_SIZE_2K]
  split_ifs <;> simp_all

theorem frf_ok (E : Env σ κ) (g : Globals σ κ)
    (hok : g.geckofile.calls ∉ g.geckofile.faults)
    (hb : 0 < (next_chunk g.geckofile).length) :
    (file_read_flash E g).2 = 0 ∧ ChunkDone E g (file_read_flash E g).1 := by
  obtain ⟨hfl, hcb, htw⟩ := wicf_io E (after_fs_read g) ((next_chunk g.geckofile).length : Int)
    (after_fs_read g).image_buffer (slot_base g.requested_slot_to_upgrade)
  rw [frf_eq_ok E g hok, if_pos hb]
  refine ⟨rfl, ?_⟩
  refine
    { geckofile := ?_, readbytes := ?_, image_buffer := ?_, page := ?_, status := rfl,
      crc32 := ?_, flash := ?_, check_buf := ?_, totalwritebytes := ?_ }
  · dsimp only
    rw [wicf_geckofile]
    rfl
  · dsimp only
    rw [wicf_readbytes]
    rfl
  · dsimp only
    rw [wicf_image_buffer]
    rfl
  · dsimp only
    rw [wicf_page_incr]
    rfl
  · dsimp only
    congr 1
    exact take_store _ _
  · dsimp only
    rw [hfl, Int.toNat_ofNat]
    rfl
  · dsimp only
    rw [hcb, Int.toNat_ofNat]
    rfl
  · dsimp only
    rw [htw, Int.toNat_ofNat]
    rfl

/-! ## The passes of the chunk loop, for a file whose next reads succeed or fail -/

theorem chunk_loop_mid_ok (E : Env σ κ) (fuel : Nat) (g : Globals σ κ)
    (h0 : g.chunk_cnt ≠ 0)
    (h1 : g.chunk_cnt ≠ (g.chunk_check + 4294967295) % 4294967296)
    (hoff : g.offset ≤ g.fw_image_size)
    (hrc : (file_read_flash E g).2 = 0) (hst : (file_read_flash E g).1.status = 0) :
    chunk_loop E (fuel + 1) g =
      chunk_loop E fuel (chunk_loop_advance (file_read_flash E g).1) := by
  rw [chunk_loop]
  simp [h0, h1, hoff, hrc, hst]

theorem chunk_loop_last_ok (E : Env σ κ) (fuel : Nat) (g : Globals σ κ)
    (h0 : g.chunk_cnt ≠ 0)
    (h1 : g.chunk_cnt = (g.chunk_check + 4294967295) % 4294967296)
    (hoff : g.offset ≤ g.fw_image_size)
    (hrc : (file_read_flash E g).2 = 0)
    (hrc2 : (file_read_flash E (file_read_flash E g).1).2 = 0)
    (hst2 : (file_read_flash E (file_read_flash E g).1).1.status = 0) :
    chunk_loop E (fuel + 1) g =
      some ({ (file_read_flash E (file_read_flash E g).1).1 with
                state := gecko_app_state.GECKO_FW_UPGRADE_DONE }, none) := by
  rw [chunk_loop]
  simp [h0, h1.symm, hoff, hrc, hrc2, hst2]

/-- The read at the head of a pass fails: the loop executes `return -1`. -/
theorem chunk_loop_fault (E : Env σ κ) (fuel : Nat) (g : Globals σ κ)
    (h0 : g.chunk_cnt ≠ 0) (hoff : g.offset ≤ g.fw_image_size)
    (hrc : (file_read_flash E g).2 ≠ 0) :
    chunk_loop E (fuel + 1) g = some ((file_read_flash E g).1, some (-1)) := by
  rw [chunk_loop]
  simp [h0, hoff, hrc]

/-- The second read of the last pass fails: the loop executes `return -1`. -/
theorem chunk_loop_last_fault (E : Env σ κ) (fuel : Nat) (g : Globals σ κ)
    (h0 : g.chunk_cnt ≠ 0)
    (h1 : g.chunk_cnt = (g.chunk_check + 4294967295) % 4294967296)
    (hoff : g.offset ≤ g.fw_image_size)
    (hrc : (file_read_flash E g).2 = 0)
    (hrc2 : (file_read_flash E (file_read_flash E g).1).2 ≠ 0) :
    chunk_loop E (fuel + 1) g =
      some ((file_read_flash E (file_read_flash E g).1).1, some (-1)) := by
  rw [chunk_loop]
  simp [h0, h1.symm, hoff, hrc, hrc2]

/-! ## The running totals -/

theorem verified_bytes_zero (E : Env σ κ) (img : List Nat) (base : Nat) (sc0 : σ × List Nat) :
    verified_bytes E img base sc0 0 = 0 := rfl

theorem verified_bytes_succ (E : Env σ κ) (img : List Nat) (base : Nat) (sc0 : σ × List Nat)
    (m : Nat) :
    verified_bytes E img base sc0 (m + 1) =
      verified_bytes E img base sc0 m +
        (if chunk_verified E img base sc0 m then ((chunk_at img m).length : Int) else 0) := by
  unfold verified_bytes
  rw [List.range_succ, List.map_append, List.sum_append]
  simp only [List.map_cons, List.map_nil, List.sum_cons, List.sum_nil, add_zero]

theorem crc_of_chunks_zero (E : Env σ κ) (c0 : Nat) (img : List Nat) :
    crc_of_chunks E c0 img 0 = c0 := rfl

theorem crc_of_chunks_succ (E : Env σ κ) (c0 : Nat) (img : List Nat) (n : Nat) :
    crc_of_chunks E c0 img (n + 1) =
      E.crc32_ieee_update (crc_of_chunks E c0 img n) (chunk_at img n) := by
  unfold crc_of_chunks
  rw [List.range_succ, List.foldl_append]
  rfl

theorem page_of_full (img : List Nat) (k : Nat) (h : k + 1 ≠ num_chunks img.length) :
    page_of img k = chunk_at img k := by
  unfold page_of
  rw [if_neg h]

theorem page_of_final (img : List Nat) (k : Nat) (h : k + 1 = num_chunks img.length) :
    page_of img k = final_page img := by
  unfold page_of
  rw [if_pos h]

/-! ## The invariant of the chunk loop, for any driver -/

theorem next_chunk_atPass {E : Env σ κ} {img : List Nat} {slot : Int}
    {G0 : Globals σ κ} {j : Nat} {g : Globals σ κ}
    (h : AtPass E img slot G0 j g) : next_chunk g.geckofile = chunk_at img j := by
  simp only [next_chunk, chunk_at, h.data, h.pos]

/-- One pass over a full chunk that is not the one before the last: the read
succeeds, the chunk is handed to the driver, and the invariant holds at the
head of the next pass. -/
theorem atPass_step (E : Env σ κ) (img : List Nat) (slot : Int) (G0 : Globals σ κ) (j : Nat)
    (g : Globals σ κ) (h : AtPass E img slot G0 j g) (hS : img.length < 2147483648)
    (hj : j + 2 ≤ num_chunks img.length)
    (hok : G0.geckofile.calls + j ∉ G0.geckofile.faults) :
    (file_read_flash E g).2 = 0 ∧ (file_read_flash E g).1.status = 0 ∧
      (file_read_flash E g).1.image_buffer = chunk_at img j ∧
      AtPass E img slot G0 (j + 1) (chunk_loop_advance (file_read_flash E g).1) := by
  have hfull : (j + 1) * 2048 ≤ img.length := by
    unfold num_chunks at hj
    omega
  have hnc := next_chunk_atPass h
  have hlen : (next_chunk g.geckofile).length = 2048 := by
    rw [hnc]
    exact chunk_at_length_full img j hfull
  have hb : 0 < (next_chunk g.geckofile).length := by omega
  have hsb := slot_base_le slot
  obtain ⟨hrc, hd⟩ := frf_ok E g (by rw [h.calls, h.faults]; exact hok) hb
  have hbuf : store (next_chunk g.geckofile) g.image_buffer = chunk_at img j := by
    rw [hnc, h.image_buffer]
    apply store_full
    rw [chunk_at_length_full img j hfull, List.length_replicate]
  have haddr : (slot_base g.requested_slot_to_upgrade + g.page * 2048) % 4294967296 =
      slot_base slot + j * 2048 := by
    rw [h.req_slot, h.page]
    omega
  have hpg : page_of img j = chunk_at img j := page_of_full img j (by omega)
  have hio : chunk_io E (g.flash, g.check_buf)
      ((slot_base g.requested_slot_to_upgrade + g.page * 2048) % 4294967296)
      (store (next_chunk g.geckofile) g.image_buffer) (next_chunk g.geckofile).length =
      chunk_io E (drive E img (slot_base slot) (G0.flash, G0.check_buf) j)
        (slot_base slot + j * 2048) (page_of img j) (chunk_at img j).length := by
    rw [haddr, hbuf, hpg, hnc, h.flash, h.check_buf]
  refine ⟨hrc, hd.status, hd.image_buffer.trans hbuf, ?_⟩
  refine
    { data := ?_, faults := ?_, calls := ?_, pos := ?_, offset := ?_, chunk_cnt := ?_,
      chunk_check := ?_, fw_image_size := ?_, page := ?_, image_buffer := rfl, req_slot := ?_,
      state := ?_, done := ?_, expected := ?_, expected_final := ?_, flash := ?_,
      check_buf := ?_, totalwritebytes := ?_, crc32 := ?_ }
  · show (file_read_flash E g).1.geckofile.data = img
    rw [hd.geckofile]
    exact h.data
  · show (file_read_flash E g).1.geckofile.faults = _
    rw [hd.geckofile]
    exact h.faults
  · show (file_read_flash E g).1.geckofile.calls = _
    rw [hd.geckofile]
    show g.geckofile.calls + 1 = _
    rw [h.calls]
    omega
  · show (file_read_flash E g).1.geckofile.pos = _
    rw [hd.geckofile]
    show g.geckofile.pos + (next_chunk g.geckofile).length = _
    rw [h.pos, hlen]
    omega
  · show to_uint32 (((file_read_flash E g).1.offset : Int) + (file_read_flash E g).1.readbytes) = _
    rw [frf_offset, hd.readbytes, h.offset, hlen]
    unfold to_uint32
    omega
  · show ((file_read_flash E g).1.chunk_cnt + 1) % 4294967296 = _
    rw [frf_chunk_cnt, h.chunk_cnt]
    unfold num_chunks at hj
    omega
  · show (file_read_flash E g).1.chunk_check = _
    rw [frf_chunk_check, h.chunk_check]
  · show (file_read_flash E g).1.fw_image_size = _
    rw [frf_fw_image_size, h.fw_image_size]
  · show (file_read_flash E g).1.page = _
    rw [hd.page, h.page]
    unfold num_chunks at hj
    omega
  · show (file_read_flash E g).1.requested_slot_to_upgrade = _
    rw [frf_requested_slot_to_upgrade, h.req_slot]
  · show (file_read_flash E g).1.state = _
    rw [frf_state, h.state]
  · show (file_read_flash E g).1.fw_upgrade_done = _
    rw [frf_fw_upgrade_done, h.done]
  · show (file_read_flash E g).1.gecko_expected_sha1 = _
    rw [frf_gecko_expected_sha1, h.expected]
  · show (file_read_flash E g).1.gecko_expected_sha1_final = _
    rw [frf_gecko_expected_sha1_final, h.expected_final]
  · show (file_read_flash E g).1.flash = _
    rw [hd.flash, hio]
    rfl
  · show (file_read_flash E g).1.check_buf = _
    rw [hd.check_buf, hio]
    rfl
  · show (file_read_flash E g).1.totalwritebytes = _
    rw [hd.totalwritebytes, hio, verified_bytes_succ, h.totalwritebytes, hnc]
    rfl
  · show (file_read_flash E g).1.crc32 = _
    rw [hd.crc32, crc_of_chunks_succ, h.crc32, hnc]

/-- The healthy passes before the pass with `chunk_cnt = j + d + 1`. -/
theorem chunk_loop_to_pass (E : Env σ κ) (img : List Nat) (slot : Int) (G0 : Globals σ κ)
    (hS : img.length < 2147483648) :
    ∀ (d j fuel : Nat) (g : Globals σ κ), AtPass E img slot G0 j g →
      j + d + 2 ≤ num_chunks img.length →
      (∀ k, j ≤ k → k < j + d → G0.geckofile.calls + k ∉ G0.geckofile.faults) →
      ∃ g', AtPass E img slot G0 (j + d) g' ∧
        chunk_loop E (fuel + d) g = chunk_loop E fuel g' := by
  intro d
  induction d with
  | zero =>
    intro j fuel g h _ _
    exact ⟨g, h, rfl⟩
  | succ d ih =>
    intro j fuel g h hj hok
    have hnle : num_chunks img.length ≤ 1048576 := by
      unfold num_chunks
      omega
    obtain ⟨hrc, hst, -, hstep⟩ := atPass_step E img slot G0 j g h hS (by omega)
      (hok j (le_refl _) (by omega))
    obtain ⟨g', hat, hrun⟩ := ih (j + 1) fuel _ hstep (by omega)
      (fun k hk1 hk2 => hok k (by omega) (by omega))
    refine ⟨g', ?_, ?_⟩
    · rw [show j + (d + 1) = j + 1 + d by omega]
      exact hat
    · rw [show fuel + (d + 1) = fuel + d + 1 by omega,
        chunk_loop_mid_ok E (fuel + d) g ?_ ?_ ?_ hrc hst, hrun]
      · rw [h.chunk_cnt]
        omega
      · rw [h.chunk_cnt, h.chunk_check]
        omega
      · rw [h.offset, h.fw_image_size]
        unfold num_chunks at hj
        omega

/-- The read at the head of the pass with `chunk_cnt = m + 1` fails: the call
returns -1 with the totals of the `m` chunks transferred so far. -/
theorem atPass_fault (E : Env σ κ) (img : List Nat) (slot : Int) (G0 : Globals σ κ) (m : Nat)
    (g : Globals σ κ) (h : AtPass E img slot G0 m g)
    (hm : m + 2 ≤ num_chunks img.length)
    (hflt : G0.geckofile.calls + m ∈ G0.geckofile.faults) (fuel : Nat) :
    ∃ g', chunk_loop E (fuel + 1) g = some (g', some (-1)) ∧ Tallied E img slot G0 m g' ∧
      g'.state = G0.state ∧ g'.chunk_cnt = m + 1 ∧ g'.offset = m * 2048 ∧ g'.status = -1 := by
  have hf := frf_fault E g (by rw [h.calls, h.faults]; exact hflt)
  refine ⟨(file_read_flash E g).1, chunk_loop_fault E fuel g ?_ ?_ ?_, ?_⟩
  · rw [h.chunk_cnt]
    omega
  · rw [h.offset, h.fw_image_size]
    unfold num_chunks at hm
    omega
  · rw [hf]
    show (-1 : Int) ≠ 0
    decide
  · rw [hf]
    exact ⟨⟨h.totalwritebytes, h.crc32, h.flash, h.check_buf, h.page, h.done, h.expected,
      h.expected_final⟩, h.state, h.chunk_cnt, h.offset, rfl⟩

/-- The first read of the last pass, and what the second read finds. -/
theorem atPass_before_final (E : Env σ κ) (img : List Nat) (slot : Int) (G0 : Globals σ κ)
    (j : Nat) (g : Globals σ κ) (h : AtPass E img slot G0 j g) (hS : img.length < 2147483648)
    (hj : j + 2 = num_chunks img.length)
    (hok : G0.geckofile.calls + j ∉ G0.geckofile.faults) :
    (file_read_flash E g).2 = 0 ∧
      Tallied E img slot G0 (j + 1) (file_read_flash E g).1 ∧
      (file_read_flash E g).1.geckofile.calls = G0.geckofile.calls + (j + 1) ∧
      (file_read_flash E g).1.geckofile.faults = G0.geckofile.faults ∧
      next_chunk (file_read_flash E g).1.geckofile = chunk_at img (j + 1) ∧
      0 < (chunk_at img (j + 1)).length ∧
      store (chunk_at img (j + 1)) (file_read_flash E g).1.image_buffer = page_of img (j + 1) ∧
      (file_read_flash E g).1.requested_slot_to_upgrade = slot ∧
      (file_read_flash E g).1.state = G0.state ∧
      (file_read_flash E g).1.chunk_cnt = j + 1 ∧
      (file_read_flash E g).1.offset = j * 2048 := by
  obtain ⟨hrc, -, hbuf, hstep⟩ := atPass_step E img slot G0 j g h hS (by omega) hok
  have hrest : (j + 1) * 2048 < img.length ∧ img.length ≤ (j + 2) * 2048 := by
    unfold num_chunks at hj
    omega
  have hlen1 : (chunk_at img (j + 1)).length = img.length - (j + 1) * 2048 :=
    chunk_at_length_last img (j + 1) (by omega)
  refine ⟨hrc, ⟨hstep.totalwritebytes, hstep.crc32, hstep.flash, hstep.check_buf, hstep.page,
    hstep.done, hstep.expected, hstep.expected_final⟩, hstep.calls, hstep.faults, ?_, ?_, ?_,
    hstep.req_slot, hstep.state, ?_, ?_⟩
  · unfold next_chunk chunk_at
    rw [show (file_read_flash E g).1.geckofile.data = img from hstep.data,
      show (file_read_flash E g).1.geckofile.pos = (j + 1) * 2048 from hstep.pos]
  · rw [hlen1]
    omega
  · rw [hbuf, page_of_final img (j + 1) (by omega)]
    unfold final_page store
    rw [show num_chunks img.length - 1 = j + 1 by omega,
      show num_chunks img.length - 2 = j by omega]
  · rw [frf_chunk_cnt, h.chunk_cnt]
  · rw [frf_offset, h.offset]

/-- The last pass with both reads healthy: the loop is left with
`GECKO_FW_UPGRADE_DONE` set and the totals of all chunks. -/
theorem atPass_final (E : Env σ κ) (img : List Nat) (slot : Int) (G0 : Globals σ κ)
    (j : Nat) (g : Globals σ κ) (h : AtPass E img slot G0 j g) (hS : img.length < 2147483648)
    (hj : j + 2 = num_chunks img.length)
    (hok : G0.geckofile.calls + j ∉ G0.geckofile.faults)
    (hok1 : G0.geckofile.calls + (j + 1) ∉ G0.geckofile.faults) (fuel : Nat) :
    ∃ g', chunk_loop E (fuel + 1) g = some (g', none) ∧
      Tallied E img slot G0 (j + 2) g' ∧
      g'.state = gecko_app_state.GECKO_FW_UPGRADE_DONE := by
  obtain ⟨hrc, ht, hcalls, hflts, hnc, hb, hpage, hslot, -, hcc, hoff⟩ :=
    atPass_before_final E img slot G0 j g h hS hj hok
  have hsb := slot_base_le slot
  have hnle : num_chunks img.length ≤ 1048576 := by
    unfold num_chunks
    omega
  obtain ⟨hrc2, hd⟩ := frf_ok E (file_read_flash E g).1 (by rw [hcalls, hflts]; exact hok1)
    (by rw [hnc]; exact hb)
  have hio : chunk_io E ((file_read_flash E g).1.flash, (file_read_flash E g).1.check_buf)
      ((slot_base (file_read_flash E g).1.requested_slot_to_upgrade +
        (file_read_flash E g).1.page * 2048) % 4294967296)
      (store (next_chunk (file_read_flash E g).1.geckofile) (file_read_flash E g).1.image_buffer)
      (next_chunk (file_read_flash E g).1.geckofile).length =
      chunk_io E (drive E img (slot_base slot) (G0.flash, G0.check_buf) (j + 1))
        (slot_base slot + (j + 1) * 2048) (page_of img (j + 1)) (chunk_at img (j + 1)).length := by
    rw [hslot, ht.page, hnc, hpage, ht.flash, ht.check_buf, Nat.mod_eq_of_lt (by omega)]
  refine ⟨_, chunk_loop_last_ok E fuel g ?_ ?_ ?_ hrc hrc2 hd.status, ?_, rfl⟩
  · rw [h.chunk_cnt]
    omega
  · rw [h.chunk_cnt, h.chunk_check]
    omega
  · rw [h.offset, h.fw_image_size]
    unfold num_chunks at hj
    omega
  · refine
      { totalwritebytes := ?_, crc32 := ?_, flash := ?_, check_buf := ?_, page := ?_, done := ?_,
        expected := ?_, expected_final := ?_ }
    · show (file_read_flash E (file_read_flash E g).1).1.totalwritebytes = _
      rw [hd.totalwritebytes, hio, verified_bytes_succ, ht.totalwritebytes, hnc]
      rfl
    · show (file_read_flash E (file_read_flash E g).1).1.crc32 = _
      rw [hd.crc32, crc_of_chunks_succ, ht.crc32, hnc]
    · show (file_read_flash E (file_read_flash E g).1).1.flash = _
      rw [hd.flash, hio]
      rfl
    · show (file_read_flash E (file_read_flash E g).1).1.check_buf = _
      rw [hd.check_buf, hio]
      rfl
    · show (file_read_flash E (file_read_flash E g).1).1.page = _
      rw [hd.page, ht.page]
      omega
    · show (file_read_flash E (file_read_flash E g).1).1.fw_upgrade_done = _
      rw [frf_fw_upgrade_done, ht.done]
    · show (file_read_flash E (file_read_flash E g).1).1.gecko_expected_sha1 = _
      rw [frf_gecko_expected_sha1, ht.expected]
    · show (file_read_flash E (file_read_flash E g).1).1.gecko_expected_sha1_final = _
      rw [frf_gecko_expected_sha1_final, ht.expected_final]

/-- The last pass when its second read fails: the call returns -1 with the
totals of all chunks but the final one. -/
theorem atPass_final_fault (E : Env σ κ) (img : List Nat) (slot : Int) (G0 : Globals σ κ)
    (j : Nat) (g : Globals σ κ) (h : AtPass E img slot G0 j g) (hS : img.length < 2147483648)
    (hj : j + 2 = num_chunks img.length)
    (hok : G0.geckofile.calls + j ∉ G0.geckofile.faults)
    (hflt : G0.geckofile.calls + (j + 1) ∈ G0.geckofile.faults) (fuel : Nat) :
    ∃ g', chunk_loop E (fuel + 1) g = some (g', some (-1)) ∧
      Tallied E img slot G0 (j + 1) g' ∧
      g'.state = G0.state ∧ g'.chunk_cnt = j + 1 ∧ g'.offset = j * 2048 ∧ g'.status = -1 := by
  obtain ⟨hrc, ht, hcalls, hflts, -, -, -, -, hstate, hcc, hoff⟩ :=
    atPass_before_final E img slot G0 j g h hS hj hok
  have hnle : num_chunks img.length ≤ 1048576 := by
    unfold num_chunks
    omega
  have hf := frf_fault E (file_read_flash E g).1 (by rw [hcalls, hflts]; exact hflt)
  refine ⟨_, chunk_loop_last_fault E fuel g ?_ ?_ ?_ hrc ?_, ?_⟩
  · rw [h.chunk_cnt]
    omega
  · rw [h.chunk_cnt, h.chunk_check]
    omega
  · rw [h.offset, h.fw_image_size]
    unfold num_chunks at hj
    omega
  · rw [hf]
    show (-1 : Int) ≠ 0
    decide
  · rw [hf]
    exact ⟨⟨ht.totalwritebytes, ht.crc32, ht.flash, ht.check_buf, ht.page, ht.done, ht.expected,
      ht.expected_final⟩, hstate, hcc, hoff, rfl⟩

/-! ## The pre-read pass and the entry to the chunk loop, for a file with failing reads -/

/-- The pre-read pass over a file whose next `num_chunks + 1` reads succeed
reads it to the end with exactly these reads. -/
theorem fw_size_loop_upto (E : Env σ κ) :
    ∀ (fuel : Nat) (g : Globals σ κ),
      (∀ k, k ≤ num_chunks (g.geckofile.data.drop g.geckofile.pos).length →
        g.geckofile.calls + k ∉ g.geckofile.faults) →
      (g.geckofile.data.drop g.geckofile.pos).length < fuel →
      ∃ g', get_gecko_fw_size_loop E fuel g =
          some (g', to_uint32 (g.totalreadbytes +
                  ((g.geckofile.data.drop g.geckofile.pos).length : Int))) ∧
        g' = { g with geckofile := g'.geckofile, readbytes := g'.readbytes,
                      image_buffer := g'.image_buffer, totalreadbytes := g'.totalreadbytes,
                      gecko_sha1_ctx := g'.gecko_sha1_ctx,
                      gecko_sha1_output := g'.gecko_sha1_output } ∧
        g'.geckofile.data = g.geckofile.data ∧
        g'.geckofile.faults = g.geckofile.faults ∧
        g'.geckofile.calls = g.geckofile.calls +
          num_chunks (g.geckofile.data.drop g.geckofile.pos).length + 1 ∧
        g'.gecko_sha1_output =
          sha1_stream E g.gecko_sha1_ctx (g.geckofile.data.drop g.geckofile.pos) := by
  intro fuel
  induction fuel with
  | zero => intro g _ h; omega
  | succ fuel ih =>
    intro g hok hfuel
    rw [get_gecko_fw_size_loop, fs_read_ok _ _ (hok 0 (Nat.zero_le _))]
    have h0 : ¬ ((((g.geckofile.data.drop g.geckofile.pos).take DFU_XFER_SIZE_2K).length : Int)
        < 0) := by omega
    dsimp only
    rw [if_neg h0]
    simp only [take_store, Int.toNat_ofNat, DFU_XFER_SIZE_2K]
    by_cases hb : (g.geckofile.data.drop g.geckofile.pos).take 2048 = []
    · have hlen0 : (g.geckofile.data.drop g.geckofile.pos).length = 0 := by
        have := congrArg List.length hb
        simp only [List.length_take, List.length_nil] at this
        omega
      simp only [hb, List.length_nil, Nat.cast_zero, if_true, add_zero, hlen0,
        sha1_stream_eof E _ _ hb, store_nil]
      exact ⟨_, rfl, rfl, rfl, rfl, rfl, rfl⟩
    · have hpos : 0 < ((g.geckofile.data.drop g.geckofile.pos).take 2048).length :=
        List.length_pos.2 hb
      have hne : ¬ ((((g.geckofile.data.drop g.geckofile.pos).take 2048).length : Int) = 0) := by
        omega
      rw [if_neg hne]
      have hdrop : ∀ m, (g.geckofile.data.drop (g.geckofile.pos + m)) =
          (g.geckofile.data.drop g.geckofile.pos).drop m := fun m => by
        rw [List.drop_drop]
      have hlens : ((g.geckofile.data.drop g.geckofile.pos).take 2048).length +
          ((g.geckofile.data.drop g.geckofile.pos).drop
            ((g.geckofile.data.drop g.geckofile.pos).take 2048).length).length =
          (g.geckofile.data.drop g.geckofile.pos).length := by
        simp only [List.length_drop, List.length_take]
        omega
      have hnum : num_chunks ((g.geckofile.data.drop g.geckofile.pos).drop
            ((g.geckofile.data.drop g.geckofile.pos).take 2048).length).length + 1 =
          num_chunks (g.geckofile.data.drop g.geckofile.pos).length := by
        unfold num_chunks
        simp only [List.length_drop, List.length_take] at hpos ⊢
        omega
      obtain ⟨g', hrun, hfr, hdata, hflt, hcalls, hsha⟩ := ih
        { g with
          geckofile := { g.geckofile with
            pos := g.geckofile.pos + ((g.geckofile.data.drop g.geckofile.pos).take 2048).length,
            calls := g.geckofile.calls + 1 },
          readbytes := (((g.geckofile.data.drop g.geckofile.pos).take 2048).length : Int),
          image_buffer :=
            store ((g.geckofile.data.drop g.geckofile.pos).take 2048) g.image_buffer,
          totalreadbytes := g.totalreadbytes +
            (((g.geckofile.data.drop g.geckofile.pos).take 2048).length : Int),
          gecko_sha1_ctx :=
            E.sha1_update g.gecko_sha1_ctx ((g.geckofile.data.drop g.geckofile.pos).take 2048) }
        (by
          dsimp only
          rw [hdrop]
          intro k hk
          have := hok (k + 1) (by omega)
          rw [show g.geckofile.calls + 1 + k = g.geckofile.calls + (k + 1) by omega]
          exact this)
        (by
          dsimp only
          rw [hdrop]
          simp only [List.length_drop, List.length_take] at hpos hfuel ⊢
          omega)
      dsimp only at hrun hfr hdata hflt hcalls hsha
      rw [hdrop] at hrun hsha hcalls
      refine ⟨g', ?_, hfr, hdata, hflt, ?_, ?_⟩
      · rw [hrun]
        congr 3
        rw [← hlens]
        push_cast
        ring
      · rw [hcalls, ← hnum]
        omega
      · rw [hsha, sha1_stream_more E _ _ hb]

/-- The body of `case GECKO_FW_UPGRADE:` on an image of at least one chunk
whose digest matches reaches the chunk loop without a flash call, whatever the
chunk counter, the offset and the status are, when the reads of the pre-read
pass succeed. -/
theorem case_reaches_loop_gen (E : Env σ κ) (slot0 : Int) (img digest : List Nat)
    (g : Globals σ κ)
    (hfd : g.geckofile.data = img) (hfp : g.geckofile.pos = 0)
    (hok : ∀ k, k ≤ num_chunks img.length → g.geckofile.calls + k ∉ g.geckofile.faults)
    (hsd : g.gecko_sha1_file.data = digest) (hsp : g.gecko_sha1_file.pos = 0)
    (hsf : g.gecko_sha1_file.calls ∉ g.gecko_sha1_file.faults)
    (hd : 40 ≤ digest.length) (hS : 2048 ≤ img.length) (hS31 : img.length < 2147483648)
    (hmatch : ∀ i, i < 20 →
      byteAt (sha1_stream E g.gecko_sha1_ctx img) i =
        byteAt (sha_hex_to_bin (store (digest.take 40) g.gecko_expected_sha1)
          g.gecko_expected_sha1_final 40) i)
    (fuel : Nat) (hfuel : img.length + 1 ≤ fuel) :
    ∃ G0, case_GECKO_FW_UPGRADE E slot0 fuel g = chunk_loop E fuel G0 ∧
      LoopStart img digest g G0 := by
  obtain ⟨g2, hrun, hfr, hd2, hf2, hc2, hsha⟩ :=
    fw_size_loop_upto E fuel { g with totalreadbytes := 0 }
      (by
        dsimp only
        rw [hfp, hfd, List.drop_zero]
        exact hok)
      (by
        dsimp only
        rw [hfp, hfd, List.drop_zero]
        omega)
  obtain ⟨f2, rb, b, t, cx, o, rfl⟩ : ∃ f rb b t cx o, g2 =
      { g with geckofile := f, readbytes := rb, image_buffer := b, totalreadbytes := t,
               gecko_sha1_ctx := cx, gecko_sha1_output := o } := ⟨_, _, _, _, _, _, hfr⟩
  clear hfr
  have ho2 := fw_size_loop_opened E _ _ _ hrun
  dsimp only at hrun hd2 hf2 hc2 hsha ho2
  rw [hfp, hfd, List.drop_zero] at hrun hsha hc2
  have hsize : to_uint32 (0 + (img.length : Int)) = img.length := by
    unfold to_uint32
    omega
  rw [hsize] at hrun
  have hlen40 : ((g.gecko_sha1_file.data.drop g.gecko_sha1_file.pos).take 40).length = 40 := by
    rw [hsp, hsd, List.drop_zero, List.length_take]
    omega
  have hnosmall : ¬ (img.length = 0 ∨ img.length < DFU_CHUNK_SIZE) := by
    unfold DFU_CHUNK_SIZE
    omega
  have hcmp : ¬ ∃ i, i < 20 ∧ byteAt o i ≠
      byteAt (sha_hex_to_bin
        (store ((g.gecko_sha1_file.data.drop g.gecko_sha1_file.pos).take 40) g.gecko_expected_sha1)
        g.gecko_expected_sha1_final 40) i := by
    rintro ⟨i, hi, hne⟩
    apply hne
    rw [hsha, hsp, hsd, List.drop_zero]
    exact hmatch i hi
  have hnc : (if img.length % DFU_CHUNK_SIZE ≠ 0
      then (img.length / DFU_CHUNK_SIZE + 1) % 4294967296 else img.length / DFU_CHUNK_SIZE) =
      num_chunks img.length := by
    unfold DFU_CHUNK_SIZE num_chunks
    split_ifs <;> omega
  have hdig : (g.gecko_sha1_file.data.drop g.gecko_sha1_file.pos).take 40 = digest.take 40 := by
    rw [hsp, hsd, List.drop_zero]
  have hfile : fs_seek f2 0 =
      { data := img, pos := 0, calls := g.geckofile.calls + num_chunks img.length + 1,
        faults := g.geckofile.faults, opened := g.geckofile.opened } := by
    unfold fs_seek
    rw [hd2, hfd, hf2, hc2, ho2]
  unfold case_GECKO_FW_UPGRADE get_gecko_fw_size
  rw [hrun]
  dsimp only
  have hs := get_gecko_sha1_ok
    ({ g with geckofile := f2, readbytes := rb, image_buffer := b, totalreadbytes := t,
              gecko_sha1_ctx := cx, gecko_sha1_output := o, fw_image_size := img.length } :
      Globals σ κ) hsf hlen40
  dsimp only at hs
  rw [if_neg hnosmall, hs]
  dsimp only
  rw [if_neg (by decide), compare_sha1_eq]
  dsimp only
  rw [if_neg hcmp, if_neg (by decide)]
  refine ⟨_, rfl, ?_⟩
  refine
    { geckofile := ?_, readbytes := ?_, totalreadbytes := ?_, totalwritebytes := ?_,
      chunk_check := ?_, fw_image_size := ?_, state := ?_, chunk_cnt := ?_, offset := ?_,
      status := ?_, page := ?_, crc32 := ?_, flash := ?_, check_buf := ?_, flash_log := ?_,
      req_slot := ?_, done := ?_, expected := ?_, expected_final := ?_ }
  · dsimp only
    split_ifs <;> exact hfile
  · split_ifs <;> rfl
  · split_ifs <;> rfl
  · split_ifs <;> rfl
  · dsimp only
    rw [← hnc]
    split_ifs <;> rfl
  · split_ifs <;> rfl
  · split_ifs <;> rfl
  · split_ifs <;> rfl
  · split_ifs <;> rfl
  · split_ifs <;> rfl
  · split_ifs <;> rfl
  · split_ifs <;> rfl
  · split_ifs <;> rfl
  · split_ifs <;> rfl
  · split_ifs <;> rfl
  · split_ifs <;> rfl
  · split_ifs <;> rfl
  · dsimp only
    rw [← hdig]
    split_ifs <;> with_reducible rfl
  · dsimp only
    rw [← hdig]
    split_ifs <;> with_reducible rfl

theorem atPass_of_loopStart (E : Env σ κ) (img digest : List Nat) (slot : Int)
    (g G0 : Globals σ κ) (h : LoopStart img digest g G0)
    (hcc : g.chunk_cnt = 0) (hoff : g.offset = 0) (hpage : g.page = 0)
    (hslot : g.requested_slot_to_upgrade = slot) :
    AtPass E img slot G0 0 (chunk_loop_advance G0) := by
  refine
    { data := ?_, faults := rfl, calls := rfl, pos := ?_, offset := ?_, chunk_cnt := ?_,
      chunk_check := h.chunk_check, fw_image_size := h.fw_image_size, page := ?_,
      image_buffer := rfl, req_slot := ?_, state := rfl, done := rfl, expected := rfl,
      expected_final := rfl, flash := rfl, check_buf := rfl, totalwritebytes := ?_,
      crc32 := rfl }
  · show G0.geckofile.data = img
    rw [h.geckofile]
  · show G0.geckofile.pos = 0 * 2048
    rw [h.geckofile]
  · show to_uint32 ((G0.offset : Int) + G0.readbytes) = 0 * 2048
    rw [h.offset, hoff, h.readbytes]
    rfl
  · show (G0.chunk_cnt + 1) % 4294967296 = 0 + 1
    rw [h.chunk_cnt, hcc]
  · show G0.page = 0
    rw [h.page, hpage]
  · show G0.requested_slot_to_upgrade = slot
    rw [h.req_slot, hslot]
  · show G0.totalwritebytes = _
    rw [h.totalwritebytes]
    rfl

/-- The body of `case GECKO_FW_UPGRADE:`, entered with the chunk counter and
the offset at zero on an image of at least one chunk whose digest matches,
reaches the head of the pass with `chunk_cnt = 1`. -/
theorem case_to_first_pass (E : Env σ κ) (slot0 slot : Int) (img digest : List Nat)
    (g : Globals σ κ)
    (hfd : g.geckofile.data = img) (hfp : g.geckofile.pos = 0)
    (hok : ∀ k, k ≤ num_chunks img.length → g.geckofile.calls + k ∉ g.geckofile.faults)
    (hsd : g.gecko_sha1_file.data = digest) (hsp : g.gecko_sha1_file.pos = 0)
    (hsf : g.gecko_sha1_file.calls ∉ g.gecko_sha1_file.faults)
    (hd : 40 ≤ digest.length) (hS : 2048 ≤ img.length) (hS31 : img.length < 2147483648)
    (hmatch : ∀ i, i < 20 →
      byteAt (sha1_stream E g.gecko_sha1_ctx img) i =
        byteAt (sha_hex_to_bin (store (digest.take 40) g.gecko_expected_sha1)
          g.gecko_expected_sha1_final 40) i)
    (hcc : g.chunk_cnt = 0) (hoff : g.offset = 0) (hst : g.status = 0)
    (hslot : g.requested_slot_to_upgrade = slot) (hpage : g.page = 0)
    (fuel : Nat) (hfuel : img.length ≤ fuel) :
    ∃ G0 g1, case_GECKO_FW_UPGRADE E slot0 (fuel + 1) g = chunk_loop E fuel g1 ∧
      LoopStart img digest g G0 ∧ AtPass E img slot G0 0 g1 := by
  obtain ⟨G0, hrun, hls⟩ := case_reaches_loop_gen E slot0 img digest g hfd hfp hok hsd hsp hsf
    hd hS hS31 hmatch (fuel + 1) (by omega)
  refine ⟨G0, chunk_loop_advance G0, ?_, hls,
    atPass_of_loopStart E img digest slot g G0 hls hcc hoff hpage hslot⟩
  rw [hrun, chunk_loop_first E fuel G0 (by rw [hls.chunk_cnt, hcc]) (by rw [hls.status, hst])
    (by rw [hls.offset, hoff]; omega)]

/-- A first attempt with healthy files, for any driver: the image is
transferred, the call ends in the reboot, `totalwritebytes` is the sum of the
lengths of the verified chunks and the running CRC is folded over all chunks
from its value on entry. -/
theorem run_tallied (E : Env σ κ) (g : Globals σ κ) (hr : Ready g) (slot : Int)
    (img digest : List Nat)
    (hd : 40 ≤ digest.length) (hS : 2048 < img.length) (hS31 : img.length < 2147483648)
    (hmatch : ∀ i, i < 20 →
      byteAt (computed_sha1 E g img) i = byteAt (decoded_sha1 g digest) i)
    (fuel : Nat) (hfuel : img.length + 3 ≤ fuel) :
    ∃ g', dfu_gecko_write_image E fuel g
        { slot_to_upgrade := slot, bin_file := some img, sha_file := some digest,
          bin_faults := [], sha_faults := [] } = some (g', Exit.rebooted) ∧
      g'.totalwritebytes =
        verified_bytes E img (slot_base slot) (g.flash, g.check_buf) (num_chunks img.length) ∧
      g'.crc32 = crc_of_chunks E g.crc32 img (num_chunks img.length) ∧
      g'.state = gecko_app_state.GECKO_FW_UPGRADE_DONE := by
  have hn2 : 2 ≤ num_chunks img.length := by
    unfold num_chunks
    omega
  have hnS : num_chunks img.length ≤ img.length := by
    unfold num_chunks
    omega
  obtain ⟨x, rfl⟩ : ∃ x, fuel = x + 1 + (num_chunks img.length - 2) + 1 + 1 :=
    ⟨fuel - (num_chunks img.length - 2) - 3, by omega⟩
  rw [dfu_enter E _ g _ img digest rfl rfl hr.bin_closed hr.sha_closed,
    upgrade_loop_initial E _ _ _ (by exact hr.done) (by exact hr.state)]
  obtain ⟨G0, g1, hrun, hls, hat⟩ := case_to_first_pass E slot slot img digest
    (case_GECKO_INITIAL_STATE E (entered g
      { slot_to_upgrade := slot, bin_file := some img, sha_file := some digest,
        bin_faults := [], sha_faults := [] } img digest))
    rfl rfl (fun k _ => List.not_mem_nil _) rfl rfl (by simp [case_GECKO_INITIAL_STATE, entered])
    hd (by omega) hS31
    (by
      intro i hi
      have := hmatch i hi
      simp only [computed_sha1, decoded_sha1, hr.state, if_true, DFU_SHA1_LEN] at this
      exact this)
    (by exact hr.chunk_cnt) (by exact hr.offset) (by exact hr.status) rfl rfl
    (x + 1 + (num_chunks img.length - 2)) (by omega)
  have hF : G0.geckofile.faults = [] := by
    rw [hls.geckofile]
    rfl
  obtain ⟨g2, hat2, hrun2⟩ := chunk_loop_to_pass E img slot G0 hS31
    (num_chunks img.length - 2) 0 (x + 1) g1 hat (by omega)
    (fun k _ _ => by rw [hF]; exact List.not_mem_nil _)
  obtain ⟨g3, hrun3, ht, hst3⟩ := atPass_final E img slot G0 (0 + (num_chunks img.length - 2)) g2
    hat2 hS31 (by omega) (by rw [hF]; exact List.not_mem_nil _)
    (by rw [hF]; exact List.not_mem_nil _) x
  rw [hrun, hrun2, hrun3]
  dsimp only
  have hdone3 : g3.fw_upgrade_done = 0 := by
    rw [ht.done, hls.done]
    exact hr.done
  rw [show x + 1 + (num_chunks img.length - 2) + 1 = (x + 1 + (num_chunks img.length - 2)) + 1
    from rfl, upgrade_loop_done_state E slot _ g3 hdone3 hst3]
  refine ⟨_, rfl, ?_, ?_, hst3⟩
  · have h := ht.totalwritebytes
    rw [hls.flash, hls.check_buf, show 0 + (num_chunks img.length - 2) + 2 =
      num_chunks img.length by omega] at h
    exact h
  · have h := ht.crc32
    rw [hls.crc32, show 0 + (num_chunks img.length - 2) + 2 =
      num_chunks img.length by omega] at h
    exact h

/-- A first attempt in which the read of chunk `m` during the transfer fails,
for any driver: the call returns -1 with the state left at `GECKO_FW_UPGRADE`,
`totalwritebytes` is the sum of the lengths of the verified chunks among the
`m` chunks transferred, and the running CRC is folded over these `m` chunks.
The chunk counter and the offset keep the values they had reached. -/
theorem run_tallied_fault (E : Env σ κ) (g : Globals σ κ) (hr : Ready g) (slot : Int)
    (img digest : List Nat)
    (hd : 40 ≤ digest.length) (hS : 2048 < img.length) (hS31 : img.length < 2147483648)
    (hmatch : ∀ i, i < 20 →
      byteAt (computed_sha1 E g img) i = byteAt (decoded_sha1 g digest) i)
    (m : Nat) (hm : m < num_chunks img.length)
    (fuel : Nat) (hfuel : img.length + 3 ≤ fuel) :
    ∃ g', dfu_gecko_write_image E fuel g
        { slot_to_upgrade := slot, bin_file := some img, sha_file := some digest,
          bin_faults := [num_chunks img.length + 1 + m], sha_faults := [] } =
          some (g', Exit.returned (-1)) ∧
      g'.totalwritebytes = verified_bytes E img (slot_base slot) (g.flash, g.check_buf) m ∧
      g'.crc32 = crc_of_chunks E g.crc32 img m ∧
      g'.state = gecko_app_state.GECKO_FW_UPGRADE ∧ g'.status = -1 ∧
      g'.fw_upgrade_done = 0 ∧
      g'.chunk_cnt = min (m + 1) (num_chunks img.length - 1) ∧
      g'.offset = (min (m + 1) (num_chunks img.length - 1) - 1) * 2048 ∧
      g'.gecko_expected_sha1 = store (digest.take 40) g.gecko_expected_sha1 ∧
      g'.gecko_expected_sha1_final =
        sha_hex_to_bin (store (digest.take 40) g.gecko_expected_sha1)
          g.gecko_expected_sha1_final 40 := by
  have hn2 : 2 ≤ num_chunks img.length := by
    unfold num_chunks
    omega
  have hnS : num_chunks img.length ≤ img.length := by
    unfold num_chunks
    omega
  obtain ⟨d, hd1, hd2⟩ : ∃ d, d = min m (num_chunks img.length - 2) ∧
      d + 2 ≤ num_chunks img.length := ⟨_, rfl, by omega⟩
  obtain ⟨x, rfl⟩ : ∃ x, fuel = x + 1 + d + 1 + 1 := ⟨fuel - d - 3, by omega⟩
  rw [dfu_enter E _ g _ img digest rfl rfl hr.bin_closed hr.sha_closed,
    upgrade_loop_initial E _ _ _ (by exact hr.done) (by exact hr.state)]
  obtain ⟨G0, g1, hrun, hls, hat⟩ := case_to_first_pass E slot slot img digest
    (case_GECKO_INITIAL_STATE E (entered g
      { slot_to_upgrade := slot, bin_file := some img, sha_file := some digest,
        bin_faults := [num_chunks img.length + 1 + m], sha_faults := [] } img digest))
    rfl rfl
    (by
      intro k hk hmem
      have hmem' : 0 + k ∈ [num_chunks img.length + 1 + m] := hmem
      rw [List.mem_singleton] at hmem'
      omega)
    rfl rfl (by simp [case_GECKO_INITIAL_STATE, entered])
    hd (by omega) hS31
    (by
      intro i hi
      have := hmatch i hi
      simp only [computed_sha1, decoded_sha1, hr.state, if_true, DFU_SHA1_LEN] at this
      exact this)
    (by exact hr.chunk_cnt) (by exact hr.offset) (by exact hr.status) rfl rfl
    (x + 1 + d) (by omega)
  have hF : G0.geckofile.faults = [num_chunks img.length + 1 + m] := by
    rw [hls.geckofile]
    rfl
  have hC : G0.geckofile.calls = num_chunks img.length + 1 := by
    rw [hls.geckofile]
    show 0 + num_chunks img.length + 1 = _
    omega
  obtain ⟨g2, hat2, hrun2⟩ := chunk_loop_to_pass E img slot G0 hS31 d 0 (x + 1) g1 hat
    (by omega)
    (fun k _ hk => by
      rw [hF, hC, List.mem_singleton]
      omega)
  have key : ∃ g3, chunk_loop E (x + 1) g2 = some (g3, some (-1)) ∧
      Tallied E img slot G0 m g3 ∧ g3.state = G0.state ∧
      g3.chunk_cnt = min (m + 1) (num_chunks img.length - 1) ∧
      g3.offset = (min (m + 1) (num_chunks img.length - 1) - 1) * 2048 ∧ g3.status = -1 := by
    by_cases hcase : m + 2 ≤ num_chunks img.length
    · have hdm : 0 + d = m := by omega
      rw [hdm] at hat2
      obtain ⟨g3, hrun3, ht, hs3, hcc3, hoff3, hst3⟩ := atPass_fault E img slot G0 m g2 hat2
        hcase (by rw [hF, hC, List.mem_singleton]) x
      refine ⟨g3, hrun3, ht, hs3, ?_, ?_, hst3⟩
      · rw [hcc3]
        omega
      · rw [hoff3, show min (m + 1) (num_chunks img.length - 1) - 1 = m by omega]
    · have hdm : 0 + d + 1 = m := by omega
      obtain ⟨g3, hrun3, ht, hs3, hcc3, hoff3, hst3⟩ := atPass_final_fault E img slot G0 (0 + d)
        g2 hat2 hS31 (by omega)
        (by
          rw [hF, hC, List.mem_singleton]
          omega)
        (by
          rw [hF, hC, List.mem_singleton]
          omega) x
      rw [hdm] at ht
      refine ⟨g3, hrun3, ht, hs3, ?_, ?_, hst3⟩
      · rw [hcc3]
        omega
      · rw [hoff3, show min (m + 1) (num_chunks img.length - 1) - 1 = 0 + d by omega]
  obtain ⟨g3, hrun3, ht, hs3, hcc3, hoff3, hst3⟩ := key
  rw [hrun, hrun2, hrun3]
  refine ⟨_, rfl, ?_, ?_, ?_, hst3, ?_, hcc3, hoff3, ?_, ?_⟩
  · have h := ht.totalwritebytes
    rw [hls.flash, hls.check_buf] at h
    exact h
  · have h := ht.crc32
    rw [hls.crc32] at h
    exact h
  · rw [hs3, hls.state]
    rfl
  · rw [ht.done, hls.done]
    exact hr.done
  · rw [ht.expected, hls.expected]
    rfl
  · rw [ht.expected_final, hls.expected_final]
    rfl

/-! ## The stand-in collaborators: checksum and readback -/

theorem sim_crc (c : Int) (bad acc n v : Nat) :
    (sim_env c bad).crc32_ieee_update acc (List.replicate n v) = (acc + n * v) % 4294967296 := by
  show (acc + (List.replicate n v).sum) % 4294967296 = _
  rw [List.sum_replicate, smul_eq_mul]

theorem sim_chunk_verified (bad addr : Nat) (sc : List Nat × List Nat) (page : List Nat)
    (len : Nat) (h : addr ≠ bad) (hl : len ≤ page.length) (hl2 : len ≤ 2048) :
    (chunk_io (sim_env 0 bad) sc addr page len).2 = true := by
  have h1 : ((page.take 2048).take len).take len = page.take len := by
    rw [List.take_take, List.take_take]
    congr 1
    omega
  have h2 : (page.take len).length = len := by
    rw [List.length_take]
    omega
  have h3 : (store (page.take len) sc.2).take len = page.take len := by
    have := take_store (page.take len) sc.2
    rw [h2] at this
    exact this
  unfold chunk_io sim_env
  simp only [ne_eq, not_true_eq_false, if_false, if_neg h, h1, h3, decide_True]

theorem sim_chunk_unverified (bad : Nat) (sc : List Nat × List Nat) (page : List Nat)
    (len : Nat) (h : page.take len ≠ List.replicate len 0) :
    (chunk_io (sim_env 0 bad) sc bad page len).2 = false := by
  have h1 : (List.replicate len 0 : List Nat).take len = List.replicate len 0 :=
    List.take_of_length_le (by rw [List.length_replicate])
  have h3 : (store (List.replicate len 0) sc.2).take len = List.replicate len 0 := by
    have := take_store (List.replicate len 0) sc.2
    rw [List.length_replicate] at this
    exact this
  unfold chunk_io sim_env
  simp only [ne_eq, not_true_eq_false, if_false, if_true, h1, h3, decide_eq_false_iff_not]
  exact h

/-- The transfer of the three-chunk image into slot 1 with a driver whose
readback of the second page delivers zeros: the first and the third chunk are
verified, the second is not. -/
theorem img3_verified (sc0 : List Nat × List Nat) :
    chunk_verified (sim_env 0 526336) img3 (slot_base 1) sc0 0 = true ∧
      chunk_verified (sim_env 0 526336) img3 (slot_base 1) sc0 1 = false ∧
      chunk_verified (sim_env 0 526336) img3 (slot_base 1) sc0 2 = true := by
  have hp0 : page_of img3 0 = List.replicate 2048 1 := by
    rw [page_of_full img3 0 (by rw [img3_length]; decide), img3_chunks.1]
  have hp1 : page_of img3 1 = List.replicate 2048 2 := by
    rw [page_of_full img3 1 (by rw [img3_length]; decide), img3_chunks.2.1]
  have hp2 : page_of img3 2 = List.replicate 500 3 ++ List.replicate 1548 2 := by
    rw [page_of_final img3 2 (by rw [img3_length]; decide), img3_final_page]
  refine ⟨?_, ?_, ?_⟩
  · unfold chunk_verified
    rw [hp0, img3_chunks.1, List.length_replicate]
    exact sim_chunk_verified _ _ _ _ _ (by decide) (by rw [List.length_replicate])
      (le_refl _)
  · unfold chunk_verified
    rw [hp1, img3_chunks.2.1, List.length_replicate,
      show slot_base 1 + 1 * 2048 = 526336 by decide]
    apply sim_chunk_unverified
    rw [List.take_of_length_le (by rw [List.length_replicate])]
    intro h
    exact absurd ((List.replicate_right_inj (by decide)).1 h) (by decide)
  · unfold chunk_verified
    rw [hp2, img3_chunks.2.2, List.length_replicate]
    exact sim_chunk_verified _ _ _ _ _ (by decide)
      (by
        rw [List.length_append, List.length_replicate, List.length_replicate]
        omega)
      (by omega)

theorem img3_verified_bytes (sc0 : List Nat × List Nat) :
    verified_bytes (sim_env 0 526336) img3 (slot_base 1) sc0 1 = 2048 ∧
      verified_bytes (sim_env 0 526336) img3 (slot_base 1) sc0 2 = 2048 ∧
      verified_bytes (sim_env 0 526336) img3 (slot_base 1) sc0 3 = 2548 := by
  obtain ⟨h0, h1, h2⟩ := img3_verified sc0
  have e1 : verified_bytes (sim_env 0 526336) img3 (slot_base 1) sc0 1 = 2048 := by
    rw [verified_bytes_succ, verified_bytes_zero, h0, img3_chunks.1, List.length_replicate]
    rfl
  have e2 : verified_bytes (sim_env 0 526336) img3 (slot_base 1) sc0 2 = 2048 := by
    rw [verified_bytes_succ, e1, h1]
    rfl
  refine ⟨e1, e2, ?_⟩
  rw [verified_bytes_succ, e2, h2, img3_chunks.2.2, List.length_replicate]
  rfl

theorem img3_crc (c : Int) (bad : Nat) :
    crc_of_chunks (sim_env c bad) 0 img3 1 = 2048 ∧
      crc_of_chunks (sim_env c bad) 0 img3 3 = 7644 := by
  have e1 : crc_of_chunks (sim_env c bad) 0 img3 1 = 2048 := by
    rw [crc_of_chunks_succ, crc_of_chunks_zero, img3_chunks.1, sim_crc]
  have e2 : crc_of_chunks (sim_env c bad) 0 img3 2 = 6144 := by
    rw [crc_of_chunks_succ, e1, img3_chunks.2.1, sim_crc]
  refine ⟨e1, ?_⟩
  rw [crc_of_chunks_succ, e2, img3_chunks.2.2, sim_crc]

/-! ## The running CRC and the written-bytes counter -/

/-- C20: in a first attempt on an image of more than one chunk, for any driver,
`totalwritebytes` is at every point at which the transfer can stop the sum of
the lengths of the verified chunks among the chunks transferred so far. When
the read of chunk `m` fails the call returns -1 with the sum over the chunks
before `m`; when no read fails the call ends in the reboot with the sum over
all chunks. A chunk is verified when its flash write succeeded and the bytes
read back into `check_buf` are the bytes supplied; a chunk that is not verified
adds nothing. -/
theorem C20_totalwritebytes_is_the_verified_sum (E : Env σ κ) (g : Globals σ κ)
    (hr : Ready g) (slot : Int) (img digest : List Nat)
    (hd : 40 ≤ digest.length) (hS : 2048 < img.length) (hS31 : img.length < 2147483648)
    (hmatch : ∀ i, i < 20 →
      byteAt (computed_sha1 E g img) i = byteAt (decoded_sha1 g digest) i)
    (fuel : Nat) (hfuel : img.length + 3 ≤ fuel) :
    (∀ m, m < num_chunks img.length →
      ∃ g', dfu_gecko_write_image E fuel g
          { slot_to_upgrade := slot, bin_file := some img, sha_file := some digest,
            bin_faults := [num_chunks img.length + 1 + m], sha_faults := [] } =
            some (g', Exit.returned (-1)) ∧
        g'.totalwritebytes = verified_bytes E img (slot_base slot) (g.flash, g.check_buf) m) ∧
    (∃ g', dfu_gecko_write_image E fuel g
        { slot_to_upgrade := slot, bin_file := some img, sha_file := some digest,
          bin_faults := [], sha_faults := [] } = some (g', Exit.rebooted) ∧
      g'.totalwritebytes =
        verified_bytes E img (slot_base slot) (g.flash, g.check_buf) (num_chunks img.length)) ∧
    (∀ m, verified_bytes E img (slot_base slot) (g.flash, g.check_buf) (m + 1) =
      verified_bytes E img (slot_base slot) (g.flash, g.check_buf) m +
        (if chunk_verified E img (slot_base slot) (g.flash, g.check_buf) m
         then ((chunk_at img m).length : Int) else 0)) ∧
    verified_bytes E img (slot_base slot) (g.flash, g.check_buf) 0 = 0 := by
  refine ⟨?_, ?_, fun m => verified_bytes_succ E img _ _ m, rfl⟩
  · intro m hm
    obtain ⟨g', hrun, htw, -⟩ :=
      run_tallied_fault E g hr slot img digest hd hS hS31 hmatch m hm fuel hfuel
    exact ⟨g', hrun, htw⟩
  · obtain ⟨g', hrun, htw, -⟩ := run_tallied E g hr slot img digest hd hS hS31 hmatch fuel hfuel
    exact ⟨g', hrun, htw⟩

/-- C20, at the image of 2048, 2048 and 500 bytes, slot 1 and a driver whose
readback of the second page delivers zeros: when the read of the third chunk
fails the call returns -1 with 2048 bytes counted, and without a failing read
the call ends in the reboot with 2048 + 500 bytes counted. -/
theorem C20_totalwritebytes_is_the_verified_sum_witness :
    (∃ g', dfu_gecko_write_image (sim_env 0 526336) 4600 (Globals.fresh [] ())
        { slot_to_upgrade := 1, bin_file := some img3, sha_file := some (digest_of_char 48),
          bin_faults := [6], sha_faults := [] } = some (g', Exit.returned (-1)) ∧
      g'.totalwritebytes = 2048) ∧
    (∃ g', dfu_gecko_write_image (sim_env 0 526336) 4600 (Globals.fresh [] ())
        { slot_to_upgrade := 1, bin_file := some img3, sha_file := some (digest_of_char 48),
          bin_faults := [], sha_faults := [] } = some (g', Exit.rebooted) ∧
      g'.totalwritebytes = 2548) := by
  have hn : num_chunks img3.length = 3 := by
    rw [img3_length]
    decide
  have h := C20_totalwritebytes_is_the_verified_sum (sim_env 0 526336) (Globals.fresh [] ())
    (ready_fresh _ _) 1 img3 (digest_of_char 48) (by decide) (by rw [img3_length]; omega)
    (by rw [img3_length]; omega) (sim_match _ _ _ _) 4600 (by rw [img3_length]; omega)
  obtain ⟨hfault, ⟨g2, hrun2, htw2⟩, -, -⟩ := h
  obtain ⟨g1, hrun1, htw1⟩ := hfault 2 (by rw [hn]; omega)
  rw [hn] at hrun1 htw2
  refine ⟨⟨g1, hrun1, ?_⟩, ⟨g2, hrun2, ?_⟩⟩
  · rw [htw1]
    exact (img3_verified_bytes _).2.1
  · rw [htw2]
    exact (img3_verified_bytes _).2.2

/-! ## A failing read in the size pass -/

/-- When read `k` of the size pass fails after `k` healthy reads,
`get_gecko_fw_size` returns `(uint32_t)-1`. The digest output is not touched:
`mbedtls_sha1_finish` is not reached. -/
theorem fw_size_loop_fault_at (E : Env σ κ) :
    ∀ (k fuel : Nat) (g : Globals σ κ),
      (∀ i, i < k → g.geckofile.calls + i ∉ g.geckofile.faults) →
      g.geckofile.calls + k ∈ g.geckofile.faults →
      k ≤ num_chunks (g.geckofile.data.drop g.geckofile.pos).length →
      k < fuel →
      ∃ g', get_gecko_fw_size_loop E fuel g = some (g', 4294967295) ∧
        g' = { g with geckofile := g'.geckofile, readbytes := g'.readbytes,
                      image_buffer := g'.image_buffer, totalreadbytes := g'.totalreadbytes,
                      gecko_sha1_ctx := g'.gecko_sha1_ctx } ∧
        g'.geckofile.data = g.geckofile.data ∧
        g'.geckofile.faults = g.geckofile.faults ∧
        g'.geckofile.calls = g.geckofile.calls + k + 1 := by
  intro k
  induction k with
  | zero =>
    intro fuel g _ hflt _ hfuel
    obtain ⟨fuel, rfl⟩ : ∃ f, fuel = f + 1 := ⟨fuel - 1, by omega⟩
    rw [Nat.add_zero] at hflt
    rw [get_gecko_fw_size_loop]
    unfold fs_read
    rw [if_pos hflt]
    dsimp only
    rw [if_pos (by decide)]
    exact ⟨_, rfl, rfl, rfl, rfl, rfl⟩
  | succ k ih =>
    intro fuel g hok hflt hk hfuel
    obtain ⟨fuel, rfl⟩ : ∃ f, fuel = f + 1 := ⟨fuel - 1, by omega⟩
    rw [get_gecko_fw_size_loop, fs_read_ok _ _ (hok 0 (Nat.succ_pos _))]
    have h0 : ¬ ((((g.geckofile.data.drop g.geckofile.pos).take DFU_XFER_SIZE_2K).length : Int)
        < 0) := by omega
    dsimp only
    rw [if_neg h0]
    simp only [take_store, Int.toNat_ofNat, DFU_XFER_SIZE_2K]
    have hb : (g.geckofile.data.drop g.geckofile.pos).take 2048 ≠ [] := by
      intro hb
      have := congrArg List.length hb
      simp only [List.length_take, List.length_nil] at this
      unfold num_chunks at hk
      omega
    have hpos : 0 < ((g.geckofile.data.drop g.geckofile.pos).take 2048).length :=
      List.length_pos.2 hb
    have hne : ¬ ((((g.geckofile.data.drop g.geckofile.pos).take 2048).length : Int) = 0) := by
      omega
    rw [if_neg hne]
    have hdrop : ∀ m, (g.geckofile.data.drop (g.geckofile.pos + m)) =
        (g.geckofile.data.drop g.geckofile.pos).drop m := fun m => by
      rw [List.drop_drop]
    have hnum : num_chunks ((g.geckofile.data.drop g.geckofile.pos).drop
          ((g.geckofile.data.drop g.geckofile.pos).take 2048).length).length + 1 =
        num_chunks (g.geckofile.data.drop g.geckofile.pos).length := by
      unfold num_chunks
      simp only [List.length_drop, List.length_take] at hpos ⊢
      omega
    obtain ⟨g', hrun, hfr, hdata, hfl, hcalls⟩ := ih fuel
      { g with
        geckofile := { g.geckofile with
          pos := g.geckofile.pos + ((g.geckofile.data.drop g.geckofile.pos).take 2048).length,
          calls := g.geckofile.calls + 1 },
        readbytes := (((g.geckofile.data.drop g.geckofile.pos).take 2048).length : Int),
        image_buffer :=
          store ((g.geckofile.data.drop g.geckofile.pos).take 2048) g.image_buffer,
        totalreadbytes := g.totalreadbytes +
          (((g.geckofile.data.drop g.geckofile.pos).take 2048).length : Int),
        gecko_sha1_ctx :=
          E.sha1_update g.gecko_sha1_ctx ((g.geckofile.data.drop g.geckofile.pos).take 2048) }
      (by
        intro i hi
        have := hok (i + 1) (by omega)
        show g.geckofile.calls + 1 + i ∉ g.geckofile.faults
        rw [show g.geckofile.calls + 1 + i = g.geckofile.calls + (i + 1) by omega]
        exact this)
      (by
        show g.geckofile.calls + 1 + k ∈ g.geckofile.faults
        rw [show g.geckofile.calls + 1 + k = g.geckofile.calls + (k + 1) by omega]
        exact hflt)
      (by
        dsimp only
        rw [hdrop]
        omega)
      (by omega)
    dsimp only at hrun hfr hdata hfl hcalls
    refine ⟨g', hrun, hfr, hdata, hfl, ?_⟩
    rw [hcalls]
    omega

/-- The body of `case GECKO_FW_UPGRADE:` when read `k` of the size pass fails:
the value `(uint32_t)-1` passes the size check, and when the digest decoded
from the digest file equals the bytes that `gecko_sha1_output` still holds the
chunk loop is entered, without a flash call so far. -/
theorem case_unmeasured (E : Env σ κ) (slot0 : Int) (img digest : List Nat)
    (g : Globals σ κ) (k : Nat)
    (hfd : g.geckofile.data = img) (hfp : g.geckofile.pos = 0)
    (hok : ∀ i, i < k → g.geckofile.calls + i ∉ g.geckofile.faults)
    (hflt : g.geckofile.calls + k ∈ g.geckofile.faults)
    (hk : k ≤ num_chunks img.length)
    (hsd : g.gecko_sha1_file.data = digest) (hsp : g.gecko_sha1_file.pos = 0)
    (hsf : g.gecko_sha1_file.calls ∉ g.gecko_sha1_file.faults)
    (hd : 40 ≤ digest.length)
    (hstale : ∀ i, i < 20 →
      byteAt g.gecko_sha1_output i =
        byteAt (sha_hex_to_bin (store (digest.take 40) g.gecko_expected_sha1)
          g.gecko_expected_sha1_final 40) i)
    (fuel : Nat) (hfuel : k < fuel) :
    ∃ G0, case_GECKO_FW_UPGRADE E slot0 fuel g = chunk_loop E fuel G0 ∧
      Unmeasured img k g G0 := by
  obtain ⟨g2, hrun, hfr, hd2, hf2, hc2⟩ :=
    fw_size_loop_fault_at E k fuel { g with totalreadbytes := 0 } hok hflt
      (by
        dsimp only
        rw [hfp, hfd, List.drop_zero]
        exact hk)
      hfuel
  obtain ⟨f2, rb, b, t, cx, rfl⟩ : ∃ f rb b t cx, g2 =
      { g with geckofile := f, readbytes := rb, image_buffer := b, totalreadbytes := t,
               gecko_sha1_ctx := cx } := ⟨_, _, _, _, _, hfr⟩
  clear hfr
  have ho2 := fw_size_loop_opened E _ _ _ hrun
  dsimp only at hrun hd2 hf2 hc2 ho2
  have hlen40 : ((g.gecko_sha1_file.data.drop g.gecko_sha1_file.pos).take 40).length = 40 := by
    rw [hsp, hsd, List.drop_zero, List.length_take]
    omega
  have hnosmall : ¬ (4294967295 = 0 ∨ 4294967295 < DFU_CHUNK_SIZE) := by
    unfold DFU_CHUNK_SIZE
    omega
  have hcmp : ¬ ∃ i, i < 20 ∧ byteAt g.gecko_sha1_output i ≠
      byteAt (sha_hex_to_bin
        (store ((g.gecko_sha1_file.data.drop g.gecko_sha1_file.pos).take 40) g.gecko_expected_sha1)
        g.gecko_expected_sha1_final 40) i := by
    rintro ⟨i, hi, hne⟩
    apply hne
    rw [hsp, hsd, List.drop_zero]
    exact hstale i hi
  have hmod : 4294967295 % DFU_CHUNK_SIZE ≠ 0 := by decide
  have hfile : fs_seek f2 0 =
      { data := img, pos := 0, calls := g.geckofile.calls + k + 1,
        faults := g.geckofile.faults, opened := g.geckofile.opened } := by
    unfold fs_seek
    rw [hd2, hfd, hf2, hc2, ho2]
  unfold case_GECKO_FW_UPGRADE get_gecko_fw_size
  rw [hrun]
  dsimp only
  have hs := get_gecko_sha1_ok
    ({ g with geckofile := f2, readbytes := rb, image_buffer := b, totalreadbytes := t,
              gecko_sha1_ctx := cx, fw_image_size := 4294967295 } :
      Globals σ κ) hsf hlen40
  dsimp only at hs
  rw [if_neg hnosmall, hs]
  dsimp only
  rw [if_neg (by decide), compare_sha1_eq]
  dsimp only
  rw [if_neg hcmp, if_neg (by decide), if_pos hmod]
  refine ⟨_, rfl, ?_⟩
  exact
    { geckofile := hfile, readbytes := rfl, chunk_check := rfl, fw_image_size := rfl,
      state := rfl, chunk_cnt := rfl, offset := rfl, status := rfl, page := rfl, flash := rfl,
      flash_log := rfl, req_slot := rfl, done := rfl }

/-! ## The chunk loop when `fw_image_size` is `(uint32_t)-1` -/

theorem frf_rc_ok (E : Env σ κ) (g : Globals σ κ)
    (hok : g.geckofile.calls ∉ g.geckofile.faults) : (file_read_flash E g).2 = 0 := by
  rw [frf_eq_ok E g hok]

theorem frf_status_ok (E : Env σ κ) (g : Globals σ κ)
    (hok : g.geckofile.calls ∉ g.geckofile.faults) : (file_read_flash E g).1.status = 0 := by
  rw [frf_eq_ok E g hok]

theorem frf_geckofile_ok (E : Env σ κ) (g : Globals σ κ)
    (hok : g.geckofile.calls ∉ g.geckofile.faults) :
    (file_read_flash E g).1.geckofile = (after_fs_read g).geckofile := by
  rw [frf_eq_ok E g hok]
  dsimp only
  split_ifs <;> simp only [wicf_geckofile]

theorem frf_readbytes_ok (E : Env σ κ) (g : Globals σ κ)
    (hok : g.geckofile.calls ∉ g.geckofile.faults) :
    (file_read_flash E g).1.readbytes = ((next_chunk g.geckofile).length : Int) := by
  rw [frf_eq_ok E g hok]
  dsimp only
  split_ifs <;> first | rfl | (simp only [wicf_readbytes]; rfl)

theorem frf_eof_ok (E : Env σ κ) (g : Globals σ κ)
    (hok : g.geckofile.calls ∉ g.geckofile.faults)
    (hb : (next_chunk g.geckofile).length = 0) :
    file_read_flash E g = ({ after_fs_read g with status := 0 }, 0) := by
  rw [frf_eq_ok E g hok, if_neg (by omega)]

theorem frf_flash_log_ops_ok (E : Env σ κ) (c : Int)
    (hc : ∀ s a d, (E.flash_write s a d).2 = c)
    (g : Globals σ κ) (hok : g.geckofile.calls ∉ g.geckofile.faults)
    (hb : 0 < (next_chunk g.geckofile).length) :
    (file_read_flash E g).1.flash_log =
      g.flash_log ++
        chunk_ops c ((slot_base g.requested_slot_to_upgrade + g.page * 2048) % 4294967296)
          ((store (next_chunk g.geckofile) g.image_buffer).take 2048)
          (next_chunk g.geckofile).length := by
  rw [frf_eq_ok E g hok]
  dsimp only
  rw [if_pos hb]
  dsimp only
  rw [wicf_flash_log_incr, hc]
  simp only [Int.toNat_ofNat]
  rfl

theorem store_padded (img : List Nat) (k : Nat) :
    (store (chunk_at img k) (List.replicate 2048 0)).take 2048 = padded_page img k := by
  have hl : (chunk_at img k).length ≤ 2048 := by
    unfold chunk_at
    rw [List.length_take]
    omega
  unfold store padded_page
  rw [List.drop_replicate]
  apply List.take_of_length_le
  rw [List.length_append, List.length_replicate]
  omega

/-- One pass of the chunk loop that is not the last one, with `fw_image_size`
at `(uint32_t)-1`: the next chunk is read and handed to the driver, or the read
finds the end of the file and nothing is handed to the driver. -/
theorem atRead_step (E : Env σ κ) (c : Int) (hc : ∀ s a d, (E.flash_write s a d).2 = c)
    (img : List Nat) (slot : Int) (L0 : List FlashOp) (j : Nat) (g : Globals σ κ)
    (h : AtRead c img slot L0 j g) (hS : img.length < 2147483648)
    (hj : j + 2 < 2097152) (fuel : Nat) :
    chunk_loop E (fuel + 1) g = chunk_loop E fuel (chunk_loop_advance (file_read_flash E g).1) ∧
      AtRead c img slot L0 (j + 1) (chunk_loop_advance (file_read_flash E g).1) := by
  have hok : g.geckofile.calls ∉ g.geckofile.faults :=
    fun hmem => lt_irrefl _ (h.healthy _ hmem)
  have hsb := slot_base_le slot
  have hnc : next_chunk g.geckofile = (img.drop (min (j * 2048) img.length)).take 2048 := by
    unfold next_chunk
    rw [h.data, h.pos]
  have hgf := frf_geckofile_ok E g hok
  have hrb := frf_readbytes_ok E g hok
  have hlen : (next_chunk g.geckofile).length = min ((j + 1) * 2048) img.length -
      min (j * 2048) img.length := by
    rw [hnc, List.length_take, List.length_drop]
    omega
  have hpl : (file_read_flash E g).1.page = min (j + 1) (num_chunks img.length) ∧
      (file_read_flash E g).1.flash_log =
        L0 ++ padded_ops c img (slot_base slot) (min (j + 1) (num_chunks img.length)) := by
    by_cases hcase : j * 2048 < img.length
    · have hmin : min (j * 2048) img.length = j * 2048 := by omega
      have hjn : min j (num_chunks img.length) = j := by
        unfold num_chunks
        omega
      have hjn1 : min (j + 1) (num_chunks img.length) = j + 1 := by
        unfold num_chunks
        omega
      have hnc' : next_chunk g.geckofile = chunk_at img j := by
        rw [hnc, hmin]
        rfl
      have hb : 0 < (next_chunk g.geckofile).length := by
        rw [hlen]
        omega
      obtain ⟨-, hd⟩ := frf_ok E g hok hb
      refine ⟨?_, ?_⟩
      · rw [hd.page, h.page, hjn, hjn1]
        omega
      · rw [frf_flash_log_ops_ok E c hc g hok hb, h.log, h.req_slot, h.page, hjn, hjn1, hnc',
          h.image_buffer, store_padded, Nat.mod_eq_of_lt (by omega), List.append_assoc]
        rfl
    · have hjn : min j (num_chunks img.length) = num_chunks img.length := by
        unfold num_chunks
        omega
      have hjn1 : min (j + 1) (num_chunks img.length) = num_chunks img.length := by
        unfold num_chunks
        omega
      have hb : (next_chunk g.geckofile).length = 0 := by
        rw [hlen]
        omega
      rw [frf_eof_ok E g hok hb, hjn1]
      refine ⟨?_, ?_⟩
      · show g.page = _
        rw [h.page, hjn]
      · show g.flash_log = _
        rw [h.log, hjn]
  refine ⟨chunk_loop_mid_ok E fuel g ?_ ?_ ?_ (frf_rc_ok E g hok) (frf_status_ok E g hok), ?_⟩
  · rw [h.chunk_cnt]
    omega
  · rw [h.chunk_cnt, h.chunk_check]
    omega
  · rw [h.offset, h.fw_image_size]
    omega
  refine
    { data := ?_, healthy := ?_, pos := ?_, offset := ?_, chunk_cnt := ?_, chunk_check := ?_,
      fw_image_size := ?_, page := hpl.1, image_buffer := rfl, req_slot := ?_, log := hpl.2,
      done := ?_ }
  · show (file_read_flash E g).1.geckofile.data = img
    rw [hgf]
    exact h.data
  · intro k hk
    have hk' : k ∈ g.geckofile.faults := by
      have : k ∈ (file_read_flash E g).1.geckofile.faults := hk
      rw [hgf] at this
      exact this
    show k < (file_read_flash E g).1.geckofile.calls
    rw [hgf]
    show k < g.geckofile.calls + 1
    have := h.healthy k hk'
    omega
  · show (file_read_flash E g).1.geckofile.pos = _
    rw [hgf]
    show g.geckofile.pos + (next_chunk g.geckofile).length = _
    rw [h.pos, hlen]
    omega
  · show to_uint32 (((file_read_flash E g).1.offset : Int) + (file_read_flash E g).1.readbytes) = _
    rw [frf_offset, hrb, h.offset, hlen]
    unfold to_uint32
    omega
  · show ((file_read_flash E g).1.chunk_cnt + 1) % 4294967296 = _
    rw [frf_chunk_cnt, h.chunk_cnt]
    omega
  · show (file_read_flash E g).1.chunk_check = _
    rw [frf_chunk_check, h.chunk_check]
  · show (file_read_flash E g).1.fw_image_size = _
    rw [frf_fw_image_size, h.fw_image_size]
  · show (file_read_flash E g).1.requested_slot_to_upgrade = _
    rw [frf_requested_slot_to_upgrade, h.req_slot]
  · show (file_read_flash E g).1.fw_upgrade_done = _
    rw [frf_fw_upgrade_done, h.done]

/-- The last pass, `chunk_cnt = chunk_check - 1`, with `fw_image_size` at
`(uint32_t)-1`: both reads find the end of the file and the loop is left with
`GECKO_FW_UPGRADE_DONE` set. -/
theorem atRead_last (E : Env σ κ) (c : Int) (img : List Nat) (slot : Int)
    (L0 : List FlashOp) (j : Nat) (g : Globals σ κ)
    (h : AtRead c img slot L0 j g) (hj : j + 2 = 2097152) (heof : img.length ≤ j * 2048)
    (fuel : Nat) :
    ∃ g', chunk_loop E (fuel + 1) g = some (g', none) ∧
      g'.state = gecko_app_state.GECKO_FW_UPGRADE_DONE ∧
      g'.fw_image_size = 4294967295 ∧ g'.fw_upgrade_done = 0 ∧
      g'.flash_log = L0 ++ padded_ops c img (slot_base slot) (num_chunks img.length) := by
  have hok : g.geckofile.calls ∉ g.geckofile.faults :=
    fun hmem => lt_irrefl _ (h.healthy _ hmem)
  have hjn : min j (num_chunks img.length) = num_chunks img.length := by
    unfold num_chunks
    omega
  have hb : (next_chunk g.geckofile).length = 0 := by
    unfold next_chunk
    rw [h.data, h.pos, List.length_take, List.length_drop]
    omega
  have h1 := frf_eof_ok E g hok hb
  have hok1 : (file_read_flash E g).1.geckofile.calls ∉
      (file_read_flash E g).1.geckofile.faults := by
    rw [h1]
    intro hmem
    have := h.healthy _ hmem
    have hlt : g.geckofile.calls + 1 < g.geckofile.calls := this
    omega
  have hb1 : (next_chunk (file_read_flash E g).1.geckofile).length = 0 := by
    rw [h1]
    show (next_chunk { g.geckofile with
      pos := g.geckofile.pos + (next_chunk g.geckofile).length,
      calls := g.geckofile.calls + 1 }).length = 0
    unfold next_chunk
    dsimp only
    rw [h.data, h.pos, List.length_take, List.length_drop]
    omega
  have h2 := frf_eof_ok E (file_read_flash E g).1 hok1 hb1
  refine ⟨_, chunk_loop_last_ok E fuel g ?_ ?_ ?_ (frf_rc_ok E g hok)
    (frf_rc_ok E _ hok1) (frf_status_ok E _ hok1), rfl, ?_, ?_, ?_⟩
  · rw [h.chunk_cnt]
    omega
  · rw [h.chunk_cnt, h.chunk_check]
    omega
  · rw [h.offset, h.fw_image_size]
    omega
  · show (file_read_flash E (file_read_flash E g).1).1.fw_image_size = _
    rw [frf_fw_image_size, frf_fw_image_size, h.fw_image_size]
  · show (file_read_flash E (file_read_flash E g).1).1.fw_upgrade_done = _
    rw [frf_fw_upgrade_done, frf_fw_upgrade_done, h.done]
  · show (file_read_flash E (file_read_flash E g).1).1.flash_log = _
    rw [h2]
    show (file_read_flash E g).1.flash_log = _
    rw [h1]
    show g.flash_log = _
    rw [h.log, hjn]

/-- The chunk loop with `fw_image_size` at `(uint32_t)-1` runs through all
`chunk_check` passes: it transfers every chunk of the image, reads at the end
of the file for the remaining passes, and sets `GECKO_FW_UPGRADE_DONE`. -/
theorem chunk_loop_unmeasured (E : Env σ κ) (c : Int)
    (hc : ∀ s a d, (E.flash_write s a d).2 = c)
    (img : List Nat) (slot : Int) (L0 : List FlashOp) (hS : img.length < 2147483648) :
    ∀ (d j fuel : Nat) (g : Globals σ κ), AtRead c img slot L0 j g →
      j + d + 2 = 2097152 → img.length ≤ (j + d) * 2048 →
      ∃ g', chunk_loop E (fuel + d + 1) g = some (g', none) ∧
        g'.state = gecko_app_state.GECKO_FW_UPGRADE_DONE ∧
        g'.fw_image_size = 4294967295 ∧ g'.fw_upgrade_done = 0 ∧
        g'.flash_log = L0 ++ padded_ops c img (slot_base slot) (num_chunks img.length) := by
  intro d
  induction d with
  | zero =>
    intro j fuel g h hj heof
    exact atRead_last E c img slot L0 j g h hj heof fuel
  | succ d ih =>
    intro j fuel g h hj heof
    obtain ⟨hrun, hstep⟩ := atRead_step E c hc img slot L0 j g h hS (by omega) (fuel + d + 1)
    rw [show fuel + (d + 1) + 1 = fuel + d + 1 + 1 by omega, hrun]
    exact ih (j + 1) fuel _ hstep (by omega) (by
      rw [show j + 1 + d = j + (d + 1) by omega]
      exact heof)

theorem atRead_of_unmeasured (c : Int) (img : List Nat) (slot : Int) (k : Nat)
    (g G0 : Globals σ κ) (h : Unmeasured img k g G0)
    (hflt : ∀ x ∈ g.geckofile.faults, x < g.geckofile.calls + k + 1)
    (hcc : g.chunk_cnt = 0) (hoff : g.offset = 0) (hpage : g.page = 0)
    (hslot : g.requested_slot_to_upgrade = slot) (hdone : g.fw_upgrade_done = 0) :
    AtRead c img slot g.flash_log 0 (chunk_loop_advance G0) := by
  refine
    { data := ?_, healthy := ?_, pos := ?_, offset := ?_, chunk_cnt := ?_,
      chunk_check := h.chunk_check, fw_image_size := h.fw_image_size, page := ?_,
      image_buffer := rfl, req_slot := ?_, log := ?_, done := ?_ }
  · show G0.geckofile.data = img
    rw [h.geckofile]
  · show ∀ x ∈ G0.geckofile.faults, x < G0.geckofile.calls
    rw [h.geckofile]
    exact hflt
  · show G0.geckofile.pos = _
    rw [h.geckofile, Nat.zero_mul, Nat.zero_min]
  · show to_uint32 ((G0.offset : Int) + G0.readbytes) = _
    rw [h.offset, hoff, h.readbytes, Nat.zero_mul, Nat.zero_min]
    rfl
  · show (G0.chunk_cnt + 1) % 4294967296 = 0 + 1
    rw [h.chunk_cnt, hcc]
  · show G0.page = _
    rw [h.page, hpage, Nat.zero_min]
  · show G0.requested_slot_to_upgrade = slot
    rw [h.req_slot, hslot]
  · show G0.flash_log = _
    rw [h.flash_log, Nat.zero_min]
    show g.flash_log = g.flash_log ++ []
    rw [List.append_nil]
  · show G0.fw_upgrade_done = 0
    rw [h.done, hdone]

/-- A first attempt in which read `k` of the size pass fails while the digest
file decodes to twenty zero bytes, the content of the cleared
`gecko_sha1_output`: the call is not aborted. Every chunk of the image is
erased, written and read back, and the call ends in the reboot. -/
theorem run_unmeasured (E : Env σ κ) (c : Int) (hc : ∀ s a d, (E.flash_write s a d).2 = c)
    (g : Globals σ κ) (hr : Ready g) (slot : Int) (img digest : List Nat) (k : Nat)
    (hk : k ≤ num_chunks img.length)
    (hd : 40 ≤ digest.length) (hS31 : img.length < 2147483648)
    (hzero : ∀ i, i < 20 →
      byteAt (List.replicate 20 0) i = byteAt (decoded_sha1 g digest) i)
    (fuel : Nat) (hfuel : 2097153 ≤ fuel) :
    ∃ g', dfu_gecko_write_image E fuel g
        { slot_to_upgrade := slot, bin_file := some img, sha_file := some digest,
          bin_faults := [k], sha_faults := [] } = some (g', Exit.rebooted) ∧
      g'.state = gecko_app_state.GECKO_FW_UPGRADE_DONE ∧
      g'.fw_image_size = 4294967295 ∧
      g'.flash_log =
        g.flash_log ++ padded_ops c img (slot_base slot) (num_chunks img.length) := by
  have hnk : num_chunks img.length ≤ 1048576 := by
    unfold num_chunks
    omega
  obtain ⟨y, hy⟩ : ∃ y, y = 2097150 := ⟨_, rfl⟩
  obtain ⟨x, rfl⟩ : ∃ x, fuel = x + y + 1 + 1 + 1 := ⟨fuel - y - 3, by omega⟩
  rw [dfu_enter E _ g _ img digest rfl rfl hr.bin_closed hr.sha_closed,
    upgrade_loop_initial E _ _ _ (by exact hr.done) (by exact hr.state)]
  obtain ⟨G0, hrun, hun⟩ := case_unmeasured E slot img digest
    (case_GECKO_INITIAL_STATE E (entered g
      { slot_to_upgrade := slot, bin_file := some img, sha_file := some digest,
        bin_faults := [k], sha_faults := [] } img digest)) k
    rfl rfl
    (by
      intro i hi hmem
      have hmem' : 0 + i ∈ [k] := hmem
      rw [List.mem_singleton] at hmem'
      omega)
    (by
      show 0 + k ∈ [k]
      rw [List.mem_singleton]
      omega)
    hk rfl rfl (by simp [case_GECKO_INITIAL_STATE, entered]) hd
    (by
      intro i hi
      have := hzero i hi
      simp only [decoded_sha1, DFU_SHA1_LEN] at this
      exact this)
    (x + y + 1 + 1) (by omega)
  have hat := atRead_of_unmeasured c img slot k _ G0 hun
    (by
      intro z hz
      have hz' : z ∈ [k] := hz
      rw [List.mem_singleton] at hz'
      show z < 0 + k + 1
      omega)
    (by exact hr.chunk_cnt) (by exact hr.offset) rfl rfl (by exact hr.done)
  obtain ⟨g3, hrun3, hs3, hsz3, hdone3, hlog3⟩ := chunk_loop_unmeasured E c hc img slot _ hS31
    y 0 x _ hat (by omega) (by omega)
  rw [hrun, chunk_loop_first E (x + y + 1) G0 (by rw [hun.chunk_cnt]; exact hr.chunk_cnt)
    (by rw [hun.status]; exact hr.status)
    (by
      rw [hun.offset, hun.fw_image_size]
      show g.offset ≤ 4294967295
      rw [hr.offset]
      omega), hrun3]
  dsimp only
  rw [upgrade_loop_done_state E slot (x + y + 1) g3 hdone3 hs3]
  exact ⟨_, rfl, hs3, hsz3, hlog3⟩

/-- The body of `case GECKO_FW_UPGRADE:` when read `k` of the size pass fails
and the digest file cannot be read, is too short, or decodes to bytes that
differ from the content of `gecko_sha1_output`: `return -1` before any flash
call. -/
theorem case_unmeasured_abort (E : Env σ κ) (slot0 : Int) (g : Globals σ κ) (k : Nat)
    (hok : ∀ i, i < k → g.geckofile.calls + i ∉ g.geckofile.faults)
    (hflt : g.geckofile.calls + k ∈ g.geckofile.faults)
    (hk : k ≤ num_chunks (g.geckofile.data.drop g.geckofile.pos).length)
    (hmis : ∃ i, i < 20 ∧
      byteAt g.gecko_sha1_output i ≠
        byteAt (sha_hex_to_bin
          (store ((g.gecko_sha1_file.data.drop g.gecko_sha1_file.pos).take (DFU_SHA1_LEN * 2))
            g.gecko_expected_sha1)
          g.gecko_expected_sha1_final (DFU_SHA1_LEN * 2)) i)
    (fuel : Nat) (hfuel : k < fuel) :
    ∃ g', case_GECKO_FW_UPGRADE E slot0 fuel g = some (g', some (-1)) ∧
      g'.flash_log = g.flash_log ∧ g'.flash = g.flash := by
  obtain ⟨g2, hrun, hfr, -, -, -⟩ :=
    fw_size_loop_fault_at E k fuel { g with totalreadbytes := 0 } hok hflt hk hfuel
  obtain ⟨f2, rb, b, t, cx, rfl⟩ : ∃ f rb b t cx, g2 =
      { g with geckofile := f, readbytes := rb, image_buffer := b, totalreadbytes := t,
               gecko_sha1_ctx := cx } := ⟨_, _, _, _, _, hfr⟩
  clear hfr
  obtain ⟨G2, hG2⟩ : ∃ G2 : Globals σ κ, G2 =
      { g with geckofile := f2, readbytes := rb, image_buffer := b, totalreadbytes := t,
               gecko_sha1_ctx := cx, fw_image_size := 4294967295 } := ⟨_, rfl⟩
  obtain ⟨hor, hfr2⟩ := get_gecko_sha1_spec G2
  have hG2out : G2.gecko_sha1_output = g.gecko_sha1_output := by rw [hG2]
  have hG2e : G2.gecko_expected_sha1 = g.gecko_expected_sha1 := by rw [hG2]
  have hG2f : G2.gecko_expected_sha1_final = g.gecko_expected_sha1_final := by rw [hG2]
  have hG2s : G2.gecko_sha1_file = g.gecko_sha1_file := by rw [hG2]
  have key : (get_gecko_sha1 G2).2 ≠ 0 ∨ compare_sha1 (get_gecko_sha1 G2).1 slot0 ≠ 0 := by
    rcases hor with h1 | ⟨-, hfin⟩
    · left
      rw [h1]
      decide
    · right
      rw [compare_sha1_eq, if_pos]
      · decide
      · obtain ⟨i, hi, hne⟩ := hmis
        refine ⟨i, hi, ?_⟩
        rw [hfin, hfr2]
        dsimp only
        rw [hG2out, hG2e, hG2f, hG2s]
        exact hne
  have hlog2 : (get_gecko_sha1 G2).1.flash_log = g.flash_log := by rw [hfr2, hG2]
  have hfl2 : (get_gecko_sha1 G2).1.flash = g.flash := by rw [hfr2, hG2]
  clear hfr2 hor
  rw [hG2] at key hlog2 hfl2
  have hnosmall : ¬ (4294967295 = 0 ∨ 4294967295 < DFU_CHUNK_SIZE) := by
    unfold DFU_CHUNK_SIZE
    omega
  unfold case_GECKO_FW_UPGRADE get_gecko_fw_size
  rw [hrun]
  dsimp only
  rw [if_neg hnosmall]
  split_ifs with hrc hcmp
  · exact ⟨_, rfl, hlog2, hfl2⟩
  · exact ⟨_, rfl, hlog2, hfl2⟩
  all_goals
    exfalso
    rcases key with k | k
    · exact hrc k
    · exact hcmp k

/-- A first attempt in which read `k` of the size pass fails and the digest
file decodes to bytes that are not all zero: the call returns -1 without a
flash call. -/
theorem run_unmeasured_abort (E : Env σ κ) (g : Globals σ κ) (hr : Ready g) (slot : Int)
    (img digest : List Nat) (sha_faults : List Nat) (k : Nat)
    (hk : k ≤ num_chunks img.length)
    (hmis : ∃ i, i < 20 ∧
      byteAt (List.replicate 20 0) i ≠ byteAt (decoded_sha1 g digest) i)
    (fuel : Nat) (hfuel : k + 2 ≤ fuel) :
    ∃ g', dfu_gecko_write_image E fuel g
        { slot_to_upgrade := slot, bin_file := some img, sha_file := some digest,
          bin_faults := [k], sha_faults := sha_faults } = some (g', Exit.returned (-1)) ∧
      g'.flash_log = g.flash_log ∧ g'.flash = g.flash := by
  obtain ⟨fuel, rfl⟩ : ∃ f, fuel = f + 1 := ⟨fuel - 1, by omega⟩
  rw [dfu_enter E _ g _ img digest rfl rfl hr.bin_closed hr.sha_closed,
    upgrade_loop_initial E _ _ _ (by exact hr.done) (by exact hr.state)]
  obtain ⟨g1, hrun, hlog, hfl⟩ := case_unmeasured_abort E slot
    (case_GECKO_INITIAL_STATE E (entered g
      { slot_to_upgrade := slot, bin_file := some img, sha_file := some digest,
        bin_faults := [k], sha_faults := sha_faults } img digest)) k
    (by
      intro i hi hmem
      have hmem' : 0 + i ∈ [k] := hmem
      rw [List.mem_singleton] at hmem'
      omega)
    (by
      show 0 + k ∈ [k]
      rw [List.mem_singleton]
      omega)
    (by
      show k ≤ num_chunks (img.drop 0).length
      rw [List.drop_zero]
      exact hk)
    (by
      obtain ⟨i, hi, hne⟩ := hmis
      refine ⟨i, hi, ?_⟩
      simp only [decoded_sha1] at hne
      exact hne)
    fuel (by omega)
  rw [hrun]
  exact ⟨g1, rfl, hlog, hfl⟩

theorem img3_padded :
    padded_page img3 0 = List.replicate 2048 1 ∧ padded_page img3 1 = List.replicate 2048 2 ∧
      padded_page img3 2 = List.replicate 500 3 ++ List.replicate 1548 0 := by
  unfold padded_page
  rw [img3_chunks.1, img3_chunks.2.1, img3_chunks.2.2, List.length_replicate,
    List.length_replicate, List.length_replicate, Nat.sub_self, List.replicate_zero,
    List.append_nil, List.append_nil]
  exact ⟨rfl, rfl, rfl⟩

/-! ## A failing read in the size pass: the claim -/

/-- C21 fails on the code: the `-1` that `get_gecko_fw_size` returns after a
failed read becomes 4294967295 in the `uint32_t` variable `fw_image_size`,
which is neither zero nor smaller than one chunk, so the size check does not
abort. `gecko_sha1_output` still holds the zeros of the `memset`, and a digest
file of forty characters `0` decodes to the same twenty zero bytes. With the
three-chunk image, the first read failing and that digest file, the call is
not aborted: the three pages are erased, written and read back, the remaining
passes read at the end of the file, and the call ends in the reboot. -/
theorem C21_failed_size_read_does_not_abort :
    (fs_read { data := img3, pos := 0, calls := 0, faults := [0], opened := true }
      DFU_XFER_SIZE_2K).2.1 = -5 ∧
    to_uint32 (-1) = 4294967295 ∧
    ∃ g', dfu_gecko_write_image (sim_env 0 0) 2097153 (Globals.fresh [] ())
        { slot_to_upgrade := 1, bin_file := some img3,
          sha_file := some (digest_of_char 48), bin_faults := [0], sha_faults := [] } =
          some (g', Exit.rebooted) ∧
      g'.state = gecko_app_state.GECKO_FW_UPGRADE_DONE ∧
      g'.fw_image_size = 4294967295 ∧
      g'.flash_log =
        [FlashOp.erase 524288 2048, FlashOp.write 524288 (List.replicate 2048 1),
         FlashOp.read 524288 2048,
         FlashOp.erase 526336 2048, FlashOp.write 526336 (List.replicate 2048 2),
         FlashOp.read 526336 2048,
         FlashOp.erase 528384 2048,
         FlashOp.write 528384 (List.replicate 500 3 ++ List.replicate 1548 0),
         FlashOp.read 528384 500] := by
  refine ⟨rfl, by decide, ?_⟩
  obtain ⟨g', hrun, hs, hsz, hlog⟩ := run_unmeasured (sim_env 0 0) 0 (fun _ _ _ => rfl)
    (Globals.fresh [] ()) (ready_fresh _ _) 1 img3 (digest_of_char 48) 0 (Nat.zero_le _)
    (by decide) (by rw [img3_length]; omega)
    (by
      intro i _
      rw [decoded_sha1_zero])
    2097153 (le_refl _)
  refine ⟨g', hrun, hs, hsz, ?_⟩
  rw [hlog, img3_length, show num_chunks 4596 = 3 by decide]
  simp only [padded_ops, img3_padded.1, img3_padded.2.1, img3_padded.2.2, img3_chunks.1,
    img3_chunks.2.1, img3_chunks.2.2, List.length_replicate, List.nil_append]
  rfl

/-! ## What every call leaves of the file handle and of `fw_upgrade_done` -/

theorem frf_opened (E : Env σ κ) (g : Globals σ κ) :
    (file_read_flash E g).1.geckofile.opened = g.geckofile.opened := by
  unfold file_read_flash
  dsimp only
  split_ifs <;> simp only [wicf_geckofile] <;> exact fs_read_opened _ _

/-- The size pass, whatever reads fail: it touches the image file, the read
counters, `image_buffer` and the digest context and output only, it keeps the
content of the file, and it returns `(uint32_t)-1` or the number of bytes that
were left. -/
theorem fw_size_loop_any (E : Env σ κ) :
    ∀ (fuel : Nat) (g : Globals σ κ) (r : Globals σ κ × Nat),
      get_gecko_fw_size_loop E fuel g = some r →
      r.1 = { g with geckofile := r.1.geckofile, readbytes := r.1.readbytes,
                     image_buffer := r.1.image_buffer, totalreadbytes := r.1.totalreadbytes,
                     gecko_sha1_ctx := r.1.gecko_sha1_ctx,
                     gecko_sha1_output := r.1.gecko_sha1_output } ∧
        r.1.geckofile.data = g.geckofile.data ∧
        (r.2 = 4294967295 ∨
          r.2 = to_uint32 (g.totalreadbytes +
            ((g.geckofile.data.drop g.geckofile.pos).length : Int))) := by
  intro fuel
  induction fuel with
  | zero => intro g r h; simp [get_gecko_fw_size_loop] at h
  | succ fuel ih =>
    intro g r h
    rw [get_gecko_fw_size_loop] at h
    by_cases hflt : g.geckofile.calls ∈ g.geckofile.faults
    · unfold fs_read at h
      rw [if_pos hflt] at h
      dsimp only at h
      rw [if_pos (by decide)] at h
      injection h with h
      subst h
      exact ⟨rfl, rfl, Or.inl rfl⟩
    · rw [fs_read_ok _ _ hflt] at h
      have h0 : ¬ ((((g.geckofile.data.drop g.geckofile.pos).take DFU_XFER_SIZE_2K).length :
          Int) < 0) := by omega
      dsimp only at h
      rw [if_neg h0] at h
      simp only [take_store, Int.toNat_ofNat, DFU_XFER_SIZE_2K] at h
      by_cases hb : (g.geckofile.data.drop g.geckofile.pos).take 2048 = []
      · have hlen0 : (g.geckofile.data.drop g.geckofile.pos).length = 0 := by
          have := congrArg List.length hb
          simp only [List.length_take, List.length_nil] at this
          omega
        simp only [hb, List.length_nil, Nat.cast_zero, if_true, add_zero, store_nil] at h
        injection h with h
        subst h
        refine ⟨rfl, rfl, Or.inr ?_⟩
        rw [hlen0, Nat.cast_zero, add_zero]
      · have hpos : 0 < ((g.geckofile.data.drop g.geckofile.pos).take 2048).length :=
          List.length_pos.2 hb
        have hne : ¬ ((((g.geckofile.data.drop g.geckofile.pos).take 2048).length : Int) = 0) := by
          omega
        rw [if_neg hne] at h
        obtain ⟨hfr, hdata, hz⟩ := ih _ _ h
        dsimp only at hfr hdata hz
        have hlens : ((g.geckofile.data.drop g.geckofile.pos).take 2048).length +
            (g.geckofile.data.drop (g.geckofile.pos +
              ((g.geckofile.data.drop g.geckofile.pos).take 2048).length)).length =
            (g.geckofile.data.drop g.geckofile.pos).length := by
          simp only [List.length_drop, List.length_take]
          omega
        refine ⟨?_, hdata, ?_⟩
        · rw [hfr]
        · rcases hz with hz | hz
          · exact Or.inl hz
          · right
            rw [hz, ← hlens]
            congr 1
            push_cast
            ring

theorem chunk_loop_frame (E : Env σ κ) :
    ∀ (fuel : Nat) (g : Globals σ κ) (r : Globals σ κ × Option Int),
      chunk_loop E fuel g = some r →
      r.1.fw_upgrade_done = g.fw_upgrade_done ∧ r.1.geckofile.opened = g.geckofile.opened := by
  intro fuel
  induction fuel with
  | zero => intro g r h; simp [chunk_loop] at h
  | succ fuel ih =>
    intro g r h
    rw [chunk_loop] at h
    have hr1 : (if g.chunk_cnt ≠ 0 then file_read_flash E g else (g, 0)).1.fw_upgrade_done =
          g.fw_upgrade_done ∧
        (if g.chunk_cnt ≠ 0 then file_read_flash E g else (g, 0)).1.geckofile.opened =
          g.geckofile.opened := by
      split_ifs
      · exact ⟨frf_fw_upgrade_done _ _, frf_opened _ _⟩
      · exact ⟨rfl, rfl⟩
    generalize (if g.chunk_cnt ≠ 0 then file_read_flash E g else (g, 0)) = r1 at h hr1
    dsimp only at h
    have hr2 : (file_read_flash E r1.1).1.fw_upgrade_done = r1.1.fw_upgrade_done ∧
        (file_read_flash E r1.1).1.geckofile.opened = r1.1.geckofile.opened :=
      ⟨frf_fw_upgrade_done _ _, frf_opened _ _⟩
    generalize file_read_flash E r1.1 = r2 at h hr2
    split_ifs at h
    all_goals first
      | (injection h with h
         subst h
         exact ⟨by first | rfl | exact hr1.1 | exact hr2.1.trans hr1.1,
           by first | rfl | exact hr1.2 | exact hr2.2.trans hr1.2⟩)
      | (have hrec := ih _ _ h
         exact ⟨hrec.1.trans hr1.1, hrec.2.trans hr1.2⟩)

/-! ## The running CRC of a transfer, for any read faults -/

theorem frf_crc32_ok (E : Env σ κ) (g : Globals σ κ)
    (hok : g.geckofile.calls ∉ g.geckofile.faults) :
    (file_read_flash E g).1.crc32 =
      if 0 < (next_chunk g.geckofile).length
      then E.crc32_ieee_update g.crc32 (next_chunk g.geckofile) else g.crc32 := by
  rw [frf_eq_ok E g hok]
  dsimp only
  split_ifs with hb
  · show E.crc32_ieee_update g.crc32
      ((after_fs_read g).image_buffer.take (next_chunk g.geckofile).length) = _
    congr 1
    exact take_store _ _
  · rfl

/-- One healthy read of the transfer: the next chunk enters the running CRC
with its actual length, and a read at the end of the file changes nothing. -/
theorem streamed_read (E : Env σ κ) (c0 : Nat) (img : List Nat) (j : Nat) (g : Globals σ κ)
    (h : Streamed E c0 img j g) (hok : g.geckofile.calls ∉ g.geckofile.faults) :
    Streamed E c0 img (j + 1) (file_read_flash E g).1 ∧
      (file_read_flash E g).1.readbytes =
        ((min ((j + 1) * 2048) img.length - min (j * 2048) img.length : Nat) : Int) := by
  have hnc : next_chunk g.geckofile = (img.drop (min (j * 2048) img.length)).take 2048 := by
    unfold next_chunk
    rw [h.data, h.pos]
  have hlen : (next_chunk g.geckofile).length = min ((j + 1) * 2048) img.length -
      min (j * 2048) img.length := by
    rw [hnc, List.length_take, List.length_drop]
    omega
  have hgf := frf_geckofile_ok E g hok
  refine ⟨⟨?_, ?_, ?_⟩, ?_⟩
  · rw [hgf]
    exact h.data
  · rw [hgf]
    show g.geckofile.pos + (next_chunk g.geckofile).length = _
    rw [h.pos, hlen]
    omega
  · rw [frf_crc32_ok E g hok, h.crc32]
    by_cases hcase : j * 2048 < img.length
    · have hmin : min (j * 2048) img.length = j * 2048 := by omega
      have hjn : min j (num_chunks img.length) = j := by
        unfold num_chunks
        omega
      have hjn1 : min (j + 1) (num_chunks img.length) = j + 1 := by
        unfold num_chunks
        omega
      have hnc' : next_chunk g.geckofile = chunk_at img j := by
        rw [hnc, hmin]
        rfl
      rw [if_pos (by rw [hlen]; omega), hjn, hjn1, crc_of_chunks_succ, hnc']
    · have hjn : min j (num_chunks img.length) = num_chunks img.length := by
        unfold num_chunks
        omega
      have hjn1 : min (j + 1) (num_chunks img.length) = num_chunks img.length := by
        unfold num_chunks
        omega
      rw [if_neg (by rw [hlen]; omega), hjn, hjn1]
  · rw [frf_readbytes_ok E g hok, hlen]

/-- The chunk loop, for any read faults: it ends with `return -1`, or it sets
`GECKO_FW_UPGRADE_DONE` with the running CRC folded over all chunks of the
image. It is not left in any other way. -/
theorem chunk_loop_feeding (E : Env σ κ) (c0 : Nat) (img : List Nat) (N Z : Nat)
    (hZ : img.length ≤ Z) (hN : num_chunks img.length ≤ N)
    (hN1 : 1 ≤ N) (hN32 : N < 4294967296) (hS : img.length < 2147483648) :
    ∀ (fuel j : Nat) (g : Globals σ κ) (r : Globals σ κ × Option Int),
      Feeding E c0 img N Z j g → chunk_loop E fuel g = some r →
      r.2 = some (-1) ∨
        (r.2 = none ∧ r.1.state = gecko_app_state.GECKO_FW_UPGRADE_DONE ∧
          r.1.crc32 = crc_of_chunks E c0 img (num_chunks img.length) ∧
          r.1.fw_upgrade_done = 0) := by
  intro fuel
  induction fuel with
  | zero => intro j g r _ h; simp [chunk_loop] at h
  | succ fuel ih =>
    intro j g r hf h
    have hoff : g.offset ≤ g.fw_image_size := by
      rw [hf.offset, hf.fw_image_size]
      omega
    by_cases hc0 : g.chunk_cnt = 0
    · by_cases hst : g.status = 0
      · rw [chunk_loop_first E fuel g hc0 hst hoff] at h
        refine ih j _ r ?_ h
        refine
          { streamed := ⟨hf.streamed.data, hf.streamed.pos, hf.streamed.crc32⟩, offset := ?_,
            chunk_cnt := ?_, rb0 := ?_, chunk_check := hf.chunk_check,
            fw_image_size := hf.fw_image_size, done := hf.done }
        · show to_uint32 ((g.offset : Int) + g.readbytes) = _
          rw [hf.rb0 hc0, hf.offset]
          unfold to_uint32
          omega
        · show (g.chunk_cnt + 1) % 4294967296 ≤ j + 1
          rw [hc0]
          omega
        · intro hz
          have hz' : (g.chunk_cnt + 1) % 4294967296 = 0 := hz
          rw [hc0] at hz'
          omega
      · rw [chunk_loop] at h
        simp only [hc0, hst, hoff, not_true_eq_false, ne_eq, if_false, if_true,
          not_false_eq_true] at h
        injection h with h
        left
        rw [← h]
    · by_cases hflt : g.geckofile.calls ∈ g.geckofile.faults
      · rw [chunk_loop_fault E fuel g hc0 hoff (by
          rw [frf_fault E g hflt]
          show (-1 : Int) ≠ 0
          decide)] at h
        injection h with h
        left
        rw [← h]
      · have hrc := frf_rc_ok E g hflt
        have hst := frf_status_ok E g hflt
        obtain ⟨hs1, hrb⟩ := streamed_read E c0 img j g hf.streamed hflt
        by_cases hlast : g.chunk_cnt = (g.chunk_check + 4294967295) % 4294967296
        · by_cases hflt2 : (file_read_flash E g).1.geckofile.calls ∈
              (file_read_flash E g).1.geckofile.faults
          · rw [chunk_loop_last_fault E fuel g hc0 hlast hoff hrc (by
              rw [frf_fault _ _ hflt2]
              show (-1 : Int) ≠ 0
              decide)] at h
            injection h with h
            left
            rw [← h]
          · rw [chunk_loop_last_ok E fuel g hc0 hlast hoff hrc (frf_rc_ok _ _ hflt2)
              (frf_status_ok _ _ hflt2)] at h
            injection h with h
            right
            rw [← h]
            obtain ⟨hs2, -⟩ := streamed_read E c0 img (j + 1) _ hs1 hflt2
            refine ⟨rfl, rfl, ?_, ?_⟩
            · show (file_read_flash E (file_read_flash E g).1).1.crc32 = _
              rw [hs2.crc32]
              congr 1
              have hcc := hf.chunk_cnt
              rw [hf.chunk_check] at hlast
              omega
            · show (file_read_flash E (file_read_flash E g).1).1.fw_upgrade_done = 0
              rw [frf_fw_upgrade_done, frf_fw_upgrade_done, hf.done]
        · rw [chunk_loop_mid_ok E fuel g hc0 hlast hoff hrc hst] at h
          refine ih (j + 1) _ r ?_ h
          refine
            { streamed := ⟨hs1.data, hs1.pos, hs1.crc32⟩, offset := ?_, chunk_cnt := ?_,
              rb0 := ?_, chunk_check := ?_, fw_image_size := ?_, done := ?_ }
          · show to_uint32 (((file_read_flash E g).1.offset : Int) +
              (file_read_flash E g).1.readbytes) = _
            rw [frf_offset, hrb, hf.offset]
            unfold to_uint32
            omega
          · show ((file_read_flash E g).1.chunk_cnt + 1) % 4294967296 ≤ j + 1 + 1
            rw [frf_chunk_cnt]
            have := hf.chunk_cnt
            omega
          · intro hz
            have hz' : ((file_read_flash E g).1.chunk_cnt + 1) % 4294967296 = 0 := hz
            rw [frf_chunk_cnt] at hz'
            show (file_read_flash E g).1.readbytes = 0
            rw [hrb]
            have := hf.chunk_cnt
            omega
          · show (file_read_flash E g).1.chunk_check = N
            rw [frf_chunk_check, hf.chunk_check]
          · show (file_read_flash E g).1.fw_image_size = Z
            rw [frf_fw_image_size, hf.fw_image_size]
          · show (file_read_flash E g).1.fw_upgrade_done = 0
            rw [frf_fw_upgrade_done, hf.done]

/-! ## What holds between calls -/

/-- A successful `fs_open` found the handle free and the file present. -/
theorem fs_open_some (zfp : fs_file_t) (content : Option (List Nat)) (faults : List Nat)
    (f : fs_file_t) (h : fs_open zfp content faults = some f) :
    zfp.opened = false ∧ ∃ d, content = some d ∧
      f = { data := d, pos := 0, calls := 0, faults := faults, opened := true } := by
  unfold fs_open at h
  cases ho : zfp.opened with
  | true =>
    rw [ho] at h
    simp at h
  | false =>
    rw [ho] at h
    cases content with
    | none => simp at h
    | some d =>
      simp only [Bool.false_eq_true, if_false, Option.some.injEq] at h
      exact ⟨rfl, d, rfl, h.symm⟩

theorem fs_open_opened (zfp : fs_file_t) (content : Option (List Nat)) (faults : List Nat)
    (f : fs_file_t) (h : fs_open zfp content faults = some f) : f.opened = true := by
  obtain ⟨-, d, -, rfl⟩ := fs_open_some zfp content faults f h
  rfl

/-- The body of `case GECKO_FW_UPGRADE:` neither completes an upgrade nor
opens or closes the image file. -/
theorem case_frame (E : Env σ κ) (slot : Int) (fuel : Nat) (g : Globals σ κ)
    (r : Globals σ κ × Option Int) (h : case_GECKO_FW_UPGRADE E slot fuel g = some r) :
    r.1.fw_upgrade_done = g.fw_upgrade_done ∧ r.1.geckofile.opened = g.geckofile.opened := by
  unfold case_GECKO_FW_UPGRADE get_gecko_fw_size at h
  cases hsz : get_gecko_fw_size_loop E fuel { g with totalreadbytes := 0 } with
  | none =>
    rw [hsz] at h
    simp at h
  | some p =>
    obtain ⟨p1, Z⟩ := p
    obtain ⟨hfr, -, -⟩ := fw_size_loop_any E fuel _ _ hsz
    have ho : p1.geckofile.opened = g.geckofile.opened := fw_size_loop_opened E fuel _ _ hsz
    have hd : p1.fw_upgrade_done = g.fw_upgrade_done := congrArg (·.fw_upgrade_done) hfr
    rw [hsz] at h
    dsimp only at h
    have hsp := (get_gecko_sha1_spec ({ p1 with fw_image_size := Z } : Globals σ κ)).2
    have hsd : (get_gecko_sha1 ({ p1 with fw_image_size := Z } : Globals σ κ)).1.fw_upgrade_done =
        p1.fw_upgrade_done := congrArg (·.fw_upgrade_done) hsp
    have hso : (get_gecko_sha1 ({ p1 with fw_image_size := Z } : Globals σ κ)).1.geckofile =
        p1.geckofile := congrArg (·.geckofile) hsp
    clear hsp
    generalize get_gecko_sha1 ({ p1 with fw_image_size := Z } : Globals σ κ) = s at h hsd hso
    split_ifs at h
    all_goals first
      | (injection h with h
         subst h
         exact ⟨by first | exact hd | exact hsd.trans hd,
           by first | exact ho | exact (congrArg (·.opened) hso).trans ho⟩)
      | (have hrec := chunk_loop_frame E fuel _ _ h
         exact ⟨hrec.1.trans (hsd.trans hd),
           hrec.2.trans ((congrArg (·.opened) hso).trans ho)⟩)

theorem upgrade_loop_init_state (E : Env σ κ) (slot : Int) (fuel : Nat) (g : Globals σ κ)
    (hd : g.fw_upgrade_done = 0) (hs : g.state = gecko_app_state.GECKO_INIT_STATE) :
    upgrade_loop E slot (fuel + 1) g = upgrade_loop E slot fuel g := by
  rw [upgrade_loop]
  simp only [hd, hs, ne_eq, not_true_eq_false, if_false]

/-- The loop `while (!fw_upgrade_done)`: it ends in the reboot, or it returns
with no upgrade completed and the image file handle as it was. -/
theorem upgrade_loop_frame (E : Env σ κ) (slot : Int) :
    ∀ (fuel : Nat) (g : Globals σ κ) (r : Globals σ κ × Exit),
      g.fw_upgrade_done = 0 → upgrade_loop E slot fuel g = some r →
      r.2 = Exit.rebooted ∨
        (r.1.fw_upgrade_done = 0 ∧ r.1.geckofile.opened = g.geckofile.opened) := by
  intro fuel
  induction fuel with
  | zero => intro g r _ h; simp [upgrade_loop] at h
  | succ fuel ih =>
    intro g r hd h
    cases hst : g.state with
    | GECKO_INITIAL_STATE =>
      rw [upgrade_loop_initial E slot fuel g hd hst] at h
      cases hc : case_GECKO_FW_UPGRADE E slot fuel (case_GECKO_INITIAL_STATE E g) with
      | none =>
        rw [hc] at h
        simp at h
      | some q =>
        obtain ⟨q1, q2⟩ := q
        have hf := case_frame E slot fuel _ _ hc
        rw [hc] at h
        cases q2 with
        | some v =>
          dsimp only at h
          injection h with h
          subst h
          exact Or.inr ⟨hf.1.trans hd, hf.2⟩
        | none =>
          dsimp only at h
          rcases ih q1 r (hf.1.trans hd) h with hr | hr
          · exact Or.inl hr
          · exact Or.inr ⟨hr.1, hr.2.trans hf.2⟩
    | GECKO_FW_UPGRADE =>
      rw [upgrade_loop_upgrade E slot fuel g hd hst] at h
      cases hc : case_GECKO_FW_UPGRADE E slot fuel g with
      | none =>
        rw [hc] at h
        simp at h
      | some q =>
        obtain ⟨q1, q2⟩ := q
        have hf := case_frame E slot fuel _ _ hc
        rw [hc] at h
        cases q2 with
        | some v =>
          dsimp only at h
          injection h with h
          subst h
          exact Or.inr ⟨hf.1.trans hd, hf.2⟩
        | none =>
          dsimp only at h
          rcases ih q1 r (hf.1.trans hd) h with hr | hr
          · exact Or.inl hr
          · exact Or.inr ⟨hr.1, hr.2.trans hf.2⟩
    | GECKO_FW_UPGRADE_DONE =>
      rw [upgrade_loop_done_state E slot fuel g hd hst] at h
      injection h with h
      subst h
      exact Or.inl rfl
    | GECKO_INIT_STATE =>
      rw [upgrade_loop_init_state E slot fuel g hd hst] at h
      exact ih g r hd h

/-- A call on a busy image file handle: `fs_open` fails, and the call returns 1
having stored the requested slot and nothing else. -/
theorem dfu_busy (E : Env σ κ) (fuel : Nat) (g : Globals σ κ) (req : Request)
    (hb : g.geckofile.opened = true) :
    dfu_gecko_write_image E fuel g req =
      some ({ g with requested_slot_to_upgrade := req.slot_to_upgrade }, Exit.returned 1) := by
  unfold dfu_gecko_write_image
  dsimp only
  rw [fs_open_busy _ _ _ hb]

/-- A call that returns keeps what holds between calls. -/
theorem settled_call (E : Env σ κ) (fuel : Nat) (g g' : Globals σ κ) (req : Request) (v : Int)
    (hs : Settled g) (h : dfu_gecko_write_image E fuel g req = some (g', Exit.returned v)) :
    Settled g' := by
  unfold dfu_gecko_write_image at h
  dsimp only at h
  cases hb : fs_open g.geckofile req.bin_file req.bin_faults with
  | none =>
    rw [hb] at h
    injection h with h
    injection h with h1 h2
    subst h1
    exact ⟨hs.done, hs.idle⟩
  | some f =>
    have hfo : f.opened = true := fs_open_opened _ _ _ _ hb
    rw [hb] at h
    dsimp only at h
    cases hsh : fs_open g.gecko_sha1_file req.sha_file req.sha_faults with
    | none =>
      rw [hsh] at h
      injection h with h
      injection h with h1 h2
      subst h1
      refine ⟨hs.done, fun ho => ?_⟩
      have ho' : f.opened = false := ho
      rw [hfo] at ho'
      exact absurd ho' (by decide)
    | some f2 =>
      rw [hsh] at h
      dsimp only at h
      rcases upgrade_loop_frame E req.slot_to_upgrade fuel _ _ (by
        show (write_image_chunk_to_flash E _ _ _ _ _).1.fw_upgrade_done = 0
        rw [wicf_fw_upgrade_done]
        exact hs.done) h with hr | hr
      · exact absurd hr (by intro e; cases e)
      · refine ⟨hr.1, fun ho => ?_⟩
        have ho' := hr.2
        rw [wicf_geckofile] at ho'
        have ho2 : g'.geckofile.opened = true := ho'.trans hfo
        rw [ho] at ho2
        exact absurd ho2 (by decide)

/-- Every state that calls of `dfu_gecko_write_image` can find is settled. -/
theorem settled_of_reachable (E : Env σ κ) (g : Globals σ κ) (h : Reachable E g) :
    Settled g := by
  induction h with
  | reset s0 k0 => exact ⟨rfl, fun _ => ⟨rfl, rfl, rfl, rfl⟩⟩
  | call g g' req fuel v _ hcall ih => exact settled_call E fuel g g' req v ih hcall

/-! ## The running CRC of an upgrade that completes -/

theorem case_crc (E : Env σ κ) (slot : Int) (fuel : Nat) (g : Globals σ κ) (img : List Nat)
    (r : Globals σ κ × Option Int)
    (hdata : g.geckofile.data = img) (hpos : g.geckofile.pos = 0)
    (hS : img.length < 2147483648) (hcc : g.chunk_cnt = 0) (hoff : g.offset = 0)
    (hd : g.fw_upgrade_done = 0)
    (h : case_GECKO_FW_UPGRADE E slot fuel g = some r) :
    r.2 = some (-1) ∨
      (r.2 = none ∧ r.1.state = gecko_app_state.GECKO_FW_UPGRADE_DONE ∧
        r.1.crc32 = crc_of_chunks E g.crc32 img (num_chunks img.length) ∧
        r.1.fw_upgrade_done = 0) := by
  unfold case_GECKO_FW_UPGRADE get_gecko_fw_size at h
  cases hsz : get_gecko_fw_size_loop E fuel { g with totalreadbytes := 0 } with
  | none =>
    rw [hsz] at h
    simp at h
  | some p =>
    obtain ⟨p1, Z⟩ := p
    obtain ⟨hfr, hpd, hz⟩ := fw_size_loop_any E fuel _ _ hsz
    dsimp only at hfr hpd hz
    rw [hpos, hdata, List.drop_zero] at hz
    have hZ : Z = 4294967295 ∨ Z = img.length := by
      rcases hz with hz | hz
      · exact Or.inl hz
      · right
        rw [hz]
        unfold to_uint32
        omega
    rw [hsz] at h
    dsimp only at h
    have hp_cc : p1.chunk_cnt = 0 := (congrArg (·.chunk_cnt) hfr).trans hcc
    have hp_off : p1.offset = 0 := (congrArg (·.offset) hfr).trans hoff
    have hp_crc : p1.crc32 = g.crc32 := congrArg (·.crc32) hfr
    have hp_done : p1.fw_upgrade_done = 0 := (congrArg (·.fw_upgrade_done) hfr).trans hd
    have hp_data : p1.geckofile.data = img := hpd.trans hdata
    have hsp := (get_gecko_sha1_spec ({ p1 with fw_image_size := Z } : Globals σ κ)).2
    have hs_cc : (get_gecko_sha1 ({ p1 with fw_image_size := Z } : Globals σ κ)).1.chunk_cnt = 0 :=
      (congrArg (·.chunk_cnt) hsp).trans hp_cc
    have hs_off : (get_gecko_sha1 ({ p1 with fw_image_size := Z } : Globals σ κ)).1.offset = 0 :=
      (congrArg (·.offset) hsp).trans hp_off
    have hs_crc : (get_gecko_sha1 ({ p1 with fw_image_size := Z } : Globals σ κ)).1.crc32 =
        g.crc32 := (congrArg (·.crc32) hsp).trans hp_crc
    have hs_done : (get_gecko_sha1 ({ p1 with fw_image_size := Z } : Globals σ κ)).1.fw_upgrade_done
        = 0 := (congrArg (·.fw_upgrade_done) hsp).trans hp_done
    have hs_data : (get_gecko_sha1 ({ p1 with fw_image_size := Z } : Globals σ κ)).1.geckofile.data
        = img := (congrArg (·.geckofile.data) hsp).trans hp_data
    have hs_Z : (get_gecko_sha1 ({ p1 with fw_image_size := Z } : Globals σ κ)).1.fw_image_size
        = Z := congrArg (·.fw_image_size) hsp
    clear hsp
    have hs_all := And.intro hs_cc (And.intro hs_off (And.intro hs_crc
      (And.intro hs_done (And.intro hs_data hs_Z))))
    clear hs_cc hs_off hs_crc hs_done hs_data hs_Z
    generalize get_gecko_sha1 ({ p1 with fw_image_size := Z } : Globals σ κ) = s at h hs_all
    obtain ⟨hs_cc, hs_off, hs_crc, hs_done, hs_data, hs_Z⟩ := hs_all
    by_cases hgate : Z = 0 ∨ Z < DFU_CHUNK_SIZE
    · rw [if_pos hgate] at h
      injection h with h
      left
      rw [← h]
    · rw [if_neg hgate] at h
      by_cases h2 : s.2 ≠ 0
      · rw [if_pos h2] at h
        injection h with h
        left
        rw [← h]
      · rw [if_neg h2] at h
        by_cases h3 : compare_sha1 s.1 slot ≠ 0
        · rw [if_pos h3] at h
          injection h with h
          left
          rw [← h]
        · rw [if_neg h3] at h
          have hZ2 : 2048 ≤ Z := by
            unfold DFU_CHUNK_SIZE at hgate
            omega
          refine chunk_loop_feeding E g.crc32 img
            (if Z % 2048 ≠ 0 then (Z / 2048 + 1) % 4294967296 else Z / 2048) Z
            ?_ ?_ ?_ ?_ hS fuel 0 _ r ?_ h
          · rcases hZ with hZ | hZ <;> omega
          · unfold num_chunks
            split_ifs <;> rcases hZ with hZ | hZ <;> omega
          · split_ifs <;> omega
          · split_ifs <;> rcases hZ with hZ | hZ <;> omega
          · refine
              { streamed := ⟨?_, ?_, ?_⟩, offset := ?_, chunk_cnt := ?_, rb0 := fun _ => rfl,
                chunk_check := ?_, fw_image_size := ?_, done := ?_ }
            · show (fs_seek _ 0).data = img
              unfold fs_seek
              split_ifs <;> exact hs_data
            · show (0 : Nat) = min (0 * 2048) img.length
              rw [Nat.zero_mul, Nat.zero_min]
            · rw [Nat.zero_min, crc_of_chunks_zero]
              split_ifs <;> exact hs_crc
            · rw [Nat.zero_mul, Nat.zero_min]
              split_ifs <;> exact hs_off
            · show _ ≤ 0 + 1
              split_ifs <;> exact (le_of_eq hs_cc).trans (Nat.zero_le _)
            · dsimp only
              rw [← hs_Z]
              unfold DFU_CHUNK_SIZE
              split_ifs <;> rfl
            · split_ifs <;> exact hs_Z
            · split_ifs <;> exact hs_done

/-- A call that enters the loop `while (!fw_upgrade_done)` idle, with the chunk
counter and the offset at zero, and ends in the reboot has folded the running
CRC over all chunks of the image, whatever reads failed on the way. -/
theorem upgrade_loop_crc (E : Env σ κ) (slot : Int) (fuel : Nat) (g : Globals σ κ)
    (img : List Nat) (g' : Globals σ κ)
    (hst : g.state = gecko_app_state.GECKO_INITIAL_STATE)
    (hdata : g.geckofile.data = img) (hpos : g.geckofile.pos = 0)
    (hS : img.length < 2147483648) (hcc : g.chunk_cnt = 0) (hoff : g.offset = 0)
    (hd : g.fw_upgrade_done = 0)
    (h : upgrade_loop E slot fuel g = some (g', Exit.rebooted)) :
    g'.crc32 = crc_of_chunks E g.crc32 img (num_chunks img.length) := by
  cases fuel with
  | zero => simp [upgrade_loop] at h
  | succ fuel =>
    rw [upgrade_loop_initial E slot fuel g hd hst] at h
    cases hc : case_GECKO_FW_UPGRADE E slot fuel (case_GECKO_INITIAL_STATE E g) with
    | none =>
      rw [hc] at h
      simp at h
    | some q =>
      obtain ⟨q1, q2⟩ := q
      have ho := case_crc E slot fuel (case_GECKO_INITIAL_STATE E g) img _ hdata hpos hS hcc
        hoff hd hc
      rw [hc] at h
      rcases ho with ho | ⟨ho, hs1, hcrc, hd1⟩
      · have ho' : q2 = some (-1) := ho
        subst ho'
        dsimp only at h
        injection h with h
        injection h with h1 h2
        cases h2
      · have ho' : q2 = none := ho
        subst ho'
        dsimp only at h
        cases fuel with
        | zero => simp [upgrade_loop] at h
        | succ fuel =>
          rw [upgrade_loop_done_state E slot fuel q1 hd1 hs1] at h
          injection h with h
          injection h with h1 h2
          subst h1
          exact hcrc

/-- With a checksum that can be fed in pieces, the fold over the first `n`
chunks is the checksum of the first `n * 2048` bytes. -/
theorem crc_of_chunks_take (E : Env σ κ) (c : Nat) (img : List Nat)
    (hlaw : ∀ c a b, E.crc32_ieee_update (E.crc32_ieee_update c a) b =
      E.crc32_ieee_update c (a ++ b)) :
    ∀ n, crc_of_chunks E c img (n + 1) = E.crc32_ieee_update c (img.take ((n + 1) * 2048)) := by
  intro n
  induction n with
  | zero =>
    rw [crc_of_chunks_succ, crc_of_chunks_zero]
    unfold chunk_at
    rw [Nat.zero_mul, List.drop_zero, Nat.zero_add, Nat.one_mul]
  | succ n ih =>
    rw [crc_of_chunks_succ, ih, hlaw]
    unfold chunk_at
    rw [show (n + 1 + 1) * 2048 = (n + 1) * 2048 + 2048 by omega, List.take_add]

/-- With a checksum that can be fed in pieces and that maps the initial value 0
and no bytes to 0, the fold over all chunks of the image is the checksum of the
image. -/
theorem crc_of_chunks_all (E : Env σ κ) (img : List Nat)
    (hlaw : ∀ c a b, E.crc32_ieee_update (E.crc32_ieee_update c a) b =
      E.crc32_ieee_update c (a ++ b))
    (h0 : E.crc32_ieee_update 0 [] = 0) :
    crc_of_chunks E 0 img (num_chunks img.length) = E.crc32_ieee_update 0 img := by
  by_cases hl : img.length = 0
  · have himg : img = [] := List.length_eq_zero.1 hl
    subst himg
    rw [show num_chunks ([] : List Nat).length = 0 from rfl, crc_of_chunks_zero, h0]
  · obtain ⟨n, hn⟩ : ∃ n, num_chunks img.length = n + 1 :=
      ⟨num_chunks img.length - 1, by unfold num_chunks; omega⟩
    rw [hn, crc_of_chunks_take E 0 img hlaw n, List.take_of_length_le]
    unfold num_chunks at hn
    omega

/-! ## The stand-in collaborators with a digest that depends on the data -/

theorem sha1_stream_sum :
    ∀ (n : Nat) (k : Nat) (data : List Nat), data.length ≤ n →
      sha1_stream sum_env k data = List.replicate 20 ((k + data.sum) % 256) := by
  intro n
  induction n with
  | zero =>
    intro k data h
    have : data = [] := List.length_eq_zero.1 (by omega)
    subst this
    rw [sha1_stream_eof sum_env k [] rfl]
    rfl
  | succ n ih =>
    intro k data h
    by_cases hb : data.take 2048 = []
    · have hd : data = [] := by
        cases data with
        | nil => rfl
        | cons a t => simp at hb
      subst hd
      rw [sha1_stream_eof _ _ _ hb]
      rfl
    · rw [sha1_stream_more _ _ _ hb]
      have hpos : 0 < (data.take 2048).length := List.length_pos.2 hb
      have hdrop : data.drop (data.take 2048).length = data.drop 2048 := by
        rw [List.length_take]
        by_cases hl : 2048 ≤ data.length
        · rw [Nat.min_eq_left hl]
        · rw [Nat.min_eq_right (by omega), List.drop_of_length_le (le_refl _),
            List.drop_of_length_le (by omega)]
      rw [ih _ _ (by
        simp only [List.length_drop, List.length_take] at hpos ⊢
        omega), hdrop]
      show List.replicate 20 ((k + (data.take 2048).sum + (data.drop 2048).sum) % 256) = _
      rw [Nat.add_assoc, List.sum_take_add_sum_drop]

theorem img3_sum : img3.sum = 7644 := by
  simp only [img3, List.sum_append, List.sum_replicate, smul_eq_mul, Nat.reduceMul,
    Nat.reduceAdd]

theorem computed_sha1_sum (s0 : List Nat) (k0 : Nat) :
    computed_sha1 sum_env (Globals.fresh s0 k0) img3 = List.replicate 20 220 := by
  show sha1_stream sum_env 0 img3 = _
  rw [sha1_stream_sum img3.length 0 img3 (le_refl _), img3_sum]

theorem decoded_sha1_dc (s0 : σ) (k0 : κ) :
    decoded_sha1 (Globals.fresh s0 k0) (digest_of_pair 100 99) = List.replicate 20 220 := by
  unfold decoded_sha1
  show sha_hex_to_bin (store ((digest_of_pair 100 99).take (DFU_SHA1_LEN * 2))
    (List.replicate 40 0)) (List.replicate 20 0) (DFU_SHA1_LEN * 2) = List.replicate 20 220
  decide

theorem sum_env_crc_pieces (c : Nat) (a b : List Nat) :
    sum_env.crc32_ieee_update (sum_env.crc32_ieee_update c a) b =
      sum_env.crc32_ieee_update c (a ++ b) := by
  show ((c + a.sum) % 4294967296 + b.sum) % 4294967296 = (c + (a ++ b).sum) % 4294967296
  rw [List.sum_append]
  omega

/-! ## A request while an earlier one is outstanding -/

/-- C18: a call of `dfu_gecko_write_image` that finds the orchestrator out of
`GECKO_INITIAL_STATE`, in any state that earlier calls can have left behind, is
turned away at its first `fs_open`: the image file handle of the outstanding
attempt is still in use. The call returns 1 for every request and every fuel;
the source is not read, no flash call is issued, and the state, the counters,
the offset and the running CRC are unchanged. The one static variable written
is `requested_slot_to_upgrade`, which is assigned before the files are opened. -/
theorem C18_request_while_not_idle_is_turned_away (E : Env σ κ) (g : Globals σ κ)
    (hreach : Reachable E g) (hstate : g.state ≠ gecko_app_state.GECKO_INITIAL_STATE)
    (req : Request) (fuel : Nat) :
    dfu_gecko_write_image E fuel g req =
      some ({ g with requested_slot_to_upgrade := req.slot_to_upgrade }, Exit.returned 1) := by
  have hs := settled_of_reachable E g hreach
  have hb : g.geckofile.opened = true := by
    cases ho : g.geckofile.opened with
    | true => rfl
    | false => exact absurd (hs.idle ho).1 hstate
  exact dfu_busy E fuel g req hb

/-- C18, after a first call that was aborted by the size check and left the
state at `GECKO_FW_UPGRADE`: a second call for the three-chunk image with a
matching digest file returns 1 and leaves everything but the requested slot as
it was. -/
theorem C18_request_while_not_idle_is_turned_away_witness :
    ∃ g1, dfu_gecko_write_image (sim_env 0 0) 5 (Globals.fresh [] ())
        { slot_to_upgrade := 1, bin_file := some img_small,
          sha_file := some (digest_of_char 48), bin_faults := [], sha_faults := [] } =
          some (g1, Exit.returned (-1)) ∧
      g1.state = gecko_app_state.GECKO_FW_UPGRADE ∧
      dfu_gecko_write_image (sim_env 0 0) 4600 g1
        { slot_to_upgrade := 0, bin_file := some img3,
          sha_file := some (digest_of_char 48), bin_faults := [], sha_faults := [] } =
          some ({ g1 with requested_slot_to_upgrade := 0 }, Exit.returned 1) := by
  obtain ⟨g1, hrun, hst, -⟩ := run_gate_abort (sim_env 0 0) (Globals.fresh [] ()) 1 img_small
    (digest_of_char 48) [] (Or.inl rfl) rfl rfl rfl (Or.inl (by decide)) 5 (by decide)
  exact ⟨g1, hrun, hst,
    C18_request_while_not_idle_is_turned_away (sim_env 0 0) g1
      (Reachable.call _ _ _ _ _ (Reachable.reset [] ()) hrun)
      (by rw [hst]; decide) _ 4600⟩

/-! ## The running CRC of an upgrade that completes -/

/-- C19: whenever a call of `dfu_gecko_write_image`, made in any state that
earlier calls can have left behind, ends in the reboot, the running CRC is
`crc32_ieee_update` folded from 0 over the chunks of the image in source order,
each chunk with its actual length, whatever reads failed on the way; with a
checksum that can be fed in pieces this is the checksum of the bytes of the
image, without the padding of the final page. An attempt that was aborted after
the image file was opened leaves its handle in use, so no later call gets past
`fs_open` with the CRC such an attempt has left behind. -/
theorem C19_completed_crc_is_fold_over_image_chunks (E : Env σ κ) (g : Globals σ κ)
    (hreach : Reachable E g) (req : Request) (img : List Nat)
    (hbin : req.bin_file = some img) (hS : img.length < 2147483648)
    (fuel : Nat) (g' : Globals σ κ)
    (hrun : dfu_gecko_write_image E fuel g req = some (g', Exit.rebooted)) :
    g'.crc32 = crc_of_chunks E 0 img (num_chunks img.length) ∧
      ((∀ c a b, E.crc32_ieee_update (E.crc32_ieee_update c a) b =
          E.crc32_ieee_update c (a ++ b)) →
        E.crc32_ieee_update 0 [] = 0 →
        g'.crc32 = E.crc32_ieee_update 0 img) := by
  have hs := settled_of_reachable E g hreach
  have hbo : g.geckofile.opened = false := by
    cases ho : g.geckofile.opened with
    | false => rfl
    | true =>
      rw [dfu_busy E fuel g req ho] at hrun
      injection hrun with h
      injection h with h1 h2
      cases h2
  have hsha : ∃ digest, req.sha_file = some digest ∧ g.gecko_sha1_file.opened = false := by
    have h2 := hrun
    unfold dfu_gecko_write_image at h2
    dsimp only at h2
    rw [hbin, fs_open_free _ _ _ hbo] at h2
    dsimp only at h2
    cases hsh : fs_open g.gecko_sha1_file req.sha_file req.sha_faults with
    | none =>
      rw [hsh] at h2
      injection h2 with h
      injection h with h1 h2
      cases h2
    | some f2 =>
      obtain ⟨hso, d, hd, -⟩ := fs_open_some _ _ _ _ hsh
      exact ⟨d, hd, hso⟩
  obtain ⟨digest, hsf, hso⟩ := hsha
  rw [dfu_enter E fuel g req img digest hbin hsf hbo hso] at hrun
  obtain ⟨hst, hcc, hoff, hcrc⟩ := hs.idle hbo
  have key := upgrade_loop_crc E req.slot_to_upgrade fuel (entered g req img digest) img g'
    hst rfl rfl hS hcc hoff hs.done hrun
  rw [show (entered g req img digest).crc32 = 0 from hcrc] at key
  exact ⟨key, fun hlaw h0 => key.trans (crc_of_chunks_all E img hlaw h0)⟩

/-- C19, at a second call, made after a first call that found no image file:
with the digest stand-in that depends on the data, the three-chunk image and
the digest file that matches it, the call ends in the reboot and the running
CRC is the checksum of the 4596 bytes of the image. -/
theorem C19_completed_crc_is_fold_over_image_chunks_witness :
    dfu_gecko_write_image sum_env 0 (Globals.fresh [] 0)
        { slot_to_upgrade := 1, bin_file := none, sha_file := none, bin_faults := [],
          sha_faults := [] } =
      some ({ Globals.fresh [] 0 with requested_slot_to_upgrade := 1 }, Exit.returned 1) ∧
    ∃ g', dfu_gecko_write_image sum_env 4600
        { Globals.fresh [] 0 with requested_slot_to_upgrade := 1 }
        { slot_to_upgrade := 0, bin_file := some img3,
          sha_file := some (digest_of_pair 100 99), bin_faults := [], sha_faults := [] } =
          some (g', Exit.rebooted) ∧
      g'.crc32 = 7644 ∧ sum_env.crc32_ieee_update 0 img3 = 7644 := by
  have hfirst : dfu_gecko_write_image sum_env 0 (Globals.fresh [] 0)
      { slot_to_upgrade := 1, bin_file := none, sha_file := none, bin_faults := [],
        sha_faults := [] } =
      some ({ Globals.fresh [] 0 with requested_slot_to_upgrade := 1 }, Exit.returned 1) := rfl
  have hcrc : sum_env.crc32_ieee_update 0 img3 = 7644 := by
    show (0 + img3.sum) % 4294967296 = 7644
    rw [img3_sum]
  obtain ⟨g', hrun, -⟩ := run_completes sum_env 0 (fun _ _ _ => rfl)
    ({ Globals.fresh [] 0 with requested_slot_to_upgrade := 1 } : Globals (List Nat) Nat)
    { state := rfl, chunk_cnt := rfl, offset := rfl, status := rfl, done := rfl,
      bin_closed := rfl, sha_closed := rfl }
    0 img3 (digest_of_pair 100 99) (by decide) (by rw [img3_length]; omega)
    (by rw [img3_length]; omega)
    (by
      intro i _
      rw [show computed_sha1 sum_env
          ({ Globals.fresh [] 0 with requested_slot_to_upgrade := 1 } : Globals (List Nat) Nat)
          img3 = computed_sha1 sum_env (Globals.fresh [] 0) img3 from rfl,
        computed_sha1_sum,
        show decoded_sha1
          ({ Globals.fresh [] 0 with requested_slot_to_upgrade := 1 } : Globals (List Nat) Nat)
          (digest_of_pair 100 99) = decoded_sha1 (Globals.fresh ([] : List Nat) (0 : Nat))
            (digest_of_pair 100 99) from rfl,
        decoded_sha1_dc])
    4600 (by rw [img3_length]; omega)
  exact ⟨hfirst, g', hrun,
    ((C19_completed_crc_is_fold_over_image_chunks sum_env _
      (Reachable.call _ _ _ _ _ (Reachable.reset [] 0) hfirst) _ img3 rfl
      (by rw [img3_length]; omega) 4600 g' hrun).2 sum_env_crc_pieces rfl).trans hcrc, hcrc⟩

/-! ## Equal versions in both slots -/

/-- C9, amended: when both slots carry the valid magic and their versions are
equal in major, minor and revision, `get_oldest_slot` returns -1, whatever the
build numbers, and no slot is chosen; the 0 of the documented tie is what it
returns when neither slot carries the valid magic. -/
theorem C9_equal_versions_give_error_and_no_image_gives_0 (M : Nat) (b0 b1 : List Nat) :
    ((deserialize_magic_hdr b0).ih_magic = M → (deserialize_magic_hdr b1).ih_magic = M →
      (deserialize_magic_hdr b0).ih_ver.iv_major = (deserialize_magic_hdr b1).ih_ver.iv_major →
      (deserialize_magic_hdr b0).ih_ver.iv_minor = (deserialize_magic_hdr b1).ih_ver.iv_minor →
      (deserialize_magic_hdr b0).ih_ver.iv_revision =
        (deserialize_magic_hdr b1).ih_ver.iv_revision →
      get_oldest_slot M b0 b1 = -1) ∧
    ((deserialize_magic_hdr b0).ih_magic ≠ M → (deserialize_magic_hdr b1).ih_magic ≠ M →
      get_oldest_slot M b0 b1 = 0) := by
  refine ⟨fun h0 h1 hma hmi hre => ?_, fun h0 h1 => ?_⟩
  · rw [get_oldest_slot_both M b0 b1 h0 h1,
      slot_version_cmp_eq _ _ ((ver_key_eq_iff _ _).2 ⟨hma, hmi, hre⟩)]
    rfl
  · rw [get_oldest_slot_not_both M b0 b1 (fun h => h0 h.1), if_neg h0]

/-- C9, amended, at two valid headers of version 4.5.6 with the build numbers 1
and 2, and at two headers without the valid magic. -/
theorem C9_equal_versions_give_error_and_no_image_gives_0_witness :
    get_oldest_slot IMAGE_MAGIC (mk_hdr_buf IMAGE_MAGIC 4 5 6 1)
      (mk_hdr_buf IMAGE_MAGIC 4 5 6 2) = -1 ∧
    get_oldest_slot IMAGE_MAGIC (mk_hdr_buf 0xffffffff 4 5 6 1)
      (mk_hdr_buf 0 9 9 9 9) = 0 :=
  ⟨(C9_equal_versions_give_error_and_no_image_gives_0 IMAGE_MAGIC
      (mk_hdr_buf IMAGE_MAGIC 4 5 6 1) (mk_hdr_buf IMAGE_MAGIC 4 5 6 2)).1
      (by decide) (by decide) (by decide) (by decide) (by decide),
    (C9_equal_versions_give_error_and_no_image_gives_0 IMAGE_MAGIC
      (mk_hdr_buf 0xffffffff 4 5 6 1) (mk_hdr_buf 0 9 9 9 9)).2 (by decide) (by decide)⟩

/-! ## The integrity gate after a failed read of the size pass -/

/-- C1 fails on the code: with the digest stand-in that depends on the data,
the three-chunk image has the digest of twenty bytes 220, and the digest file
of forty characters `0` decodes to twenty zero bytes, so the two differ in
every byte. When the second read of the size pass fails, the digest of the
image is never finished, `gecko_sha1_output` keeps the zeros of the `memset`
and `compare_sha1` finds no difference: the call does not return -1, the three
pages of slot 0 are erased, written and read back, and the call ends in the
reboot. -/
theorem C1_mismatched_image_is_flashed_after_failed_size_read :
    (∀ i, i < 20 →
      byteAt (computed_sha1 sum_env (Globals.fresh [] 0) img3) i ≠
        byteAt (decoded_sha1 (Globals.fresh ([] : List Nat) (0 : Nat)) (digest_of_char 48)) i) ∧
    ∃ g', dfu_gecko_write_image sum_env 2097153 (Globals.fresh [] 0)
        { slot_to_upgrade := 0, bin_file := some img3,
          sha_file := some (digest_of_char 48), bin_faults := [1], sha_faults := [] } =
          some (g', Exit.rebooted) ∧
      g'.flash_log =
        [FlashOp.erase 65536 2048, FlashOp.write 65536 (List.replicate 2048 1),
         FlashOp.read 65536 2048,
         FlashOp.erase 67584 2048, FlashOp.write 67584 (List.replicate 2048 2),
         FlashOp.read 67584 2048,
         FlashOp.erase 69632 2048,
         FlashOp.write 69632 (List.replicate 500 3 ++ List.replicate 1548 0),
         FlashOp.read 69632 500] := by
  refine ⟨?_, ?_⟩
  · intro i hi
    rw [computed_sha1_sum, decoded_sha1_zero]
    interval_cases i <;> decide
  · obtain ⟨g', hrun, -, -, hlog⟩ := run_unmeasured sum_env 0 (fun _ _ _ => rfl)
      (Globals.fresh [] 0) (ready_fresh _ _) 0 img3 (digest_of_char 48) 1
      (by rw [img3_length]; decide)
      (by decide) (by rw [img3_length]; omega)
      (by
        intro i _
        rw [decoded_sha1_zero])
      2097153 (le_refl _)
    refine ⟨g', hrun, ?_⟩
    rw [hlog, img3_length, show num_chunks 4596 = 3 by decide]
    simp only [padded_ops, img3_padded.1, img3_padded.2.1, img3_padded.2.2, img3_chunks.1,
      img3_chunks.2.1, img3_chunks.2.2, List.length_replicate, List.nil_append]
    rfl

end DfuGecko
